import Mathlib

/-!
# santiscoding: joystick → MIDI mapping programs

A shallow embedding of the C sources of the repository and the properties of the
combo registry, the button edge detector, the axis discretizer, the triggers, the pulse
mechanism, the report hash and the assignment of MIDI notes to buttons and sticks.

Conventions of the embedding
* `unsigned char` / `uint8_t` is `Fin 256`; arithmetic on bytes is done on `Int`
  after C's integer promotion, never in `Fin`.
* A pointer to bytes (`const unsigned char *buf`, `unsigned char data[BUF_SIZE]`) is the
  function giving the byte at each offset.
* A C `for` loop with counter `i` is a recursion on the number of iterations left.
* Output (lines written with `printf`, messages written with `Pm_Write`) is the list of
  items written, in order.
* A call of `exit` is the result `none`.
* The clock value that `get_current_millis()` returns in a call is an argument of the call.
-/

namespace Santiscoding

/-- The C type `unsigned char` (and `uint8_t`). -/
abbrev uint8_t := Fin 256

/-- A pointer to a block of bytes: the byte stored at each offset. -/
abbrev Bytes := Nat → uint8_t

/-- The block of bytes holding the given list, zero elsewhere. -/
def bytesOfList (l : List uint8_t) : Bytes := fun i => l.getD i 0

/-- The libc function `memcmp(a, b, n)`, comparing from offset `i` on: zero when the `n`
bytes agree, else the difference of the first pair of bytes that differ. -/
def memcmpFrom (a b : Bytes) (i : Nat) : Nat → Int
  | 0 => 0
  | n + 1 =>
    if a i = b i then memcmpFrom a b (i + 1) n
    else ((a i).val : Int) - ((b i).val : Int)

/-- The libc function `memcmp(a, b, n)`. -/
def memcmp (a b : Bytes) (n : Nat) : Int := memcmpFrom a b 0 n

/-- The libc function `memcpy(dst, src, n)`: the contents of `dst` afterwards. -/
def memcpy (dst src : Bytes) (n : Nat) : Bytes :=
  fun i => if i < n then src i else dst i

/-- The C type `uint16_t`. -/
abbrev uint16_t := Fin 65536

/-- The number of set bits among the lowest `w` bits of `n`. -/
def popcount : Nat → Nat → Nat
  | 0, _ => 0
  | w + 1, n => n % 2 + popcount w (n / 2)

/-- The Hamming distance of two 16-bit fields: the number of set bits of their XOR. -/
def hamming16 (a b : uint16_t) : Nat := popcount 16 (a.val ^^^ b.val)

/-! ## The axis discretizer shared by joystick_midi_combined.c, joystick_midi_debug_v2_fixed.c,
joystick_midi_map_full_v4.c, joystick_midi_map_full_v6.c and joystick_midi_map_full_v8.c -/

/-- The enum `JoystickDirection`. -/
inductive JoystickDirection
  | Neutral
  | Up
  | Down
  | Left
  | Right
  deriving DecidableEq, Repr

/-- The constant `DEADZONE`. -/
def DEADZONE : Int := 8

/-- The function `get_joystick_direction`, with the same text in the five files. The
comparisons are done on `int` after promotion of `center` and of the arguments. -/
def get_joystick_direction (x y : uint8_t) : JoystickDirection :=
  let center : Int := 0x80
  if (x.val : Int) < center - DEADZONE then JoystickDirection.Left
  else if (x.val : Int) > center + DEADZONE then JoystickDirection.Right
  else if (y.val : Int) < center - DEADZONE then JoystickDirection.Up
  else if (y.val : Int) > center + DEADZONE then JoystickDirection.Down
  else JoystickDirection.Neutral

/-- The expression `(buf[6] << 8) | buf[5]` stored in a `uint16_t`. -/
def button_state_of (buf : Bytes) : uint16_t :=
  ⟨(((buf 6).val <<< 8) ||| (buf 5).val) % 65536, Nat.mod_lt _ (by decide)⟩

/-! ## joystick_midi_map_full.c : the combo registry -/

namespace MapFull

/-- The constant `BUF_SIZE`. -/
def BUF_SIZE : Nat := 65

/-- The struct `ButtonCombo`: `size_t len; unsigned char data[BUF_SIZE];`. -/
structure ButtonCombo where
  len : Nat
  data : Bytes

/-- The globals `combos`, `combo_count`, `combo_capacity`. `combos` gives the contents of
the heap block at every index, including the slots not yet written. The two `int` counters
start at 0 and only grow, and are natural numbers here. The embedding is exact wherever the
C code has defined behaviour: `combo_count ≤ combo_capacity`, `combo_capacity * 2` within
`int`, and snapshots of at most `BUF_SIZE` bytes. -/
structure Registry where
  combos : Nat → ButtonCombo
  combo_count : Nat
  combo_capacity : Nat

/-- The initial values of the globals: `combos = NULL`, both counters zero. -/
def Registry.init : Registry :=
  { combos := fun _ => { len := 0, data := fun _ => 0 }, combo_count := 0, combo_capacity := 0 }

/-- The loop of `find_combo` from index `i`, with `k` iterations left. -/
def find_combo_loop (r : Registry) (buf : Bytes) (len : Nat) (i : Nat) : Nat → Int
  | 0 => -1
  | k + 1 =>
    if (r.combos i).len = len ∧ memcmp (r.combos i).data buf len = 0 then (i : Int)
    else find_combo_loop r buf len (i + 1) k

/-- The function `find_combo`: `for (i = 0; i < combo_count; i++)`, first match or `-1`. -/
def find_combo (r : Registry) (buf : Bytes) (len : Nat) : Int :=
  find_combo_loop r buf len 0 r.combo_count

/-- The three statements that end `store_combo`: write `len`, `memcpy` the bytes into
slot `combo_count`, increment `combo_count`. -/
def store_combo_write (r : Registry) (buf : Bytes) (len : Nat) : Registry :=
  { r with
    combos := fun i =>
      if i = r.combo_count then
        { len := len, data := memcpy (r.combos r.combo_count).data buf len }
      else r.combos i
    combo_count := r.combo_count + 1 }

/-- The function `store_combo`. `tmp_ok` says whether `realloc` returns a non-null pointer
when it is called; a null pointer leads to `exit(1)`, which is `none`. `realloc` keeps the
old contents, and the new slots hold whatever `combos` has there. -/
def store_combo (tmp_ok : Bool) (r : Registry) (buf : Bytes) (len : Nat) : Option Registry :=
  if r.combo_count ≥ r.combo_capacity then
    if tmp_ok then
      some (store_combo_write
        { r with combo_capacity := if r.combo_capacity = 0 then 100 else r.combo_capacity * 2 }
        buf len)
    else none
  else some (store_combo_write r buf len)

/-- The body of the main loop for a report of `res > 0` bytes (lines 169-177):
`btn = find_combo(buf, res); if (btn == -1) { btn = combo_count; store_combo(buf, res); }`.
The result is `btn` and the registry afterwards. -/
def lookup_or_insert (tmp_ok : Bool) (r : Registry) (buf : Bytes) (res : Nat) :
    Option (Int × Registry) :=
  let btn := find_combo r buf res
  if btn = -1 then
    match store_combo tmp_ok r buf res with
    | some r' => some ((r.combo_count : Int), r')
    | none => none
  else some (btn, r)

/-- The snapshot `(buf, len)` is stored in slot `i`: same length, same first `len` bytes. -/
def Stored (r : Registry) (buf : Bytes) (len : Nat) (i : Nat) : Prop :=
  (r.combos i).len = len ∧ ∀ j, j < len → (r.combos i).data j = buf j

/-- The main loop run over a sequence of reports, each given with the outcome of `realloc`
for its step: the registry after the last report, or `none` when a step ends in `exit(1)`. -/
def lookup_or_insert_seq (r : Registry) : List (Bool × Bytes × Nat) → Option Registry
  | [] => some r
  | (tmp_ok, buf, res) :: rest =>
    match lookup_or_insert tmp_ok r buf res with
    | some (_, r') => lookup_or_insert_seq r' rest
    | none => none

/-- The report `[00 11 22]`. -/
def report_00_11_22 : Bytes := bytesOfList [0x00, 0x11, 0x22]

/-- The report `[00 11 22 33]`, of which `[00 11 22]` is a strict initial segment. -/
def report_00_11_22_33 : Bytes := bytesOfList [0x00, 0x11, 0x22, 0x33]

/-- A registry holding the single entry `[00 11 22 33]`. -/
def registry_one_entry : Registry :=
  { combos := fun _ => { len := 4, data := report_00_11_22_33 }
    combo_count := 1
    combo_capacity := 100 }

/-- The function `assign_direction`. -/
def assign_direction (combo : ButtonCombo) : String :=
  if combo.len < 3 then "Desconocido"
  else
    let centro : Int := 128
    let umbral : Int := 15
    let dx : Int := ((combo.data 1).val : Int) - centro
    let dy : Int := ((combo.data 2).val : Int) - centro
    if |dx| < umbral ∧ |dy| < umbral then "Neutral"
    else if |dx| > |dy| then (if dx > 0 then "Derecha" else "Izquierda")
    else (if dy > 0 then "Abajo" else "Arriba")

/-- A stored combo `[00 C8 80]`: the left stick pushed to the right. -/
def combo_right : ButtonCombo := { len := 3, data := bytesOfList [0x00, 0xC8, 0x80] }

end MapFull

/-! ## joystick_midi_map_full_v4.c -/

namespace MapFullV4

/-- A line written by `printf` in `interpret_hid_input`. -/
inductive Line
  /-- The line "Botón %d presionado". -/
  | boton_presionado (n : Int)
  /-- The line "Botón %d liberado". -/
  | boton_liberado (n : Int)
  /-- The line "Joystick Izquierdo: Arriba", "Abajo", "Izquierda" or "Derecha", for
  `Up`, `Down`, `Left`, `Right`. -/
  | joystick_izquierdo (d : JoystickDirection)
  /-- The line "Joystick Derecho: ...", likewise. -/
  | joystick_derecho (d : JoystickDirection)
  /-- The line "Gatillo Izquierdo (LT) presionado". -/
  | lt_presionado
  /-- The line "Gatillo Izquierdo (LT) liberado". -/
  | lt_liberado
  /-- The line "Gatillo Derecho (RT) presionado". -/
  | rt_presionado
  /-- The line "Gatillo Derecho (RT) liberado". -/
  | rt_liberado
  deriving DecidableEq, Repr

/-- Whether the line is one of the two written by the button loop. -/
def Line.is_button : Line → Bool
  | Line.boton_presionado _ => true
  | Line.boton_liberado _ => true
  | _ => false

/-- The globals `left_stick_state`, `right_stick_state`, `lt_pressed`, `rt_pressed`,
`last_button_state`. -/
structure State where
  left_stick_state : JoystickDirection
  right_stick_state : JoystickDirection
  lt_pressed : Int
  rt_pressed : Int
  last_button_state : uint16_t
  deriving DecidableEq, Repr

/-- The initial values of the globals. -/
def State.init : State :=
  { left_stick_state := JoystickDirection.Neutral
    right_stick_state := JoystickDirection.Neutral
    lt_pressed := 0
    rt_pressed := 0
    last_button_state := 0 }

/-- The body of the button loop for bit `i`. -/
def button_loop_body (last_button_state button_state : uint16_t) (i : Nat) : List Line :=
  let mask : Nat := 1 <<< i
  let was_pressed : Nat := last_button_state.val &&& mask
  let is_pressed : Nat := button_state.val &&& mask
  if is_pressed ≠ 0 ∧ ¬ was_pressed ≠ 0 then [Line.boton_presionado ((i : Int) + 1)]
  else if ¬ is_pressed ≠ 0 ∧ was_pressed ≠ 0 then [Line.boton_liberado ((i : Int) + 1)]
  else []

/-- The button loop from bit `i`, with `k` iterations left. -/
def button_loop (last_button_state button_state : uint16_t) (i : Nat) : Nat → List Line
  | 0 => []
  | k + 1 =>
    button_loop_body last_button_state button_state i ++
      button_loop last_button_state button_state (i + 1) k

/-- The `switch` that writes the line of the left stick. -/
def left_stick_line (left_dir : JoystickDirection) : List Line :=
  match left_dir with
  | JoystickDirection.Up => [Line.joystick_izquierdo JoystickDirection.Up]
  | JoystickDirection.Down => [Line.joystick_izquierdo JoystickDirection.Down]
  | JoystickDirection.Left => [Line.joystick_izquierdo JoystickDirection.Left]
  | JoystickDirection.Right => [Line.joystick_izquierdo JoystickDirection.Right]
  | _ => []

/-- The `switch` that writes the line of the right stick. -/
def right_stick_line (right_dir : JoystickDirection) : List Line :=
  match right_dir with
  | JoystickDirection.Up => [Line.joystick_derecho JoystickDirection.Up]
  | JoystickDirection.Down => [Line.joystick_derecho JoystickDirection.Down]
  | JoystickDirection.Left => [Line.joystick_derecho JoystickDirection.Left]
  | JoystickDirection.Right => [Line.joystick_derecho JoystickDirection.Right]
  | _ => []

/-- The block "Joystick Izquierdo": the new `left_stick_state` and the line written. -/
def left_stick_block (left_stick_state : JoystickDirection) (lx ly : uint8_t) :
    JoystickDirection × List Line :=
  let left_dir := get_joystick_direction lx ly
  if left_dir ≠ left_stick_state ∧ left_dir ≠ JoystickDirection.Neutral then
    (left_dir, left_stick_line left_dir)
  else if left_dir = JoystickDirection.Neutral then (JoystickDirection.Neutral, [])
  else (left_stick_state, [])

/-- The block "Joystick Derecho": the new `right_stick_state` and the line written. -/
def right_stick_block (right_stick_state : JoystickDirection) (rx ry : uint8_t) :
    JoystickDirection × List Line :=
  let right_dir := get_joystick_direction rx ry
  if right_dir ≠ right_stick_state ∧ right_dir ≠ JoystickDirection.Neutral then
    (right_dir, right_stick_line right_dir)
  else if right_dir = JoystickDirection.Neutral then (JoystickDirection.Neutral, [])
  else (right_stick_state, [])

/-- The block "Gatillo Izquierdo (LT)": the new `lt_pressed` and the line written. -/
def lt_block (lt_pressed : Int) (lt : uint8_t) : Int × List Line :=
  if lt.val > 0 ∧ ¬ lt_pressed ≠ 0 then (1, [Line.lt_presionado])
  else if lt.val = 0 ∧ lt_pressed ≠ 0 then (0, [Line.lt_liberado])
  else (lt_pressed, [])

/-- The block "Gatillo Derecho (RT)": the new `rt_pressed` and the line written. -/
def rt_block (rt_pressed : Int) (rt : uint8_t) : Int × List Line :=
  if rt.val > 0 ∧ ¬ rt_pressed ≠ 0 then (1, [Line.rt_presionado])
  else if rt.val = 0 ∧ rt_pressed ≠ 0 then (0, [Line.rt_liberado])
  else (rt_pressed, [])

/-- The function `interpret_hid_input`: the globals afterwards and the lines written, its
blocks in the order of the source. -/
def interpret_hid_input (s : State) (buf : Bytes) : State × List Line :=
  let lx := buf 1
  let ly := buf 2
  let rx := buf 3
  let ry := buf 4
  let lt := buf 8
  let rt := buf 7
  let button_state := button_state_of buf
  let out_buttons := button_loop s.last_button_state button_state 0 16
  let left := left_stick_block s.left_stick_state lx ly
  let right := right_stick_block s.right_stick_state rx ry
  let lt_res := lt_block s.lt_pressed lt
  let rt_res := rt_block s.rt_pressed rt
  ({ left_stick_state := left.1
     right_stick_state := right.1
     lt_pressed := lt_res.1
     rt_pressed := rt_res.1
     last_button_state := button_state },
   out_buttons ++ left.2 ++ right.2 ++ lt_res.2 ++ rt_res.2)

end MapFullV4

/-! ## joystick_midi_debug_v2_fixed.c -/

namespace DebugV2Fixed

/-- The arguments of one call `send_midi_message(midi_stream, status, data1, data2)`. Every
such call in `interpret_hid_input` follows a `printf` of the same event, so the list of
messages is also the list of events written to the terminal. -/
structure MidiMessage where
  status : Int
  data1 : Int
  data2 : Int
  deriving DecidableEq, Repr

/-- The globals `left_stick_state`, `right_stick_state`, `lt_pressed`, `rt_pressed`,
`last_button_state`. -/
structure State where
  left_stick_state : JoystickDirection
  right_stick_state : JoystickDirection
  lt_pressed : Int
  rt_pressed : Int
  last_button_state : uint16_t
  deriving DecidableEq, Repr

/-- The initial values of the globals. -/
def State.init : State :=
  { left_stick_state := JoystickDirection.Neutral
    right_stick_state := JoystickDirection.Neutral
    lt_pressed := 0
    rt_pressed := 0
    last_button_state := 0 }

/-- The function `get_note_for_event`. -/
def get_note_for_event (event : String) : Int :=
  if event = "L_Up" then 40
  else if event = "L_Down" then 41
  else if event = "L_Left" then 42
  else if event = "L_Right" then 43
  else if event = "R_Up" then 44
  else if event = "R_Down" then 45
  else if event = "R_Left" then 46
  else if event = "R_Right" then 47
  else if event = "LT" then 48
  else if event = "RT" then 49
  else 50

/-- The body of the button loop for bit `i`. -/
def button_loop_body (last_button_state button_state : uint16_t) (i : Nat) :
    List MidiMessage :=
  let mask : Nat := 1 <<< i
  let was_pressed : Nat := last_button_state.val &&& mask
  let is_pressed : Nat := button_state.val &&& mask
  if is_pressed ≠ 0 ∧ ¬ was_pressed ≠ 0 then
    let note : Int := 60 + (i : Int)
    [{ status := 0x90, data1 := note, data2 := 127 }]
  else if ¬ is_pressed ≠ 0 ∧ was_pressed ≠ 0 then
    let note : Int := 60 + (i : Int)
    [{ status := 0x80, data1 := note, data2 := 0 }]
  else []

/-- The button loop from bit `i`, with `k` iterations left. -/
def button_loop (last_button_state button_state : uint16_t) (i : Nat) :
    Nat → List MidiMessage
  | 0 => []
  | k + 1 =>
    button_loop_body last_button_state button_state i ++
      button_loop last_button_state button_state (i + 1) k

/-- The `switch` that names the event of the left stick. -/
def left_event (left_dir : JoystickDirection) : String :=
  match left_dir with
  | JoystickDirection.Up => "L_Up"
  | JoystickDirection.Down => "L_Down"
  | JoystickDirection.Left => "L_Left"
  | JoystickDirection.Right => "L_Right"
  | JoystickDirection.Neutral => "L_Neutral"

/-- The `switch` that names the event of the right stick. -/
def right_event (right_dir : JoystickDirection) : String :=
  match right_dir with
  | JoystickDirection.Up => "R_Up"
  | JoystickDirection.Down => "R_Down"
  | JoystickDirection.Left => "R_Left"
  | JoystickDirection.Right => "R_Right"
  | JoystickDirection.Neutral => "R_Neutral"

/-- The block "Joystick Izquierdo": the new `left_stick_state` and the message sent. -/
def left_stick_block (left_stick_state : JoystickDirection) (lx ly : uint8_t) :
    JoystickDirection × List MidiMessage :=
  let left_dir := get_joystick_direction lx ly
  if left_dir ≠ left_stick_state then
    let event := left_event left_dir
    if left_dir ≠ JoystickDirection.Neutral then
      let note := get_note_for_event event
      (left_dir, [{ status := 0x90, data1 := note, data2 := 127 }])
    else (left_dir, [])
  else (left_stick_state, [])

/-- The block "Joystick Derecho": the new `right_stick_state` and the message sent. -/
def right_stick_block (right_stick_state : JoystickDirection) (rx ry : uint8_t) :
    JoystickDirection × List MidiMessage :=
  let right_dir := get_joystick_direction rx ry
  if right_dir ≠ right_stick_state then
    let event := right_event right_dir
    if right_dir ≠ JoystickDirection.Neutral then
      let note := get_note_for_event event
      (right_dir, [{ status := 0x90, data1 := note, data2 := 127 }])
    else (right_dir, [])
  else (right_stick_state, [])

/-- The block "Gatillo Izquierdo (LT)": the new `lt_pressed` and the message sent. -/
def lt_block (lt_pressed : Int) (lt : uint8_t) : Int × List MidiMessage :=
  if lt.val > 0 ∧ ¬ lt_pressed ≠ 0 then
    (1, [{ status := 0x90, data1 := get_note_for_event "LT", data2 := 127 }])
  else if lt.val = 0 ∧ lt_pressed ≠ 0 then
    (0, [{ status := 0x80, data1 := get_note_for_event "LT", data2 := 0 }])
  else (lt_pressed, [])

/-- The block "Gatillo Derecho (RT)": the new `rt_pressed` and the message sent. -/
def rt_block (rt_pressed : Int) (rt : uint8_t) : Int × List MidiMessage :=
  if rt.val > 0 ∧ ¬ rt_pressed ≠ 0 then
    (1, [{ status := 0x90, data1 := get_note_for_event "RT", data2 := 127 }])
  else if rt.val = 0 ∧ rt_pressed ≠ 0 then
    (0, [{ status := 0x80, data1 := get_note_for_event "RT", data2 := 0 }])
  else (rt_pressed, [])

/-- The function `interpret_hid_input`: the globals afterwards and the MIDI messages sent,
its blocks in the order of the source. -/
def interpret_hid_input (s : State) (buf : Bytes) : State × List MidiMessage :=
  let lx := buf 1
  let ly := buf 2
  let rx := buf 3
  let ry := buf 4
  let lt := buf 8
  let rt := buf 7
  let button_state := button_state_of buf
  let out_buttons := button_loop s.last_button_state button_state 0 16
  let left := left_stick_block s.left_stick_state lx ly
  let right := right_stick_block s.right_stick_state rx ry
  let lt_res := lt_block s.lt_pressed lt
  let rt_res := rt_block s.rt_pressed rt
  ({ left_stick_state := left.1
     right_stick_state := right.1
     lt_pressed := lt_res.1
     rt_pressed := rt_res.1
     last_button_state := button_state },
   out_buttons ++ left.2 ++ right.2 ++ lt_res.2 ++ rt_res.2)

/-- Whether the message carries a note of the button loop (60 and above; the sticks and
triggers use 40..49). -/
def MidiMessage.is_button (m : MidiMessage) : Bool := decide (60 ≤ m.data1)

/-- A report with both sticks centred, both triggers released and only button bit 3 set. -/
def report_bit3 : Bytes := bytesOfList [0x00, 0x80, 0x80, 0x80, 0x80, 0x08, 0x00, 0x00, 0x00]

end DebugV2Fixed

/-! ## joystick_midi_map_full_v6.c -/

namespace MapFullV6

/-- A line written by `printf` in `interpret_hid_input`. -/
inductive Line
  /-- The line "Joystick Izquierdo: Arriba", "Abajo", "Izquierda", "Derecha" or "Neutro", for
  `Up`, `Down`, `Left`, `Right`, `Neutral`. -/
  | joystick_izquierdo (d : JoystickDirection)
  /-- The line "Joystick Derecho: ...", likewise. -/
  | joystick_derecho (d : JoystickDirection)
  /-- The line "Gatillo Izquierdo (LT) presionado". -/
  | lt_presionado
  /-- The line "Gatillo Izquierdo (LT) liberado". -/
  | lt_liberado
  /-- The line "Gatillo Derecho (RT) presionado". -/
  | rt_presionado
  /-- The line "Gatillo Derecho (RT) liberado". -/
  | rt_liberado
  /-- The line "Botón extra detectado: %02X %02X". -/
  | boton_extra (b5 b6 : uint8_t)
  deriving DecidableEq, Repr

/-- Whether the line is a direction event of the left stick. -/
def Line.is_left : Line → Bool
  | Line.joystick_izquierdo _ => true
  | _ => false

/-- Whether the line is a direction event of the right stick. -/
def Line.is_right : Line → Bool
  | Line.joystick_derecho _ => true
  | _ => false

/-- The globals `left_stick_state`, `right_stick_state`, `lt_pressed`, `rt_pressed`. -/
structure State where
  left_stick_state : JoystickDirection
  right_stick_state : JoystickDirection
  lt_pressed : Int
  rt_pressed : Int
  deriving DecidableEq, Repr

/-- The initial values of the globals. -/
def State.init : State :=
  { left_stick_state := JoystickDirection.Neutral
    right_stick_state := JoystickDirection.Neutral
    lt_pressed := 0
    rt_pressed := 0 }

/-- The `switch` that writes the line of the left stick, one `printf` in each of its five
cases. -/
def left_stick_line (left_dir : JoystickDirection) : List Line :=
  match left_dir with
  | JoystickDirection.Up => [Line.joystick_izquierdo JoystickDirection.Up]
  | JoystickDirection.Down => [Line.joystick_izquierdo JoystickDirection.Down]
  | JoystickDirection.Left => [Line.joystick_izquierdo JoystickDirection.Left]
  | JoystickDirection.Right => [Line.joystick_izquierdo JoystickDirection.Right]
  | JoystickDirection.Neutral => [Line.joystick_izquierdo JoystickDirection.Neutral]

/-- The `switch` that writes the line of the right stick. -/
def right_stick_line (right_dir : JoystickDirection) : List Line :=
  match right_dir with
  | JoystickDirection.Up => [Line.joystick_derecho JoystickDirection.Up]
  | JoystickDirection.Down => [Line.joystick_derecho JoystickDirection.Down]
  | JoystickDirection.Left => [Line.joystick_derecho JoystickDirection.Left]
  | JoystickDirection.Right => [Line.joystick_derecho JoystickDirection.Right]
  | JoystickDirection.Neutral => [Line.joystick_derecho JoystickDirection.Neutral]

/-- The block "Procesar Joystick Izquierdo": the new `left_stick_state` and the line
written. -/
def left_stick_block (left_stick_state : JoystickDirection) (lx ly : uint8_t) :
    JoystickDirection × List Line :=
  let left_dir := get_joystick_direction lx ly
  if left_dir ≠ left_stick_state then (left_dir, left_stick_line left_dir)
  else (left_stick_state, [])

/-- The block "Procesar Joystick Derecho": the new `right_stick_state` and the line
written. -/
def right_stick_block (right_stick_state : JoystickDirection) (rx ry : uint8_t) :
    JoystickDirection × List Line :=
  let right_dir := get_joystick_direction rx ry
  if right_dir ≠ right_stick_state then (right_dir, right_stick_line right_dir)
  else (right_stick_state, [])

/-- The block "Procesar Gatillo Izquierdo (LT)": the new `lt_pressed` and the line written. -/
def lt_block (lt_pressed : Int) (lt : uint8_t) : Int × List Line :=
  if lt.val > 0 ∧ ¬ lt_pressed ≠ 0 then (1, [Line.lt_presionado])
  else if lt.val = 0 ∧ lt_pressed ≠ 0 then (0, [Line.lt_liberado])
  else (lt_pressed, [])

/-- The block "Procesar Gatillo Derecho (RT)": the new `rt_pressed` and the line written. -/
def rt_block (rt_pressed : Int) (rt : uint8_t) : Int × List Line :=
  if rt.val > 0 ∧ ¬ rt_pressed ≠ 0 then (1, [Line.rt_presionado])
  else if rt.val = 0 ∧ rt_pressed ≠ 0 then (0, [Line.rt_liberado])
  else (rt_pressed, [])

/-- The block "Procesar otros botones": the line written. -/
def extra_block (b5 b6 : uint8_t) : List Line :=
  if b5 ≠ 0x0F ∨ b6 ≠ 0x00 then [Line.boton_extra b5 b6] else []

/-- The function `interpret_hid_input`: the globals afterwards and the lines written, its
blocks in the order of the source. -/
def interpret_hid_input (s : State) (buf : Bytes) : State × List Line :=
  let lx := buf 1
  let ly := buf 2
  let rx := buf 3
  let ry := buf 4
  let lt := buf 7
  let rt := buf 8
  let left := left_stick_block s.left_stick_state lx ly
  let right := right_stick_block s.right_stick_state rx ry
  let lt_res := lt_block s.lt_pressed lt
  let rt_res := rt_block s.rt_pressed rt
  ({ left_stick_state := left.1
     right_stick_state := right.1
     lt_pressed := lt_res.1
     rt_pressed := rt_res.1 },
   left.2 ++ right.2 ++ lt_res.2 ++ rt_res.2 ++ extra_block (buf 5) (buf 6))

/-- A report with the left stick at `(0x60, 0x80)`, the right stick at `(0x80, 0x80)`, the
button bytes at rest (`0F 00`) and both triggers released. -/
def report_left_stick_left : Bytes :=
  bytesOfList [0x00, 0x60, 0x80, 0x80, 0x80, 0x0F, 0x00, 0x00, 0x00]

end MapFullV6

/-! ## joystick_midi_combined.c : the pulse mechanism -/

namespace Combined

/-- The constant `PULSE_INTERVAL`. -/
def PULSE_INTERVAL : Int := 200

/-- The constant `PULSE_DURATION`. -/
def PULSE_DURATION : Int := 50

/-- The arguments of one call `send_midi_message(midi_stream, status, data1, data2)`. -/
structure MidiMessage where
  status : Int
  data1 : Int
  data2 : Int
  deriving DecidableEq, Repr

/-- The function `get_note_for_button`. -/
def get_note_for_button (button_index : Int) : Int :=
  let candidate : Int := 30 + button_index
  if candidate ≥ 60 ∧ candidate ≤ 90 then
    let candidate : Int := candidate + 31
    if candidate > 127 then 127 else candidate
  else candidate

/-- The three variables `last_event`, `last_note`, `last_triggered` that `main` keeps for one
event and passes to `process_midi_event` by pointer. -/
structure PulseSlot where
  last_event : Int
  last_note : Int
  last_triggered : Nat
  deriving DecidableEq, Repr

/-- The initial values in `main`: `last_event = -1`, `last_note = -1`, `last_triggered = 0`. -/
def PulseSlot.init : PulseSlot := { last_event := -1, last_note := -1, last_triggered := 0 }

/-- The expression `now - *last_triggered` on `unsigned long` (64 bits): the difference
modulo `2 ^ 64`. -/
def elapsed (now last_triggered : Nat) : Int :=
  ((now : Int) - (last_triggered : Int)) % 2 ^ 64

/-- The function `process_midi_event`. `now` is the value that `get_current_millis()`
returns in the call. The result is the slot afterwards and the messages sent. -/
def process_midi_event (now : Nat) (current_index : Int) (s : PulseSlot) :
    PulseSlot × List MidiMessage :=
  if current_index ≠ s.last_event then
    let out_off : List MidiMessage :=
      if s.last_note ≠ -1 then [{ status := 0x80, data1 := s.last_note, data2 := 0 }] else []
    if current_index ≠ -1 then
      let note := get_note_for_button current_index
      ({ last_event := current_index, last_note := note, last_triggered := now },
       out_off ++ [{ status := 0x90, data1 := note, data2 := 127 }])
    else
      ({ last_event := current_index, last_note := -1, last_triggered := s.last_triggered },
       out_off)
  else
    if current_index ≠ -1 then
      let (last_note1, out1) : Int × List MidiMessage :=
        if elapsed now s.last_triggered ≥ PULSE_DURATION ∧ s.last_note ≠ -1 then
          (-1, [{ status := 0x80, data1 := s.last_note, data2 := 0 }])
        else (s.last_note, [])
      if last_note1 = -1 ∧ elapsed now s.last_triggered ≥ PULSE_INTERVAL then
        let note := get_note_for_button current_index
        ({ last_event := s.last_event, last_note := note, last_triggered := now },
         out1 ++ [{ status := 0x90, data1 := note, data2 := 127 }])
      else
        ({ last_event := s.last_event, last_note := last_note1,
           last_triggered := s.last_triggered }, out1)
    else (s, [])

/-- The slot after the calls at `t = 0, 1, ..., n - 1`, one per millisecond, all with the
same index, starting from the initial slot. -/
def cadence_state (current_index : Int) : Nat → PulseSlot
  | 0 => PulseSlot.init
  | n + 1 => (process_midi_event n current_index (cadence_state current_index n)).1

/-- The messages sent by the call at time `t` of that run. -/
def cadence_output (current_index : Int) (t : Nat) : List MidiMessage :=
  (process_midi_event t current_index (cadence_state current_index t)).2

/-- The slot after a sequence of calls, each given by its index and its clock value. -/
def run_calls (s : PulseSlot) : List (Int × Nat) → PulseSlot
  | [] => s
  | (current_index, now) :: rest => run_calls (process_midi_event now current_index s).1 rest

end Combined

/-! ## joystick_midi_debug.c -/

namespace Debug

/-- The function `get_note_for_button`. -/
def get_note_for_button (button_index : Int) : Int :=
  let candidate : Int := 30 + button_index
  if candidate ≥ 60 ∧ candidate ≤ 90 then candidate + 31 else candidate

end Debug

/-! ## joystick_midi_map_all_buttons.c -/

namespace MapAllButtons

/-- The constant `BUTTON_START_INDEX`. -/
def BUTTON_START_INDEX : Nat := 5

/-- The constant `MAX_BUTTONS`. -/
def MAX_BUTTONS : Nat := 512

/-- The function `get_button_midi_note`. -/
def get_button_midi_note (button_index : Int) : Int :=
  let note : Int := 30 + button_index
  if note ≥ 60 ∧ note ≤ 90 then
    let note : Int := note + 31
    if note > 127 then 127 else note
  else note

/-- One button change reported by `map_all_buttons_to_midi`: the arguments `status`, `data1`,
`data2` of its call of `send_midi_message`, and the `button_index` written by the `printf`
that follows it. -/
structure ButtonEvent where
  status : Int
  data1 : Int
  data2 : Int
  button_index : Nat
  deriving DecidableEq, Repr

/-- The inner loop `for (bit = 0; bit < 8; bit++)` for byte `i`, from `bit` on with `k`
iterations left, on the array `prev_state` and the events emitted so far. `button_index` is
`(i - BUTTON_START_INDEX) * 8 + bit`, never negative; `break` ends the loop. -/
def bit_loop (buf : Bytes) (total_buttons : Nat) (i : Nat) (bit : Nat) :
    Nat → (Nat → Int) × List ButtonEvent → (Nat → Int) × List ButtonEvent
  | 0, st => st
  | k + 1, (prev_state, out) =>
    let button_index : Nat := (i - BUTTON_START_INDEX) * 8 + bit
    if button_index ≥ total_buttons ∨ button_index ≥ MAX_BUTTONS then (prev_state, out)
    else
      let current : Int := ((((buf i).val >>> bit) &&& 0x01 : Nat) : Int)
      if current ≠ prev_state button_index then
        let note := get_button_midi_note (button_index : Int)
        let event : ButtonEvent :=
          if current ≠ 0 then
            { status := 0x90, data1 := note, data2 := 127, button_index := button_index }
          else { status := 0x80, data1 := note, data2 := 0, button_index := button_index }
        bit_loop buf total_buttons i (bit + 1) k
          (fun j => if j = button_index then current else prev_state j, out ++ [event])
      else bit_loop buf total_buttons i (bit + 1) k (prev_state, out)

/-- The outer loop `for (i = BUTTON_START_INDEX; i < len; i++)`, from byte `i` on with `k`
iterations left. -/
def byte_loop (buf : Bytes) (total_buttons : Nat) (i : Nat) :
    Nat → (Nat → Int) × List ButtonEvent → (Nat → Int) × List ButtonEvent
  | 0, st => st
  | k + 1, st => byte_loop buf total_buttons (i + 1) k (bit_loop buf total_buttons i 0 8 st)

/-- The function `map_all_buttons_to_midi`, on the static array `prev_state`: the array
afterwards and the events emitted. -/
def map_all_buttons_to_midi (prev_state : Nat → Int) (buf : Bytes) (len : Nat) :
    (Nat → Int) × List ButtonEvent :=
  if len ≤ BUTTON_START_INDEX then (prev_state, [])
  else
    let total_buttons : Nat := (len - BUTTON_START_INDEX) * 8
    byte_loop buf total_buttons BUTTON_START_INDEX (len - BUTTON_START_INDEX) (prev_state, [])

/-- The initial contents of `prev_state`: all zero. -/
def prev_state_init : Nat → Int := fun _ => 0

/-- A report of 18 bytes, all zero but bit 2 of byte 17, which is button 98. -/
def report_button_98 : Bytes := fun i => if i = 17 then 0x04 else 0

/-- A report of 13 bytes, all zero but bit 6 of byte 8 (button 30) and bit 5 of byte 12
(button 61). -/
def report_buttons_30_61 : Bytes :=
  fun i => if i = 8 then 0x40 else if i = 12 then 0x20 else 0

/-- A report of 6 bytes: button byte `01`, and a stale byte `FF` at offset 6, beyond its
length. -/
def report_short : Bytes := bytesOfList [0x00, 0x80, 0x80, 0x80, 0x80, 0x01, 0xFF]

end MapAllButtons

/-! ## joystick_midi_map_full_v8.c -/

namespace MapFullV8

/-- The constant `TRIGGER_THRESHOLD`. -/
def TRIGGER_THRESHOLD : Nat := 0x80

/-- A line written by `printf` in `interpret_hid_input`. -/
inductive Line
  /-- The line "Botón %d presionado". -/
  | boton_presionado (n : Int)
  /-- The line "Joystick Izquierdo: Arriba", "Abajo", "Izquierda" or "Derecha", for
  `Up`, `Down`, `Left`, `Right`. -/
  | joystick_izquierdo (d : JoystickDirection)
  /-- The line "Joystick Derecho: ...", likewise. -/
  | joystick_derecho (d : JoystickDirection)
  /-- The line "Gatillo Izquierdo (LT) presionado". -/
  | lt_presionado
  /-- The line "Gatillo Derecho (RT) presionado". -/
  | rt_presionado
  deriving DecidableEq, Repr

/-- Whether the line is an event of the left trigger. -/
def Line.is_lt : Line → Bool
  | Line.lt_presionado => true
  | _ => false

/-- Whether the line is an event of the right trigger. -/
def Line.is_rt : Line → Bool
  | Line.rt_presionado => true
  | _ => false

/-- The globals `left_stick_state`, `right_stick_state`, `lt_pressed`, `rt_pressed`,
`last_button_state`. -/
structure State where
  left_stick_state : JoystickDirection
  right_stick_state : JoystickDirection
  lt_pressed : Int
  rt_pressed : Int
  last_button_state : uint16_t
  deriving DecidableEq, Repr

/-- The initial values of the globals. -/
def State.init : State :=
  { left_stick_state := JoystickDirection.Neutral
    right_stick_state := JoystickDirection.Neutral
    lt_pressed := 0
    rt_pressed := 0
    last_button_state := 0 }

/-- The body of the button loop for bit `i`: only the press is written. -/
def button_loop_body (last_button_state button_state : uint16_t) (i : Nat) : List Line :=
  let mask : Nat := 1 <<< i
  let was_pressed : Nat := last_button_state.val &&& mask
  let is_pressed : Nat := button_state.val &&& mask
  if is_pressed ≠ 0 ∧ ¬ was_pressed ≠ 0 then [Line.boton_presionado ((i : Int) + 1)]
  else []

/-- The button loop from bit `i`, with `k` iterations left. -/
def button_loop (last_button_state button_state : uint16_t) (i : Nat) : Nat → List Line
  | 0 => []
  | k + 1 =>
    button_loop_body last_button_state button_state i ++
      button_loop last_button_state button_state (i + 1) k

/-- The `switch` that writes the line of the left stick. -/
def left_stick_line (left_dir : JoystickDirection) : List Line :=
  match left_dir with
  | JoystickDirection.Up => [Line.joystick_izquierdo JoystickDirection.Up]
  | JoystickDirection.Down => [Line.joystick_izquierdo JoystickDirection.Down]
  | JoystickDirection.Left => [Line.joystick_izquierdo JoystickDirection.Left]
  | JoystickDirection.Right => [Line.joystick_izquierdo JoystickDirection.Right]
  | _ => []

/-- The `switch` that writes the line of the right stick. -/
def right_stick_line (right_dir : JoystickDirection) : List Line :=
  match right_dir with
  | JoystickDirection.Up => [Line.joystick_derecho JoystickDirection.Up]
  | JoystickDirection.Down => [Line.joystick_derecho JoystickDirection.Down]
  | JoystickDirection.Left => [Line.joystick_derecho JoystickDirection.Left]
  | JoystickDirection.Right => [Line.joystick_derecho JoystickDirection.Right]
  | _ => []

/-- The block "Joystick Izquierdo (sin Neutro)": the new `left_stick_state` and the line
written. -/
def left_stick_block (left_stick_state : JoystickDirection) (lx ly : uint8_t) :
    JoystickDirection × List Line :=
  let left_dir := get_joystick_direction lx ly
  if left_dir ≠ left_stick_state ∧ left_dir ≠ JoystickDirection.Neutral then
    (left_dir, left_stick_line left_dir)
  else if left_dir = JoystickDirection.Neutral then (JoystickDirection.Neutral, [])
  else (left_stick_state, [])

/-- The block "Joystick Derecho (sin Neutro)": the new `right_stick_state` and the line
written. -/
def right_stick_block (right_stick_state : JoystickDirection) (rx ry : uint8_t) :
    JoystickDirection × List Line :=
  let right_dir := get_joystick_direction rx ry
  if right_dir ≠ right_stick_state ∧ right_dir ≠ JoystickDirection.Neutral then
    (right_dir, right_stick_line right_dir)
  else if right_dir = JoystickDirection.Neutral then (JoystickDirection.Neutral, [])
  else (right_stick_state, [])

/-- The block "Gatillo Izquierdo (LT) con umbral": the new `lt_pressed` and the line
written. -/
def lt_block (lt_pressed : Int) (lt : uint8_t) : Int × List Line :=
  if lt.val ≥ TRIGGER_THRESHOLD ∧ ¬ lt_pressed ≠ 0 then (1, [Line.lt_presionado])
  else if lt.val < TRIGGER_THRESHOLD ∧ lt_pressed ≠ 0 then (0, [])
  else (lt_pressed, [])

/-- The block "Gatillo Derecho (RT) con umbral": the new `rt_pressed` and the line
written. -/
def rt_block (rt_pressed : Int) (rt : uint8_t) : Int × List Line :=
  if rt.val ≥ TRIGGER_THRESHOLD ∧ ¬ rt_pressed ≠ 0 then (1, [Line.rt_presionado])
  else if rt.val < TRIGGER_THRESHOLD ∧ rt_pressed ≠ 0 then (0, [])
  else (rt_pressed, [])

/-- The function `interpret_hid_input`: the globals afterwards and the lines written, its
blocks in the order of the source. -/
def interpret_hid_input (s : State) (buf : Bytes) : State × List Line :=
  let lx := buf 1
  let ly := buf 2
  let rx := buf 3
  let ry := buf 4
  let rt := buf 7
  let lt := buf 8
  let button_state := button_state_of buf
  let out_buttons := button_loop s.last_button_state button_state 0 16
  let left := left_stick_block s.left_stick_state lx ly
  let right := right_stick_block s.right_stick_state rx ry
  let lt_res := lt_block s.lt_pressed lt
  let rt_res := rt_block s.rt_pressed rt
  ({ left_stick_state := left.1
     right_stick_state := right.1
     lt_pressed := lt_res.1
     rt_pressed := rt_res.1
     last_button_state := button_state },
   out_buttons ++ left.2 ++ right.2 ++ lt_res.2 ++ rt_res.2)

/-- The globals after a sequence of reports. -/
def run_reports (s : State) (reports : List Bytes) : State :=
  reports.foldl (fun st buf => (interpret_hid_input st buf).1) s

/-- A report with both sticks centred, no button down, `buf[7] = 0x10` (RT, below the
threshold) and `buf[8] = 0x90` (LT, above it). -/
def report_lt_down : Bytes :=
  bytesOfList [0x00, 0x80, 0x80, 0x80, 0x80, 0x00, 0x00, 0x10, 0x90]

/-- The same report with `buf[7] = 0xF0`: it differs from `report_lt_down` only in byte 7. -/
def report_lt_rt_down : Bytes :=
  bytesOfList [0x00, 0x80, 0x80, 0x80, 0x80, 0x00, 0x00, 0xF0, 0x90]

end MapFullV8

/-! ## joystick_midi_debug.c : the report hash -/

namespace Debug

/-- The constant `PULSE_INTERVAL`. -/
def PULSE_INTERVAL : Int := 200

/-- The constant `PULSE_DURATION`. -/
def PULSE_DURATION : Int := 50

/-- The loop `hash = hash * 31 + buf[i]` on `unsigned long` (64 bits), from offset `i` with
`k` iterations left. -/
def hash_loop (buf : Bytes) (i : Nat) : Nat → Nat → Nat
  | 0, hash => hash
  | k + 1, hash => hash_loop buf (i + 1) k ((hash * 31 + (buf i).val) % 2 ^ 64)

/-- The hash of the whole report: the loop from offset 0 over `len` bytes, from `hash = 0`. -/
def report_hash (buf : Bytes) (len : Nat) : Nat := hash_loop buf 0 len 0

/-- The note computed from the hash: base 30, the range 60..90 moved up by 31, at most
127. -/
def note_of_hash (hash : Nat) : Int :=
  let base_note : Int := 30
  let candidate : Int := base_note + ((hash % (128 - 30) : Nat) : Int)
  if candidate ≥ 60 ∧ candidate ≤ 90 then
    let candidate : Int := candidate + 31
    if candidate > 127 then 127 else candidate
  else candidate

/-- A MIDI message sent by `debug_map_report_to_note`, named by the `printf` that comes
before it. The hex dump of the report at the start of the function is not an event. -/
inductive Event
  /-- "Cambio de reporte, enviando Note Off para nota %d", then the Note Off `(0x80, note, 0)`. -/
  | cambio_note_off (note : Int)
  /-- "Nuevo reporte, asignando Note On para nota %d", then the Note On `(0x90, note, 127)`. -/
  | nuevo_note_on (note : Int)
  /-- "Finalizando pulso para nota %d", then the Note Off `(0x80, note, 0)`. -/
  | fin_pulso_note_off (note : Int)
  /-- "Re-triggering nota por estado persistente: %d", then the Note On `(0x90, note, 127)`. -/
  | retrigger_note_on (note : Int)
  deriving DecidableEq, Repr

/-- The static variables `last_hash`, `last_note`, `last_triggered`. -/
structure State where
  last_hash : Nat
  last_note : Int
  last_triggered : Nat
  deriving DecidableEq, Repr

/-- The initial values of the static variables. -/
def State.init : State := { last_hash := 0, last_note := -1, last_triggered := 0 }

/-- The expression `now - last_triggered` on `unsigned long` (64 bits). -/
def elapsed (now last_triggered : Nat) : Int :=
  ((now : Int) - (last_triggered : Int)) % 2 ^ 64

/-- The function `debug_map_report_to_note`. `now` is the value that `get_current_millis()`
returns in the call. The result is the static variables afterwards and the events. -/
def debug_map_report_to_note (s : State) (buf : Bytes) (len : Nat) (now : Nat) :
    State × List Event :=
  let hash := report_hash buf len
  let note := note_of_hash hash
  if hash ≠ s.last_hash then
    let out_off : List Event :=
      if s.last_note ≠ -1 then [Event.cambio_note_off s.last_note] else []
    ({ last_hash := hash, last_note := note, last_triggered := now },
     out_off ++ [Event.nuevo_note_on note])
  else
    let (last_note1, out1) : Int × List Event :=
      if elapsed now s.last_triggered ≥ PULSE_DURATION ∧ s.last_note ≠ -1 then
        (-1, [Event.fin_pulso_note_off s.last_note])
      else (s.last_note, [])
    if last_note1 = -1 ∧ elapsed now s.last_triggered ≥ PULSE_INTERVAL then
      ({ last_hash := s.last_hash, last_note := note, last_triggered := now },
       out1 ++ [Event.retrigger_note_on note])
    else
      ({ last_hash := s.last_hash, last_note := last_note1,
         last_triggered := s.last_triggered }, out1)

/-- The report `[01 00]`. -/
def report_01_00 : Bytes := bytesOfList [0x01, 0x00]

/-- The report `[00 1F]`. -/
def report_00_1F : Bytes := bytesOfList [0x00, 0x1F]

end Debug

/-! ## joystick_midi_debug_v2_fixed.c : sequences of reports -/

namespace DebugV2Fixed

/-- The globals and all the messages sent after a sequence of reports, each processed by
`interpret_hid_input` as in the main loop. -/
def run_reports (s : State) (reports : List Bytes) : State × List MidiMessage :=
  reports.foldl
    (fun st buf => ((interpret_hid_input st.1 buf).1, st.2 ++ (interpret_hid_input st.1 buf).2))
    (s, [])

/-- Whether, at the end of a sequence of messages, the note has a Note On not yet followed
by its Note Off: the last message that carries the note is a Note On. -/
def sounding (msgs : List MidiMessage) (note : Int) : Bool :=
  msgs.foldl (fun b m => if m.data1 = note then decide (m.status = 0x90) else b) false

/-- A report with the left stick at `(0x60, 0x80)`: Left. -/
def report_stick_left : Bytes :=
  bytesOfList [0x00, 0x60, 0x80, 0x80, 0x80, 0x00, 0x00, 0x00, 0x00]

/-- A report with the left stick at `(0x80, 0x60)`: Up. -/
def report_stick_up : Bytes :=
  bytesOfList [0x00, 0x80, 0x60, 0x80, 0x80, 0x00, 0x00, 0x00, 0x00]

/-- A report with both sticks centred: Neutral. -/
def report_stick_neutral : Bytes :=
  bytesOfList [0x00, 0x80, 0x80, 0x80, 0x80, 0x00, 0x00, 0x00, 0x00]

end DebugV2Fixed

/-! ## joystick_midi_combined.c : sequences of calls and the main loop -/

namespace Combined

/-- The slot and all the messages sent after a sequence of calls of `process_midi_event` on
one slot, each call given by its index and its clock value. -/
def run_calls_trace (s : PulseSlot) (calls : List (Int × Nat)) :
    PulseSlot × List MidiMessage :=
  calls.foldl
    (fun st c =>
      ((process_midi_event c.2 c.1 st.1).1, st.2 ++ (process_midi_event c.2 c.1 st.1).2))
    (s, [])

/-- The messages strictly alternate Note On, Note Off, Note On, ..., beginning with a Note
On, and every Note Off carries the note of the Note On right before it. -/
def alternates : List MidiMessage → Bool
  | [] => true
  | [m] => decide (m.status = 0x90)
  | m :: m' :: rest =>
    decide (m.status = 0x90) && decide (m'.status = 0x80) && decide (m'.data1 = m.data1) &&
      alternates rest

/-- A sequence of complete pulses: Note On, then the Note Off of the same note, any number
of times. -/
inductive Closed : List MidiMessage → Prop
  | nil : Closed []
  | pulse (tr : List MidiMessage) (m m' : MidiMessage) :
      Closed tr → m.status = 0x90 → m'.status = 0x80 → m'.data1 = m.data1 →
      Closed (tr ++ [m, m'])

/-- Whether, at the end of a sequence of messages, the note has a Note On not yet followed
by its Note Off: the last message that carries the note is a Note On. -/
def sounding (msgs : List MidiMessage) (note : Int) : Bool :=
  msgs.foldl (fun b m => if m.data1 = note then decide (m.status = 0x90) else b) false

/-- The value of an enum constant of `JoystickDirection` as an `int`. -/
def direction_code : JoystickDirection → Int
  | JoystickDirection.Neutral => 0
  | JoystickDirection.Up => 1
  | JoystickDirection.Down => 2
  | JoystickDirection.Left => 3
  | JoystickDirection.Right => 4

/-- The five groups of pulse variables of `main`: left stick, right stick, LT, RT and the
extra button. -/
structure MainSlots where
  ls : PulseSlot
  rs : PulseSlot
  lt : PulseSlot
  rt : PulseSlot
  extra : PulseSlot
  deriving DecidableEq, Repr

/-- The initial values in `main`. -/
def MainSlots.init : MainSlots :=
  { ls := PulseSlot.init, rs := PulseSlot.init, lt := PulseSlot.init, rt := PulseSlot.init,
    extra := PulseSlot.init }

/-- One pass of the main loop with `res > 0`: the report read, and the clock value that each
of the five calls of `process_midi_event` gets from `get_current_millis()`. -/
structure Pass where
  buf : Bytes
  now_ls : Nat
  now_rs : Nat
  now_lt : Nat
  now_rt : Nat
  now_extra : Nat

/-- The variable `ls_index` of the main loop: `-1` when the left stick is Neutral, else the
enum value minus 1 (Up 0, Down 1, Left 2, Right 3). -/
def ls_index (buf : Bytes) : Int :=
  let ls_dir := get_joystick_direction (buf 1) (buf 2)
  if ls_dir = JoystickDirection.Neutral then -1 else direction_code ls_dir - 1

/-- The variable `rs_index` of the main loop: `-1` when the right stick is Neutral, else 4
plus the enum value minus 1 (Up 4, Down 5, Left 6, Right 7). -/
def rs_index (buf : Bytes) : Int :=
  let rs_dir := get_joystick_direction (buf 3) (buf 4)
  if rs_dir = JoystickDirection.Neutral then -1 else 4 + (direction_code rs_dir - 1)

/-- The variable `lt_index` of the main loop. -/
def lt_index (buf : Bytes) : Int :=
  let lt_val := buf 8
  if lt_val.val > 0 then 8 else -1

/-- The variable `rt_index` of the main loop. -/
def rt_index (buf : Bytes) : Int :=
  let rt_val := buf 7
  if rt_val.val > 0 then 9 else -1

/-- The variable `extra_index` of the main loop. -/
def extra_index (buf : Bytes) : Int :=
  if buf 5 ≠ 0x0F ∨ buf 6 ≠ 0x00 then 10 else -1

/-- The body of `if (res > 0)` in the main loop: the five indices and the five calls of
`process_midi_event`, in the order of the source. -/
def main_pass (st : MainSlots) (p : Pass) : MainSlots × List MidiMessage :=
  let r1 := process_midi_event p.now_ls (ls_index p.buf) st.ls
  let r2 := process_midi_event p.now_rs (rs_index p.buf) st.rs
  let r3 := process_midi_event p.now_lt (lt_index p.buf) st.lt
  let r4 := process_midi_event p.now_rt (rt_index p.buf) st.rt
  let r5 := process_midi_event p.now_extra (extra_index p.buf) st.extra
  ({ ls := r1.1, rs := r2.1, lt := r3.1, rt := r4.1, extra := r5.1 },
   r1.2 ++ r2.2 ++ r3.2 ++ r4.2 ++ r5.2)

/-- The slots and all the messages sent after a sequence of passes of the main loop. -/
def run_main (st : MainSlots) (passes : List Pass) : MainSlots × List MidiMessage :=
  passes.foldl (fun acc p => ((main_pass acc.1 p).1, acc.2 ++ (main_pass acc.1 p).2)) (st, [])

/-- Among the notes `lo..hi`, the one that is on at the end of the messages is `l`, and no
other is: for `l` outside `lo..hi`, none is on. -/
def Tracks (lo hi : Int) (tr : List MidiMessage) (l : Int) : Prop :=
  ∀ n, lo ≤ n → n ≤ hi → (sounding tr n = true ↔ l = n)

/-- At the end of the messages and at every earlier point, at most one of the notes `lo..hi`
is on, the one in the slot at the end. -/
def RangeState (lo hi : Int) (tr : List MidiMessage) (l : Int) : Prop :=
  Tracks lo hi tr l ∧ ∀ p, p <+: tr → ∃ l', Tracks lo hi p l'

/-- The invariant of the main loop: the slot invariant of the two stick slots, the range
of the note in each slot, and the state of the two stick ranges 30..33 and 34..37 in the
messages sent so far. -/
def MainInv (st : MainSlots) (tr : List MidiMessage) : Prop :=
  (st.ls.last_note ≠ -1 →
    st.ls.last_event ≠ -1 ∧ st.ls.last_note = get_note_for_button st.ls.last_event) ∧
  (st.rs.last_note ≠ -1 →
    st.rs.last_event ≠ -1 ∧ st.rs.last_note = get_note_for_button st.rs.last_event) ∧
  (st.ls.last_note = -1 ∨ (30 ≤ st.ls.last_note ∧ st.ls.last_note ≤ 33)) ∧
  (st.rs.last_note = -1 ∨ (34 ≤ st.rs.last_note ∧ st.rs.last_note ≤ 37)) ∧
  (st.lt.last_note < 30 ∨ 37 < st.lt.last_note) ∧
  (st.rt.last_note < 30 ∨ 37 < st.rt.last_note) ∧
  (st.extra.last_note < 30 ∨ 37 < st.extra.last_note) ∧
  RangeState 30 33 tr st.ls.last_note ∧
  RangeState 34 37 tr st.rs.last_note

/-- A pass with the left stick at `(0x60, 0x80)`, Left, at time 0. -/
def pass_left : Pass :=
  { buf := bytesOfList [0x00, 0x60, 0x80, 0x80, 0x80, 0x0F, 0x00, 0x00, 0x00]
    now_ls := 0, now_rs := 0, now_lt := 0, now_rt := 0, now_extra := 0 }

/-- A pass with the left stick at `(0x80, 0x60)`, Up, at time 10. -/
def pass_up : Pass :=
  { buf := bytesOfList [0x00, 0x80, 0x60, 0x80, 0x80, 0x0F, 0x00, 0x00, 0x00]
    now_ls := 10, now_rs := 10, now_lt := 10, now_rt := 10, now_extra := 10 }

/-- A pass with both sticks centred, Neutral, at time 20. -/
def pass_neutral : Pass :=
  { buf := bytesOfList [0x00, 0x80, 0x80, 0x80, 0x80, 0x0F, 0x00, 0x00, 0x00]
    now_ls := 20, now_rs := 20, now_lt := 20, now_rt := 20, now_extra := 20 }

end Combined

/-! ## joystick_midi_map_full.c : the ids of a sequence of reports -/

namespace MapFull

/-- The main loop run over a sequence of reports, as `lookup_or_insert_seq`, keeping the
value of `btn` of every step: the ids in the order of the reports and the registry after the
last report, or `none` when a step ends in `exit(1)`. -/
def lookup_or_insert_ids (r : Registry) :
    List (Bool × Bytes × Nat) → Option (List Int × Registry)
  | [] => some ([], r)
  | (tmp_ok, buf, res) :: rest =>
    match lookup_or_insert tmp_ok r buf res with
    | some (btn, r') =>
      match lookup_or_insert_ids r' rest with
      | some (ids, r'') => some (btn :: ids, r'')
      | none => none
    | none => none

/-- No two slots below `combo_count` hold the same length and the same bytes. -/
def NoDuplicates (r : Registry) : Prop :=
  ∀ i j, i < r.combo_count → j < r.combo_count →
    (r.combos i).len = (r.combos j).len →
    (∀ k, k < (r.combos i).len → (r.combos i).data k = (r.combos j).data k) → i = j

/-- The report `[00 11 23]`. -/
def report_00_11_23 : Bytes := bytesOfList [0x00, 0x11, 0x23]

end MapFull

/-! ## The axis state as the specification words it -/

/-- The axis state of the specification (section 3, AxisState), for a center `C` and a
deadzone `D`: Neutral if `|x-C| < D` and `|y-C| < D`; else, if `|x-C| > |y-C|`, Left or Right
by the sign of `x-C`; else Up or Down by the sign of `y-C`. -/
def axis_state_spec (C D : Int) (x y : uint8_t) : JoystickDirection :=
  if |(x.val : Int) - C| < D ∧ |(y.val : Int) - C| < D then JoystickDirection.Neutral
  else if |(x.val : Int) - C| > |(y.val : Int) - C| then
    (if (x.val : Int) < C then JoystickDirection.Left else JoystickDirection.Right)
  else (if (y.val : Int) < C then JoystickDirection.Up else JoystickDirection.Down)

/-! ## Theorems -/

theorem memcmpFrom_eq_zero_iff (a b : Bytes) (n i : Nat) :
    memcmpFrom a b i n = 0 ↔ ∀ j, j < n → a (i + j) = b (i + j) := by
  induction n generalizing i with
  | zero => simp [memcmpFrom]
  | succ n ih =>
    unfold memcmpFrom
    by_cases h : a i = b i
    · rw [if_pos h, ih]
      constructor
      · intro hall j hj
        cases j with
        | zero => simpa using h
        | succ j =>
          have := hall j (by omega)
          rwa [show i + 1 + j = i + (j + 1) by omega] at this
      · intro hall j hj
        have := hall (j + 1) (by omega)
        rwa [show i + (j + 1) = i + 1 + j by omega] at this
    · rw [if_neg h]
      constructor
      · intro hz
        exfalso
        apply h
        apply Fin.ext
        omega
      · intro hall
        exact absurd (by simpa using hall 0 (by omega)) h

theorem memcmp_eq_zero_iff (a b : Bytes) (n : Nat) :
    memcmp a b n = 0 ↔ ∀ j, j < n → a j = b j := by
  unfold memcmp
  rw [memcmpFrom_eq_zero_iff]
  simp

namespace MapFull

theorem stored_iff_test (r : Registry) (buf : Bytes) (len i : Nat) :
    ((r.combos i).len = len ∧ memcmp (r.combos i).data buf len = 0) ↔ Stored r buf len i := by
  unfold Stored
  rw [memcmp_eq_zero_iff]

/-- The loop of `find_combo` either finds nothing in the slots it visits and gives `-1`, or
gives the first visited slot that stores the snapshot. -/
theorem find_combo_loop_spec (r : Registry) (buf : Bytes) (len : Nat) (k i : Nat) :
    (find_combo_loop r buf len i k = -1 ∧
        ∀ j, i ≤ j → j < i + k → ¬ Stored r buf len j) ∨
    (∃ m : Nat, find_combo_loop r buf len i k = (m : Int) ∧ i ≤ m ∧ m < i + k ∧
        Stored r buf len m ∧ ∀ j, i ≤ j → j < m → ¬ Stored r buf len j) := by
  induction k generalizing i with
  | zero =>
    left
    refine ⟨rfl, ?_⟩
    intro j h1 h2
    omega
  | succ k ih =>
    unfold find_combo_loop
    by_cases h : (r.combos i).len = len ∧ memcmp (r.combos i).data buf len = 0
    · rw [if_pos h]
      right
      refine ⟨i, rfl, le_refl i, by omega, (stored_iff_test r buf len i).1 h, ?_⟩
      intro j h1 h2
      omega
    · rw [if_neg h]
      have hns : ¬ Stored r buf len i := fun hs => h ((stored_iff_test r buf len i).2 hs)
      rcases ih (i + 1) with ⟨h1, h2⟩ | ⟨m, h1, h2, h3, h4, h5⟩
      · left
        refine ⟨h1, ?_⟩
        intro j hj1 hj2
        by_cases hji : j = i
        · rw [hji]; exact hns
        · exact h2 j (by omega) (by omega)
      · right
        refine ⟨m, h1, by omega, by omega, h4, ?_⟩
        intro j hj1 hj2
        by_cases hji : j = i
        · rw [hji]; exact hns
        · exact h5 j (by omega) hj2

theorem find_combo_spec (r : Registry) (buf : Bytes) (len : Nat) :
    (find_combo r buf len = -1 ∧ ∀ j, j < r.combo_count → ¬ Stored r buf len j) ∨
    (∃ m : Nat, find_combo r buf len = (m : Int) ∧ m < r.combo_count ∧
        Stored r buf len m ∧ ∀ j, j < m → ¬ Stored r buf len j) := by
  unfold find_combo
  rcases find_combo_loop_spec r buf len r.combo_count 0 with ⟨h1, h2⟩ | ⟨m, h1, _, h3, h4, h5⟩
  · left
    exact ⟨h1, fun j hj => h2 j (Nat.zero_le j) (by omega)⟩
  · right
    exact ⟨m, h1, by omega, h4, fun j hj => h5 j (Nat.zero_le j) hj⟩

theorem find_combo_eq_neg_one_iff (r : Registry) (buf : Bytes) (len : Nat) :
    find_combo r buf len = -1 ↔ ∀ j, j < r.combo_count → ¬ Stored r buf len j := by
  rcases find_combo_spec r buf len with ⟨h1, h2⟩ | ⟨m, h1, h2, h3, _⟩
  · exact ⟨fun _ => h2, fun _ => h1⟩
  · constructor
    · intro h
      rw [h1] at h
      omega
    · intro h
      exact absurd h3 (h m h2)

/-- When slot `m` is the first one that stores the snapshot, `find_combo` gives `m`. -/
theorem find_combo_eq_of_first (r : Registry) (buf : Bytes) (len m : Nat)
    (hm : m < r.combo_count) (hs : Stored r buf len m)
    (hfirst : ∀ j, j < m → ¬ Stored r buf len j) : find_combo r buf len = (m : Int) := by
  rcases find_combo_spec r buf len with ⟨_, h2⟩ | ⟨m', h1, h2, h3, h4⟩
  · exact absurd hs (h2 m hm)
  · have : m' = m := by
      rcases Nat.lt_trichotomy m' m with h | h | h
      · exact absurd h3 (hfirst m' h)
      · exact h
      · exact absurd hs (h4 m h)
    rw [h1, this]

theorem store_combo_write_count (r : Registry) (buf : Bytes) (len : Nat) :
    (store_combo_write r buf len).combo_count = r.combo_count + 1 := rfl

theorem store_combo_some (ok : Bool) (r r' : Registry) (buf : Bytes) (len : Nat)
    (h : store_combo ok r buf len = some r') :
    r'.combo_count = r.combo_count + 1 ∧
    r'.combos r.combo_count =
      { len := len, data := memcpy (r.combos r.combo_count).data buf len } ∧
    ∀ i, i ≠ r.combo_count → r'.combos i = r.combos i := by
  unfold store_combo at h
  split at h
  · split at h
    · injection h with h
      subst h
      refine ⟨rfl, ?_, ?_⟩
      · simp [store_combo_write]
      · intro i hi
        simp [store_combo_write, hi]
    · exact absurd h (by simp)
  · injection h with h
    subst h
    refine ⟨rfl, ?_, ?_⟩
    · simp [store_combo_write]
    · intro i hi
      simp [store_combo_write, hi]

theorem store_combo_returns (ok : Bool) (r : Registry) (buf : Bytes) (len : Nat)
    (halloc : ok = true ∨ r.combo_count < r.combo_capacity) :
    ∃ r', store_combo ok r buf len = some r' := by
  unfold store_combo
  by_cases hc : r.combo_count ≥ r.combo_capacity
  · rcases halloc with hok | hlt
    · rw [if_pos hc, hok]
      exact ⟨_, rfl⟩
    · omega
  · rw [if_neg hc]
    exact ⟨_, rfl⟩

/-- After `store_combo` the snapshot is stored in the slot that `combo_count` named. -/
theorem store_combo_stored (ok : Bool) (r r' : Registry) (buf : Bytes) (len : Nat)
    (h : store_combo ok r buf len = some r') : Stored r' buf len r.combo_count := by
  obtain ⟨_, h2, _⟩ := store_combo_some ok r r' buf len h
  unfold Stored
  rw [h2]
  refine ⟨rfl, ?_⟩
  intro j hj
  simp [memcpy, hj]

theorem stored_congr (r r' : Registry) (buf : Bytes) (len i : Nat)
    (h : r'.combos i = r.combos i) : Stored r' buf len i ↔ Stored r buf len i := by
  unfold Stored
  rw [h]

/-- The step on a snapshot that `find_combo` does not find. -/
theorem lookup_or_insert_new (ok : Bool) (r : Registry) (buf : Bytes) (len : Nat)
    (hnf : find_combo r buf len = -1)
    (halloc : ok = true ∨ r.combo_count < r.combo_capacity) :
    ∃ r', lookup_or_insert ok r buf len = some ((r.combo_count : Int), r') ∧
      store_combo ok r buf len = some r' := by
  obtain ⟨r', hr'⟩ := store_combo_returns ok r buf len halloc
  refine ⟨r', ?_, hr'⟩
  unfold lookup_or_insert
  simp only [hnf, if_true, hr']

/-- The step on a snapshot that `find_combo` finds. -/
theorem lookup_or_insert_found (ok : Bool) (r : Registry) (buf : Bytes) (len : Nat)
    (hf : find_combo r buf len ≠ -1) :
    lookup_or_insert ok r buf len = some (find_combo r buf len, r) := by
  unfold lookup_or_insert
  simp only [hf, if_false]

/-- Whatever the step returns, it is one of the two cases above. -/
theorem lookup_or_insert_cases (ok : Bool) (r r' : Registry) (buf : Bytes) (len : Nat)
    (id : Int) (h : lookup_or_insert ok r buf len = some (id, r')) :
    (find_combo r buf len ≠ -1 ∧ id = find_combo r buf len ∧ r' = r) ∨
    (find_combo r buf len = -1 ∧ id = (r.combo_count : Int) ∧
      store_combo ok r buf len = some r') := by
  by_cases hf : find_combo r buf len = -1
  · right
    unfold lookup_or_insert at h
    simp only [hf, if_true] at h
    cases hs : store_combo ok r buf len with
    | none => rw [hs] at h; exact absurd h (by simp)
    | some r'' =>
      rw [hs] at h
      simp only [Option.some.injEq, Prod.mk.injEq] at h
      exact ⟨hf, h.1.symm, by rw [h.2]⟩
  · left
    rw [lookup_or_insert_found ok r buf len hf] at h
    simp only [Option.some.injEq, Prod.mk.injEq] at h
    exact ⟨hf, h.1.symm, h.2.symm⟩

/-- C1 (combo idempotence). For every registry state and every snapshot of length 1..65,
when the first `lookup_or_insert` step does not end in `exit(1)` (it finds the snapshot, or
there is room, or `realloc` succeeds), two steps in a row with the same snapshot both
return, with the same id, and `combo_count` after the second step equals `combo_count`
after the first, whatever `realloc` would do in the second step. -/
theorem combo_idempotence (r : Registry) (buf : Bytes) (len : Nat) (ok1 ok2 : Bool)
    (_hlen1 : 1 ≤ len) (_hlen2 : len ≤ BUF_SIZE)
    (halloc : ok1 = true ∨ r.combo_count < r.combo_capacity ∨ find_combo r buf len ≠ -1) :
    ∃ (id : Int) (r1 r2 : Registry),
      lookup_or_insert ok1 r buf len = some (id, r1) ∧
      lookup_or_insert ok2 r1 buf len = some (id, r2) ∧
      r2.combo_count = r1.combo_count := by
  by_cases hf : find_combo r buf len = -1
  · have halloc' : ok1 = true ∨ r.combo_count < r.combo_capacity := by
      rcases halloc with h | h | h
      · exact Or.inl h
      · exact Or.inr h
      · exact absurd hf h
    obtain ⟨r1, hr1, hst⟩ := lookup_or_insert_new ok1 r buf len hf halloc'
    obtain ⟨hcount, _, hother⟩ := store_combo_some ok1 r r1 buf len hst
    have hstored : Stored r1 buf len r.combo_count := store_combo_stored ok1 r r1 buf len hst
    have hnone : ∀ j, j < r.combo_count → ¬ Stored r1 buf len j := by
      intro j hj
      rw [stored_congr r r1 buf len j (hother j (by omega))]
      exact (find_combo_eq_neg_one_iff r buf len).1 hf j hj
    have hfind : find_combo r1 buf len = (r.combo_count : Int) :=
      find_combo_eq_of_first r1 buf len r.combo_count (by omega) hstored hnone
    have hne : find_combo r1 buf len ≠ -1 := by rw [hfind]; omega
    refine ⟨(r.combo_count : Int), r1, r1, hr1, ?_, rfl⟩
    rw [lookup_or_insert_found ok2 r1 buf len hne, hfind]
  · refine ⟨find_combo r buf len, r, r, ?_, ?_, rfl⟩
    · exact lookup_or_insert_found ok1 r buf len hf
    · exact lookup_or_insert_found ok2 r buf len hf

/-- The snapshot `[00 11 22]` twice on the empty registry: ids 0 and 0, size 1. -/
theorem combo_idempotence_witness :
    (1 ≤ 3 ∧ 3 ≤ BUF_SIZE) ∧
    (∃ (id : Int) (r1 r2 : Registry),
      lookup_or_insert true Registry.init report_00_11_22 3 = some (id, r1) ∧
      lookup_or_insert false r1 report_00_11_22 3 = some (id, r2) ∧
      r2.combo_count = r1.combo_count) ∧
    (lookup_or_insert true Registry.init report_00_11_22 3).map
      (fun p => (p.1, p.2.combo_count)) = some (0, 1) ∧
    ((lookup_or_insert true Registry.init report_00_11_22 3).bind
      (fun p => lookup_or_insert false p.2 report_00_11_22 3)).map
      (fun p => (p.1, p.2.combo_count)) = some (0, 1) :=
  ⟨⟨by decide, by decide⟩,
   combo_idempotence Registry.init report_00_11_22 3 true false (by decide) (by decide)
     (Or.inl rfl),
   by decide, by decide⟩

/-- C2 (combo insertion). For every registry state and every snapshot of length at most 65
that `find_combo` does not find, when `realloc` succeeds or is not needed, the step returns
the id `combo_count` had before, `combo_count` grows by exactly 1, and the entry at that id
has the snapshot's length and its bytes; with `combo_count = 0` nothing is found, so the
first snapshot of an empty registry gets id 0. -/
theorem combo_insertion (ok : Bool) (r : Registry) (buf : Bytes) (len : Nat)
    (_hlen : len ≤ BUF_SIZE)
    (halloc : ok = true ∨ r.combo_count < r.combo_capacity) :
    (r.combo_count = 0 → find_combo r buf len = -1) ∧
    (find_combo r buf len = -1 →
      ∃ r', lookup_or_insert ok r buf len = some ((r.combo_count : Int), r') ∧
        r'.combo_count = r.combo_count + 1 ∧
        (r'.combos r.combo_count).len = len ∧
        ∀ j, j < len → (r'.combos r.combo_count).data j = buf j) := by
  constructor
  · intro h0
    rw [find_combo_eq_neg_one_iff]
    intro j hj
    omega
  · intro hnf
    obtain ⟨r', hr', hst⟩ := lookup_or_insert_new ok r buf len hnf halloc
    obtain ⟨hcount, _, _⟩ := store_combo_some ok r r' buf len hst
    have hstored := store_combo_stored ok r r' buf len hst
    exact ⟨r', hr', hcount, hstored.1, hstored.2⟩

/-- The snapshot `[00 11 22]` on the empty registry gets id 0. -/
theorem combo_insertion_witness :
    (3 ≤ BUF_SIZE ∧ find_combo Registry.init report_00_11_22 3 = -1) ∧
    ∃ r', lookup_or_insert true Registry.init report_00_11_22 3 = some ((0 : Int), r') ∧
      r'.combo_count = 1 ∧ (r'.combos 0).len = 3 ∧
      ∀ j, j < 3 → (r'.combos 0).data j = report_00_11_22 j :=
  ⟨⟨by decide, by decide⟩,
   (combo_insertion true Registry.init report_00_11_22 3 (by decide) (Or.inl rfl)).2
     (by decide)⟩

/-- C3 (combo exact match). `find_combo` returns `-1` or an index `i ≥ 0`; an index is
returned only for a slot below `combo_count` whose entry has length `len` and whose first
`len` bytes equal the snapshot's; `-1` is returned exactly when no slot below `combo_count`
has the same length and the same bytes; an entry of another length (one that the snapshot
is a strict initial segment of, or that is one of the snapshot) is never the answer. -/
theorem find_combo_exact_match (r : Registry) (buf : Bytes) (len : Nat) :
    (find_combo r buf len = -1 ∨ 0 ≤ find_combo r buf len) ∧
    (∀ i : Int, find_combo r buf len = i → 0 ≤ i →
      ∃ m : Nat, i = (m : Int) ∧ m < r.combo_count ∧ (r.combos m).len = len ∧
        ∀ j, j < len → (r.combos m).data j = buf j) ∧
    (find_combo r buf len = -1 ↔
      ¬ ∃ m, m < r.combo_count ∧ (r.combos m).len = len ∧
        ∀ j, j < len → (r.combos m).data j = buf j) ∧
    (∀ m : Nat, (r.combos m).len ≠ len → find_combo r buf len ≠ (m : Int)) := by
  have hspec := find_combo_spec r buf len
  refine ⟨?_, ?_, ?_, ?_⟩
  · rcases hspec with ⟨h1, _⟩ | ⟨m, h1, _⟩
    · exact Or.inl h1
    · right; rw [h1]; omega
  · intro i hi hpos
    rcases hspec with ⟨h1, _⟩ | ⟨m, h1, h2, h3, _⟩
    · rw [h1] at hi; omega
    · exact ⟨m, by rw [← hi, h1], h2, h3.1, h3.2⟩
  · rw [find_combo_eq_neg_one_iff]
    constructor
    · rintro h ⟨m, hm, hs⟩
      exact h m hm hs
    · intro h j hj hs
      exact h ⟨j, hj, hs⟩
  · intro m hm heq
    rcases hspec with ⟨h1, _⟩ | ⟨m', h1, _, h3, _⟩
    · rw [h1] at heq; omega
    · rw [h1] at heq
      have : m' = m := by omega
      rw [this] at h3
      exact hm h3.1

/-- With `[00 11 22 33]` stored, its strict initial segment `[00 11 22]` is not found, and
`[00 11 22 33]` itself is found at index 0; with `[00 11 22]` stored, `[00 11 22 33]` is
not found. -/
theorem find_combo_exact_match_witness :
    find_combo registry_one_entry report_00_11_22 3 ≠ ((0 : Nat) : Int) ∧
    find_combo registry_one_entry report_00_11_22 3 = -1 ∧
    find_combo registry_one_entry report_00_11_22_33 4 = 0 ∧
    find_combo (store_combo_write Registry.init report_00_11_22 3) report_00_11_22_33 4 = -1 :=
  ⟨(find_combo_exact_match registry_one_entry report_00_11_22 3).2.2.2 0 (by decide),
   by decide, by decide, by decide⟩

/-- One step keeps every entry below the old `combo_count` and does not lower the count. -/
theorem lookup_or_insert_keeps (ok : Bool) (r r' : Registry) (buf : Bytes) (len : Nat)
    (id : Int) (h : lookup_or_insert ok r buf len = some (id, r')) :
    r.combo_count ≤ r'.combo_count ∧ ∀ i, i < r.combo_count → r'.combos i = r.combos i := by
  rcases lookup_or_insert_cases ok r r' buf len id h with ⟨_, _, h3⟩ | ⟨_, _, h3⟩
  · rw [h3]
    exact ⟨le_refl _, fun _ _ => rfl⟩
  · obtain ⟨hcount, _, hother⟩ := store_combo_some ok r r' buf len h3
    exact ⟨by omega, fun i hi => hother i (by omega)⟩

theorem lookup_or_insert_seq_keeps (calls : List (Bool × Bytes × Nat)) (r r' : Registry)
    (h : lookup_or_insert_seq r calls = some r') :
    r.combo_count ≤ r'.combo_count ∧ ∀ i, i < r.combo_count → r'.combos i = r.combos i := by
  induction calls generalizing r with
  | nil =>
    simp only [lookup_or_insert_seq, Option.some.injEq] at h
    rw [← h]
    exact ⟨le_refl _, fun _ _ => rfl⟩
  | cons c rest ih =>
    obtain ⟨ok, buf, len⟩ := c
    unfold lookup_or_insert_seq at h
    cases hstep : lookup_or_insert ok r buf len with
    | none => rw [hstep] at h; exact absurd h (by simp)
    | some p =>
      obtain ⟨id, r1⟩ := p
      rw [hstep] at h
      obtain ⟨hc1, he1⟩ := lookup_or_insert_keeps ok r r1 buf len id hstep
      obtain ⟨hc2, he2⟩ := ih r1 h
      refine ⟨by omega, ?_⟩
      intro i hi
      rw [he2 i (by omega), he1 i hi]

theorem lookup_or_insert_seq_returns (calls : List (Bool × Bytes × Nat)) (r : Registry)
    (hok : ∀ c ∈ calls, c.1 = true) : (lookup_or_insert_seq r calls).isSome = true := by
  induction calls generalizing r with
  | nil => rfl
  | cons c rest ih =>
    obtain ⟨ok, buf, len⟩ := c
    have hok1 : ok = true := hok (ok, buf, len) (List.mem_cons_self _ _)
    have hrest : ∀ c ∈ rest, c.1 = true := fun c hc => hok c (List.mem_cons_of_mem _ hc)
    unfold lookup_or_insert_seq
    by_cases hf : find_combo r buf len = -1
    · obtain ⟨r1, hr1, _⟩ := lookup_or_insert_new ok r buf len hf (Or.inl hok1)
      rw [hr1]
      exact ih r1 hrest
    · rw [lookup_or_insert_found ok r buf len hf]
      exact ih r hrest

/-- C4 (combo id stability). For every registry state and every sequence of
`lookup_or_insert` steps: the sequence runs to its end when `realloc` succeeds in every
step; whenever it runs to its end, `combo_count` has not decreased and every entry below
the old `combo_count` is at the same index with the same length and the same bytes; and a
step that finds its snapshot returns the found index and the registry itself, unchanged. -/
theorem combo_id_stability (r : Registry) (calls : List (Bool × Bytes × Nat)) :
    ((∀ c ∈ calls, c.1 = true) → (lookup_or_insert_seq r calls).isSome = true) ∧
    (∀ r', lookup_or_insert_seq r calls = some r' →
      r.combo_count ≤ r'.combo_count ∧
      ∀ i, i < r.combo_count →
        (r'.combos i).len = (r.combos i).len ∧
        ∀ j, (r'.combos i).data j = (r.combos i).data j) ∧
    (∀ (ok : Bool) (buf : Bytes) (len : Nat), find_combo r buf len ≠ -1 →
      lookup_or_insert ok r buf len = some (find_combo r buf len, r)) := by
  refine ⟨lookup_or_insert_seq_returns calls r, ?_, ?_⟩
  · intro r' h
    obtain ⟨hc, he⟩ := lookup_or_insert_seq_keeps calls r r' h
    refine ⟨hc, ?_⟩
    intro i hi
    rw [he i hi]
    exact ⟨rfl, fun _ => rfl⟩
  · intro ok buf len hf
    exact lookup_or_insert_found ok r buf len hf

/-- The sequence `[00 11 22 33]`, `[00 11 22]`, `[00 11 22 33]` on a registry that holds
`[00 11 22 33]` runs to its end, and the entry at index 0 is still `[00 11 22 33]`. -/
theorem combo_id_stability_witness :
    (lookup_or_insert_seq registry_one_entry
      [(true, report_00_11_22_33, 4), (true, report_00_11_22, 3),
       (true, report_00_11_22_33, 4)]).isSome = true ∧
    (lookup_or_insert_seq registry_one_entry
      [(true, report_00_11_22_33, 4), (true, report_00_11_22, 3),
       (true, report_00_11_22_33, 4)]).map (fun r' => (r'.combo_count, (r'.combos 0).len))
      = some (2, 4) :=
  ⟨(combo_id_stability registry_one_entry
      [(true, report_00_11_22_33, 4), (true, report_00_11_22, 3),
       (true, report_00_11_22_33, 4)]).1 (by decide),
   by decide⟩

end MapFull

/-! ### The button edge detector -/

theorem and_mask_ne_zero_iff (x i : Nat) : x &&& (1 <<< i) ≠ 0 ↔ x.testBit i = true := by
  rw [Nat.one_shiftLeft]
  constructor
  · intro h
    obtain ⟨j, hj⟩ := Nat.ne_zero_implies_bit_true h
    rw [Nat.testBit_and, Nat.testBit_two_pow] at hj
    simp only [Bool.and_eq_true, decide_eq_true_eq] at hj
    rw [hj.2]
    exact hj.1
  · intro h hz
    have h2 : (x &&& 2 ^ i).testBit i = true := by
      rw [Nat.testBit_and, h, Nat.testBit_two_pow_self]
      rfl
    rw [hz] at h2
    simp at h2

theorem xor_bit (a b i : Nat) :
    ((a ^^^ b) / 2 ^ i) % 2 = if a.testBit i = b.testBit i then 0 else 1 := by
  have h := Nat.testBit_xor a b i
  rw [Nat.testBit_to_div_mod] at h
  have h2 : ((a ^^^ b) / 2 ^ i) % 2 < 2 := Nat.mod_lt _ (by decide)
  cases ha : a.testBit i <;> cases hb : b.testBit i <;> rw [ha, hb] at h <;>
    simp at h <;> simp <;> omega

theorem popcount_step (k n i : Nat) :
    popcount (k + 1) (n / 2 ^ i) = (n / 2 ^ i) % 2 + popcount k (n / 2 ^ (i + 1)) := by
  rw [popcount, Nat.div_div_eq_div_mul, ← pow_succ]

/-- On a number below `2 ^ w`, `popcount w` is the sum of the binary digits. -/
theorem popcount_eq_digits_sum (w n : Nat) (h : n < 2 ^ w) :
    popcount w n = (Nat.digits 2 n).sum := by
  induction w generalizing n with
  | zero =>
    have h0 : n = 0 := by simpa using h
    rw [h0]
    simp [popcount]
  | succ w ih =>
    by_cases h0 : n = 0
    · rw [h0, popcount, Nat.zero_div, ih 0 (Nat.two_pow_pos w)]
      simp
    · have hpos : 0 < n := Nat.pos_of_ne_zero h0
      have hdiv : n / 2 < 2 ^ w := by
        rw [pow_succ] at h
        omega
      rw [Nat.digits_def' (by decide) hpos, List.sum_cons, popcount, ih (n / 2) hdiv]

/-- The Hamming distance of two 16-bit fields is the binary digit sum of their XOR. -/
theorem hamming16_eq_digits_sum (a b : uint16_t) :
    hamming16 a b = (Nat.digits 2 (a.val ^^^ b.val)).sum := by
  unfold hamming16
  exact popcount_eq_digits_sum 16 _ (Nat.xor_lt_two_pow a.isLt b.isLt)

namespace MapFullV4

/-- What the body of the button loop writes for bit `i`, by the two bits. -/
theorem button_loop_body_eq (last cur : uint16_t) (i : Nat) :
    button_loop_body last cur i =
      if cur.val.testBit i = true ∧ last.val.testBit i = false then
        [Line.boton_presionado ((i : Int) + 1)]
      else if cur.val.testBit i = false ∧ last.val.testBit i = true then
        [Line.boton_liberado ((i : Int) + 1)]
      else [] := by
  unfold button_loop_body
  simp only [and_mask_ne_zero_iff, Bool.not_eq_true]

theorem button_loop_body_length (last cur : uint16_t) (i : Nat) :
    (button_loop_body last cur i).length = ((last.val ^^^ cur.val) / 2 ^ i) % 2 := by
  rw [button_loop_body_eq, xor_bit]
  cases last.val.testBit i <;> cases cur.val.testBit i <;> simp

theorem button_loop_length (last cur : uint16_t) (k i : Nat) :
    (button_loop last cur i k).length = popcount k ((last.val ^^^ cur.val) / 2 ^ i) := by
  induction k generalizing i with
  | zero => rfl
  | succ k ih =>
    rw [button_loop, List.length_append, button_loop_body_length, ih, popcount_step]

theorem mem_button_loop (last cur : uint16_t) (m : Line) (k i : Nat)
    (h : m ∈ button_loop last cur i k) :
    ∃ j, i ≤ j ∧ j < i + k ∧ m ∈ button_loop_body last cur j := by
  induction k generalizing i with
  | zero => simp [button_loop] at h
  | succ k ih =>
    rw [button_loop, List.mem_append] at h
    rcases h with h | h
    · exact ⟨i, le_refl i, by omega, h⟩
    · obtain ⟨j, h1, h2, h3⟩ := ih (i + 1) h
      exact ⟨j, by omega, by omega, h3⟩

/-- A line of the body for bit `j` is the press or the release of button `j + 1`, and the
bit differs in the two states. -/
theorem mem_button_loop_body (last cur : uint16_t) (m : Line) (j : Nat)
    (h : m ∈ button_loop_body last cur j) :
    (m = Line.boton_presionado ((j : Int) + 1) ∨ m = Line.boton_liberado ((j : Int) + 1)) ∧
    last.val.testBit j ≠ cur.val.testBit j := by
  rw [button_loop_body_eq] at h
  cases hl : last.val.testBit j <;> cases hc : cur.val.testBit j <;>
    simp [hl, hc] at h <;> simp [h]

theorem filter_button_loop (last cur : uint16_t) (k i : Nat) :
    (button_loop last cur i k).filter Line.is_button = button_loop last cur i k := by
  rw [List.filter_eq_self]
  intro m hm
  obtain ⟨j, _, _, hj⟩ := mem_button_loop last cur m k i hm
  rcases (mem_button_loop_body last cur m j hj).1 with h | h <;> rw [h] <;> rfl

theorem filter_left_stick_block (st : JoystickDirection) (lx ly : uint8_t) :
    (left_stick_block st lx ly).2.filter Line.is_button = [] := by
  unfold left_stick_block
  cases get_joystick_direction lx ly <;> cases st <;> decide

theorem filter_right_stick_block (st : JoystickDirection) (rx ry : uint8_t) :
    (right_stick_block st rx ry).2.filter Line.is_button = [] := by
  unfold right_stick_block
  cases get_joystick_direction rx ry <;> cases st <;> decide

theorem filter_lt_block (p : Int) (lt : uint8_t) :
    (lt_block p lt).2.filter Line.is_button = [] := by
  unfold lt_block
  split_ifs <;> rfl

theorem filter_rt_block (p : Int) (rt : uint8_t) :
    (rt_block p rt).2.filter Line.is_button = [] := by
  unfold rt_block
  split_ifs <;> rfl

/-- The button lines of `interpret_hid_input` are the lines of its button loop. -/
theorem filter_interpret_hid_input (s : State) (buf : Bytes) :
    (interpret_hid_input s buf).2.filter Line.is_button =
      button_loop s.last_button_state (button_state_of buf) 0 16 := by
  simp only [interpret_hid_input, List.filter_append, filter_button_loop,
    filter_left_stick_block, filter_right_stick_block, filter_lt_block, filter_rt_block,
    List.append_nil]

end MapFullV4

namespace DebugV2Fixed

/-- What the body of the button loop sends for bit `i`, by the two bits. -/
theorem midi_button_loop_body_eq (last cur : uint16_t) (i : Nat) :
    button_loop_body last cur i =
      if cur.val.testBit i = true ∧ last.val.testBit i = false then
        [{ status := 0x90, data1 := 60 + (i : Int), data2 := 127 }]
      else if cur.val.testBit i = false ∧ last.val.testBit i = true then
        [{ status := 0x80, data1 := 60 + (i : Int), data2 := 0 }]
      else [] := by
  unfold button_loop_body
  simp only [and_mask_ne_zero_iff, Bool.not_eq_true]

theorem midi_button_loop_body_length (last cur : uint16_t) (i : Nat) :
    (button_loop_body last cur i).length = ((last.val ^^^ cur.val) / 2 ^ i) % 2 := by
  rw [midi_button_loop_body_eq, xor_bit]
  cases last.val.testBit i <;> cases cur.val.testBit i <;> simp

theorem midi_button_loop_length (last cur : uint16_t) (k i : Nat) :
    (button_loop last cur i k).length = popcount k ((last.val ^^^ cur.val) / 2 ^ i) := by
  induction k generalizing i with
  | zero => rfl
  | succ k ih =>
    rw [button_loop, List.length_append, midi_button_loop_body_length, ih, popcount_step]

theorem midi_mem_button_loop (last cur : uint16_t) (m : MidiMessage) (k i : Nat)
    (h : m ∈ button_loop last cur i k) :
    ∃ j, i ≤ j ∧ j < i + k ∧ m ∈ button_loop_body last cur j := by
  induction k generalizing i with
  | zero => simp [button_loop] at h
  | succ k ih =>
    rw [button_loop, List.mem_append] at h
    rcases h with h | h
    · exact ⟨i, le_refl i, by omega, h⟩
    · obtain ⟨j, h1, h2, h3⟩ := ih (i + 1) h
      exact ⟨j, by omega, by omega, h3⟩

/-- A message of the body for bit `j` is the Note On or the Note Off of note `60 + j`, and
the bit differs in the two states. -/
theorem midi_mem_button_loop_body (last cur : uint16_t) (m : MidiMessage) (j : Nat)
    (h : m ∈ button_loop_body last cur j) :
    (m = { status := 0x90, data1 := 60 + (j : Int), data2 := 127 } ∨
      m = { status := 0x80, data1 := 60 + (j : Int), data2 := 0 }) ∧
    last.val.testBit j ≠ cur.val.testBit j := by
  rw [midi_button_loop_body_eq] at h
  cases hl : last.val.testBit j <;> cases hc : cur.val.testBit j <;>
    simp [hl, hc] at h <;> simp [h]

theorem midi_filter_button_loop (last cur : uint16_t) (k i : Nat) :
    (button_loop last cur i k).filter MidiMessage.is_button = button_loop last cur i k := by
  rw [List.filter_eq_self]
  intro m hm
  obtain ⟨j, _, _, hj⟩ := midi_mem_button_loop last cur m k i hm
  rcases (midi_mem_button_loop_body last cur m j hj).1 with h | h <;> rw [h] <;>
    simp [MidiMessage.is_button]

/-- The messages of the stick and trigger blocks carry notes 40..49. -/
theorem left_stick_block_notes (st : JoystickDirection) (lx ly : uint8_t) :
    ∀ m ∈ (left_stick_block st lx ly).2, 40 ≤ m.data1 ∧ m.data1 ≤ 49 := by
  unfold left_stick_block
  cases get_joystick_direction lx ly <;> cases st <;> decide

theorem right_stick_block_notes (st : JoystickDirection) (rx ry : uint8_t) :
    ∀ m ∈ (right_stick_block st rx ry).2, 40 ≤ m.data1 ∧ m.data1 ≤ 49 := by
  unfold right_stick_block
  cases get_joystick_direction rx ry <;> cases st <;> decide

theorem lt_block_notes (p : Int) (lt : uint8_t) :
    ∀ m ∈ (lt_block p lt).2, 40 ≤ m.data1 ∧ m.data1 ≤ 49 := by
  unfold lt_block
  split_ifs
  · decide
  · decide
  · intro m hm
    simp at hm

theorem rt_block_notes (p : Int) (rt : uint8_t) :
    ∀ m ∈ (rt_block p rt).2, 40 ≤ m.data1 ∧ m.data1 ≤ 49 := by
  unfold rt_block
  split_ifs
  · decide
  · decide
  · intro m hm
    simp at hm

/-- The output of `interpret_hid_input` is the output of the button loop followed by
messages with notes 40..49. -/
theorem interpret_hid_input_out (s : State) (buf : Bytes) :
    ∃ rest, (interpret_hid_input s buf).2 =
        button_loop s.last_button_state (button_state_of buf) 0 16 ++ rest ∧
      ∀ m ∈ rest, 40 ≤ m.data1 ∧ m.data1 ≤ 49 := by
  refine ⟨(left_stick_block s.left_stick_state (buf 1) (buf 2)).2 ++
    (right_stick_block s.right_stick_state (buf 3) (buf 4)).2 ++
    (lt_block s.lt_pressed (buf 8)).2 ++ (rt_block s.rt_pressed (buf 7)).2, ?_, ?_⟩
  · simp only [interpret_hid_input, List.append_assoc]
  · intro m hm
    simp only [List.mem_append] at hm
    rcases hm with ((hm | hm) | hm) | hm
    · exact left_stick_block_notes _ _ _ m hm
    · exact right_stick_block_notes _ _ _ m hm
    · exact lt_block_notes _ _ m hm
    · exact rt_block_notes _ _ m hm

theorem midi_filter_interpret_hid_input (s : State) (buf : Bytes) :
    (interpret_hid_input s buf).2.filter MidiMessage.is_button =
      button_loop s.last_button_state (button_state_of buf) 0 16 := by
  obtain ⟨rest, h1, h2⟩ := interpret_hid_input_out s buf
  rw [h1, List.filter_append, midi_filter_button_loop]
  have : rest.filter MidiMessage.is_button = [] := by
    rw [List.filter_eq_nil_iff]
    intro m hm
    have := h2 m hm
    simp only [MidiMessage.is_button, decide_eq_true_eq]
    omega
  rw [this, List.append_nil]

end DebugV2Fixed

namespace MapFullV4

/-- A button line for button `i + 1` in the output comes from a bit `i` that differs. -/
theorem button_event_bit_differs (s : State) (buf : Bytes) (i : Nat) (m : Line)
    (hm : m ∈ (interpret_hid_input s buf).2)
    (heq : m = Line.boton_presionado ((i : Int) + 1) ∨ m = Line.boton_liberado ((i : Int) + 1)) :
    s.last_button_state.val.testBit i ≠ (button_state_of buf).val.testBit i := by
  have hb : m.is_button = true := by
    rcases heq with h | h <;> rw [h] <;> rfl
  have hm' : m ∈ (interpret_hid_input s buf).2.filter Line.is_button :=
    List.mem_filter.2 ⟨hm, hb⟩
  rw [filter_interpret_hid_input] at hm'
  obtain ⟨j, _, _, hj⟩ := mem_button_loop _ _ m 16 0 hm'
  obtain ⟨hj1, hj2⟩ := mem_button_loop_body _ _ m j hj
  have hji : j = i := by
    rcases heq with h | h <;> rcases hj1 with h' | h' <;> rw [h] at h' <;>
      simp at h' <;> omega
  rw [← hji]
  exact hj2

end MapFullV4

namespace DebugV2Fixed

/-- A message with note `60 + i` in the output is the Note On or the Note Off of the button
loop for bit `i`, and that bit differs. -/
theorem button_note_bit_differs (s : State) (buf : Bytes) (i : Nat) (m : MidiMessage)
    (hm : m ∈ (interpret_hid_input s buf).2) (heq : m.data1 = 60 + (i : Int)) :
    (m = { status := 0x90, data1 := 60 + (i : Int), data2 := 127 } ∨
      m = { status := 0x80, data1 := 60 + (i : Int), data2 := 0 }) ∧
    s.last_button_state.val.testBit i ≠ (button_state_of buf).val.testBit i := by
  obtain ⟨rest, h1, h2⟩ := interpret_hid_input_out s buf
  rw [h1, List.mem_append] at hm
  rcases hm with hm | hm
  · obtain ⟨j, _, _, hj⟩ := midi_mem_button_loop _ _ m 16 0 hm
    obtain ⟨hj1, hj2⟩ := midi_mem_button_loop_body _ _ m j hj
    have hji : j = i := by
      rcases hj1 with h' | h' <;> rw [h'] at heq <;> simp only at heq <;> omega
    rw [← hji]
    exact ⟨hj1, hj2⟩
  · have := h2 m hm
    omega

end DebugV2Fixed

/-- C5 (edge exactness). In joystick_midi_map_full_v4.c and in joystick_midi_debug_v2_fixed.c,
for every stored state and every report, the number of button events (press or release)
that `interpret_hid_input` emits equals the Hamming distance between `last_button_state` and
`button_state = (buf[6] << 8) | buf[5]`, and no button event is emitted for a bit that is
equal in both. -/
theorem edge_exactness (buf : Bytes) :
    (∀ s : MapFullV4.State,
      ((MapFullV4.interpret_hid_input s buf).2.filter MapFullV4.Line.is_button).length =
        hamming16 s.last_button_state (button_state_of buf) ∧
      ∀ i, i < 16 →
        s.last_button_state.val.testBit i = (button_state_of buf).val.testBit i →
        ∀ m ∈ (MapFullV4.interpret_hid_input s buf).2,
          m ≠ MapFullV4.Line.boton_presionado ((i : Int) + 1) ∧
          m ≠ MapFullV4.Line.boton_liberado ((i : Int) + 1)) ∧
    (∀ s : DebugV2Fixed.State,
      ((DebugV2Fixed.interpret_hid_input s buf).2.filter
          DebugV2Fixed.MidiMessage.is_button).length =
        hamming16 s.last_button_state (button_state_of buf) ∧
      ∀ i, i < 16 →
        s.last_button_state.val.testBit i = (button_state_of buf).val.testBit i →
        ∀ m ∈ (DebugV2Fixed.interpret_hid_input s buf).2, m.data1 ≠ 60 + (i : Int)) := by
  constructor
  · intro s
    constructor
    · rw [MapFullV4.filter_interpret_hid_input, MapFullV4.button_loop_length]
      simp [hamming16]
    · intro i _ hbit m hm
      constructor
      · intro heq
        exact MapFullV4.button_event_bit_differs s buf i m hm (Or.inl heq) hbit
      · intro heq
        exact MapFullV4.button_event_bit_differs s buf i m hm (Or.inr heq) hbit
  · intro s
    constructor
    · rw [DebugV2Fixed.midi_filter_interpret_hid_input, DebugV2Fixed.midi_button_loop_length]
      simp [hamming16]
    · intro i _ hbit m hm heq
      exact (DebugV2Fixed.button_note_bit_differs s buf i m hm heq).2 hbit

/-- From all buttons up to the report with button bytes `08 00`: Hamming distance 1, one
button event in each program, and it is the one of bit 3. -/
theorem edge_exactness_witness :
    hamming16 0 (button_state_of DebugV2Fixed.report_bit3) = 1 ∧
    ((MapFullV4.interpret_hid_input MapFullV4.State.init
        DebugV2Fixed.report_bit3).2.filter MapFullV4.Line.is_button).length = 1 ∧
    (MapFullV4.interpret_hid_input MapFullV4.State.init DebugV2Fixed.report_bit3).2 =
      [MapFullV4.Line.boton_presionado 4] ∧
    ((DebugV2Fixed.interpret_hid_input DebugV2Fixed.State.init
        DebugV2Fixed.report_bit3).2.filter DebugV2Fixed.MidiMessage.is_button).length = 1 :=
  ⟨by decide,
   ((edge_exactness DebugV2Fixed.report_bit3).1 MapFullV4.State.init).1.trans (by decide),
   by decide,
   by decide⟩

namespace DebugV2Fixed

/-- A message with note `60 + i` occurs in the button loop as often as in the body for
bit `i`, when the loop visits that bit. -/
theorem count_button_loop (last cur : uint16_t) (m : MidiMessage) (i : Nat)
    (hm : m.data1 = 60 + (i : Int)) (k i0 : Nat) :
    (button_loop last cur i0 k).count m =
      if i0 ≤ i ∧ i < i0 + k then (button_loop_body last cur i).count m else 0 := by
  induction k generalizing i0 with
  | zero =>
    have : ¬ (i0 ≤ i ∧ i < i0 + 0) := by omega
    rw [if_neg this]
    rfl
  | succ k ih =>
    rw [button_loop, List.count_append, ih (i0 + 1)]
    by_cases h0 : i0 = i
    · subst h0
      have h1 : ¬ (i0 + 1 ≤ i0 ∧ i0 < i0 + 1 + k) := by omega
      have h2 : i0 ≤ i0 ∧ i0 < i0 + (k + 1) := by omega
      rw [if_neg h1, if_pos h2, Nat.add_zero]
    · have hnot : m ∉ button_loop_body last cur i0 := by
        intro hmem
        rcases (midi_mem_button_loop_body last cur m i0 hmem).1 with h' | h' <;>
          rw [h'] at hm <;> simp only at hm <;> omega
      rw [List.count_eq_zero_of_not_mem hnot, Nat.zero_add]
      by_cases h1 : i0 + 1 ≤ i ∧ i < i0 + 1 + k
      · have h2 : i0 ≤ i ∧ i < i0 + (k + 1) := by omega
        rw [if_pos h1, if_pos h2]
      · have h2 : ¬ (i0 ≤ i ∧ i < i0 + (k + 1)) := by omega
        rw [if_neg h1, if_neg h2]

/-- A message with note `60 + i`, `i < 16`, occurs in the output of `interpret_hid_input` as
often as in the body of the button loop for bit `i`. -/
theorem count_interpret_hid_input (s : State) (buf : Bytes) (m : MidiMessage) (i : Nat)
    (hi : i < 16) (hm : m.data1 = 60 + (i : Int)) :
    (interpret_hid_input s buf).2.count m =
      (button_loop_body s.last_button_state (button_state_of buf) i).count m := by
  obtain ⟨rest, h1, h2⟩ := interpret_hid_input_out s buf
  have hrest : m ∉ rest := by
    intro hmem
    have := h2 m hmem
    omega
  rw [h1, List.count_append, List.count_eq_zero_of_not_mem hrest, Nat.add_zero,
    count_button_loop _ _ m i hm 16 0]
  rw [if_pos (by omega)]

end DebugV2Fixed

namespace DebugV2Fixed

/-- C6 (edge detector contract). In joystick_midi_debug_v2_fixed.c, for every state, every
report and every bit `i` in 0..15, `interpret_hid_input` sends the Note On
`(0x90, 60 + i, 127)` once when bit `i` is set in `button_state` and clear in
`last_button_state` and never otherwise, sends the Note Off `(0x80, 60 + i, 0)` once when
the bit is clear in `button_state` and set in `last_button_state` and never otherwise,
sends no other message with note `60 + i`, and leaves `last_button_state` equal to
`button_state`. -/
theorem edge_detector_contract (s : State) (buf : Bytes) (i : Nat) (hi : i < 16) :
    (interpret_hid_input s buf).2.count
        { status := 0x90, data1 := 60 + (i : Int), data2 := 127 } =
      (if (button_state_of buf).val.testBit i = true ∧
          s.last_button_state.val.testBit i = false then 1 else 0) ∧
    (interpret_hid_input s buf).2.count
        { status := 0x80, data1 := 60 + (i : Int), data2 := 0 } =
      (if (button_state_of buf).val.testBit i = false ∧
          s.last_button_state.val.testBit i = true then 1 else 0) ∧
    (∀ m ∈ (interpret_hid_input s buf).2, m.data1 = 60 + (i : Int) →
      m = { status := 0x90, data1 := 60 + (i : Int), data2 := 127 } ∨
      m = { status := 0x80, data1 := 60 + (i : Int), data2 := 0 }) ∧
    (interpret_hid_input s buf).1.last_button_state = button_state_of buf := by
  refine ⟨?_, ?_, ?_, rfl⟩
  · rw [count_interpret_hid_input s buf _ i hi rfl, midi_button_loop_body_eq]
    cases (button_state_of buf).val.testBit i <;>
      cases s.last_button_state.val.testBit i <;> simp
  · rw [count_interpret_hid_input s buf _ i hi rfl, midi_button_loop_body_eq]
    cases (button_state_of buf).val.testBit i <;>
      cases s.last_button_state.val.testBit i <;> simp
  · intro m hm heq
    exact (button_note_bit_differs s buf i m hm heq).1

/-- Bit 3 going from 0 to 1 with all else unchanged: exactly one message, the Note On of
note 63, and `last_button_state` becomes 8. -/
theorem edge_detector_contract_witness :
    3 < 16 ∧
    (interpret_hid_input State.init report_bit3).2.count
        { status := 0x90, data1 := 60 + ((3 : Nat) : Int), data2 := 127 } = 1 ∧
    (interpret_hid_input State.init report_bit3).2 =
      [{ status := 0x90, data1 := 63, data2 := 127 }] ∧
    (interpret_hid_input State.init report_bit3).1.last_button_state = 8 :=
  ⟨by decide,
   (edge_detector_contract State.init report_bit3 3 (by decide)).1.trans (by decide),
   by decide, by decide⟩

end DebugV2Fixed

namespace MapFullV4

theorem button_loop_self (cur : uint16_t) (k i : Nat) : button_loop cur cur i k = [] := by
  induction k generalizing i with
  | zero => rfl
  | succ k ih =>
    rw [button_loop, ih, button_loop_body_eq]
    cases cur.val.testBit i <;> simp

theorem left_stick_block_twice (st : JoystickDirection) (lx ly : uint8_t) :
    left_stick_block (left_stick_block st lx ly).1 lx ly = ((left_stick_block st lx ly).1, []) := by
  unfold left_stick_block
  cases get_joystick_direction lx ly <;> cases st <;> decide

theorem right_stick_block_twice (st : JoystickDirection) (rx ry : uint8_t) :
    right_stick_block (right_stick_block st rx ry).1 rx ry =
      ((right_stick_block st rx ry).1, []) := by
  unfold right_stick_block
  cases get_joystick_direction rx ry <;> cases st <;> decide

theorem lt_block_twice (p : Int) (lt : uint8_t) :
    lt_block (lt_block p lt).1 lt = ((lt_block p lt).1, []) := by
  unfold lt_block
  by_cases h1 : lt.val = 0
  · have h3 : ¬ lt.val > 0 := by omega
    by_cases h2 : p = 0
    · simp [h1, h2]
    · simp [h1, h2]
  · have h3 : lt.val > 0 := by omega
    by_cases h2 : p = 0
    · simp [h1, h2, h3]
    · simp [h1, h2, h3]

theorem rt_block_twice (p : Int) (rt : uint8_t) :
    rt_block (rt_block p rt).1 rt = ((rt_block p rt).1, []) := by
  unfold rt_block
  by_cases h1 : rt.val = 0
  · have h3 : ¬ rt.val > 0 := by omega
    by_cases h2 : p = 0
    · simp [h1, h2]
    · simp [h1, h2]
  · have h3 : rt.val > 0 := by omega
    by_cases h2 : p = 0
    · simp [h1, h2, h3]
    · simp [h1, h2, h3]

/-- C7 (no repeated readings while held, v4). For every prior state and every report,
a second call of `interpret_hid_input` with the same report writes nothing (no button,
stick or trigger line) and leaves the state as the first call left it. -/
theorem no_repeated_readings (s : State) (buf : Bytes) :
    interpret_hid_input (interpret_hid_input s buf).1 buf =
      ((interpret_hid_input s buf).1, []) := by
  simp only [interpret_hid_input, button_loop_self, left_stick_block_twice,
    right_stick_block_twice, lt_block_twice, rt_block_twice, List.append_nil]

end MapFullV4

/-! ### The axis discretizer -/

/-- C8 (axis determinism). With center 0x80 and DEADZONE 8, `get_joystick_direction` gives
Neutral at `(0x80, 0x80)`, Left at `(0x80 - 8 - 1, 0x80)` and Down at `(0x80, 0x80 + 8 + 1)`. -/
theorem axis_determinism :
    get_joystick_direction 0x80 0x80 = JoystickDirection.Neutral ∧
    get_joystick_direction (0x80 - 8 - 1) 0x80 = JoystickDirection.Left ∧
    get_joystick_direction 0x80 (0x80 + 8 + 1) = JoystickDirection.Down := by
  refine ⟨?_, ?_, ?_⟩ <;> decide

/-- C9, as stated, fails: at `(100, 0)` the stated precedence gives Up (`|x-C| = 28` is not
above `|y-C| = 128`) and the code gives Left; at `(136, 128)` the stated precedence gives
Right (`|x-C| = 8` is not below the deadzone) and the code gives Neutral. -/
theorem axis_precedence_counterexample :
    (axis_state_spec 0x80 DEADZONE 100 0 = JoystickDirection.Up ∧
      get_joystick_direction 100 0 = JoystickDirection.Left) ∧
    (axis_state_spec 0x80 DEADZONE 136 128 = JoystickDirection.Right ∧
      get_joystick_direction 136 128 = JoystickDirection.Neutral) := by
  refine ⟨⟨?_, ?_⟩, ⟨?_, ?_⟩⟩ <;> decide

/-- C9, amended. For every `x`, `y` in 0..255, with `C = 0x80` and `D = 8`,
`get_joystick_direction(x, y)` is Neutral if `|x-C| ≤ D` and `|y-C| ≤ D`; otherwise, if
`|x-C| > D` it is Left when `x < C` and Right when `x > C`, whatever `y` is; otherwise it is
Up when `y < C` and Down when `y > C`. -/
theorem axis_precedence_amended (x y : uint8_t) :
    get_joystick_direction x y =
      if |(x.val : Int) - 0x80| ≤ DEADZONE ∧ |(y.val : Int) - 0x80| ≤ DEADZONE then
        JoystickDirection.Neutral
      else if |(x.val : Int) - 0x80| > DEADZONE then
        (if (x.val : Int) < 0x80 then JoystickDirection.Left else JoystickDirection.Right)
      else (if (y.val : Int) < 0x80 then JoystickDirection.Up else JoystickDirection.Down) := by
  unfold get_joystick_direction DEADZONE
  simp only [abs_le, gt_iff_lt, lt_abs]
  split_ifs <;> first | rfl | omega

namespace MapFull

/-- C10 (axis precedence of `assign_direction`). For a stored combo of length below 3 the
result is "Desconocido". For a stored combo of length at least 3, with
`dx = data[1] - 128`, `dy = data[2] - 128`: the result is "Neutral" iff `|dx| < 15` and
`|dy| < 15`; otherwise, if `|dx| > |dy|`, it is "Derecha" when `dx > 0` and "Izquierda"
when `dx < 0`; otherwise `dy` is not 0 and it is "Abajo" when `dy > 0` and "Arriba" when
`dy < 0`. -/
theorem assign_direction_precedence (combo : ButtonCombo) :
    (combo.len < 3 → assign_direction combo = "Desconocido") ∧
    (3 ≤ combo.len →
      (assign_direction combo = "Neutral" ↔
        |((combo.data 1).val : Int) - 128| < 15 ∧ |((combo.data 2).val : Int) - 128| < 15) ∧
      (¬ (|((combo.data 1).val : Int) - 128| < 15 ∧ |((combo.data 2).val : Int) - 128| < 15) →
        (|((combo.data 1).val : Int) - 128| > |((combo.data 2).val : Int) - 128| →
          (((combo.data 1).val : Int) - 128 > 0 → assign_direction combo = "Derecha") ∧
          (((combo.data 1).val : Int) - 128 < 0 → assign_direction combo = "Izquierda")) ∧
        (¬ |((combo.data 1).val : Int) - 128| > |((combo.data 2).val : Int) - 128| →
          ((combo.data 2).val : Int) - 128 ≠ 0 ∧
          (((combo.data 2).val : Int) - 128 > 0 → assign_direction combo = "Abajo") ∧
          (((combo.data 2).val : Int) - 128 < 0 → assign_direction combo = "Arriba")))) := by
  constructor
  · intro h
    simp only [assign_direction, h, if_true]
  · intro h
    have hlen : ¬ combo.len < 3 := by omega
    simp only [assign_direction, hlen, if_false]
    generalize ((combo.data 1).val : Int) - 128 = dx
    generalize ((combo.data 2).val : Int) - 128 = dy
    by_cases hn : |dx| < 15 ∧ |dy| < 15
    · simp only [hn, and_self, if_true, not_true_eq_false, false_implies, and_true]
    · simp only [hn, if_false, not_false_eq_true, true_implies]
      by_cases hd : |dx| > |dy|
      · simp only [hd, if_true, not_true_eq_false, false_implies, and_true, true_implies]
        refine ⟨?_, ?_, ?_⟩
        · split_ifs <;> decide
        · intro h1
          rw [if_pos h1]
        · intro h1
          rw [if_neg (by omega)]
      · simp only [hd, if_false, not_false_eq_true, true_implies, false_implies, true_and]
        have hdy : dy ≠ 0 := by
          intro h0
          rw [h0, abs_zero] at hd hn
          have := abs_nonneg dx
          have hdx : |dx| = 0 := by omega
          rw [hdx] at hn
          omega
        refine ⟨?_, hdy, ?_, ?_⟩
        · split_ifs <;> decide
        · intro h1
          rw [if_pos h1]
        · intro h1
          rw [if_neg (by omega)]

/-- The combo `[00 C8 80]` has `dx = 72`, `dy = 0`: the direction is "Derecha". -/
theorem assign_direction_precedence_witness :
    3 ≤ combo_right.len ∧
    ¬ (|((combo_right.data 1).val : Int) - 128| < 15 ∧
        |((combo_right.data 2).val : Int) - 128| < 15) ∧
    |((combo_right.data 1).val : Int) - 128| > |((combo_right.data 2).val : Int) - 128| ∧
    ((combo_right.data 1).val : Int) - 128 > 0 ∧
    assign_direction combo_right = "Derecha" :=
  ⟨by decide, by decide, by decide, by decide,
   (((assign_direction_precedence combo_right).2 (by decide)).2 (by decide)).1 (by decide)
     |>.1 (by decide)⟩

end MapFull

/-! ### Edge-triggered axis events (joystick_midi_map_full_v6.c) -/

namespace MapFullV6

theorem left_stick_line_eq (d : JoystickDirection) :
    left_stick_line d = [Line.joystick_izquierdo d] := by
  cases d <;> rfl

theorem right_stick_line_eq (d : JoystickDirection) :
    right_stick_line d = [Line.joystick_derecho d] := by
  cases d <;> rfl

theorem left_stick_block_eq (st : JoystickDirection) (lx ly : uint8_t) :
    left_stick_block st lx ly =
      (get_joystick_direction lx ly,
        if get_joystick_direction lx ly ≠ st then
          [Line.joystick_izquierdo (get_joystick_direction lx ly)]
        else []) := by
  unfold left_stick_block
  by_cases h : get_joystick_direction lx ly = st
  · simp [h]
  · simp [h, left_stick_line_eq]

theorem right_stick_block_eq (st : JoystickDirection) (rx ry : uint8_t) :
    right_stick_block st rx ry =
      (get_joystick_direction rx ry,
        if get_joystick_direction rx ry ≠ st then
          [Line.joystick_derecho (get_joystick_direction rx ry)]
        else []) := by
  unfold right_stick_block
  by_cases h : get_joystick_direction rx ry = st
  · simp [h]
  · simp [h, right_stick_line_eq]

theorem lt_block_no_stick (p : Int) (lt : uint8_t) :
    (lt_block p lt).2.filter Line.is_left = [] ∧ (lt_block p lt).2.filter Line.is_right = [] := by
  unfold lt_block
  split_ifs <;> exact ⟨rfl, rfl⟩

theorem rt_block_no_stick (p : Int) (rt : uint8_t) :
    (rt_block p rt).2.filter Line.is_left = [] ∧ (rt_block p rt).2.filter Line.is_right = [] := by
  unfold rt_block
  split_ifs <;> exact ⟨rfl, rfl⟩

theorem extra_block_no_stick (b5 b6 : uint8_t) :
    (extra_block b5 b6).filter Line.is_left = [] ∧
    (extra_block b5 b6).filter Line.is_right = [] := by
  unfold extra_block
  split_ifs <;> exact ⟨rfl, rfl⟩

/-- C11 (edge-triggered axis events, all-transitions policy, v6). For every state and every
report, and for each stick on its own: the direction lines that `interpret_hid_input` writes
for the stick are exactly one line, the one of the computed direction, when
`get_joystick_direction` of the stick's two bytes differs from the stored state, and none
otherwise; after the call the stored state equals the computed direction. -/
theorem edge_triggered_axis_events (s : State) (buf : Bytes) :
    (interpret_hid_input s buf).2.filter Line.is_left =
      (if get_joystick_direction (buf 1) (buf 2) ≠ s.left_stick_state then
        [Line.joystick_izquierdo (get_joystick_direction (buf 1) (buf 2))]
      else []) ∧
    (interpret_hid_input s buf).2.filter Line.is_right =
      (if get_joystick_direction (buf 3) (buf 4) ≠ s.right_stick_state then
        [Line.joystick_derecho (get_joystick_direction (buf 3) (buf 4))]
      else []) ∧
    (interpret_hid_input s buf).1.left_stick_state = get_joystick_direction (buf 1) (buf 2) ∧
    (interpret_hid_input s buf).1.right_stick_state = get_joystick_direction (buf 3) (buf 4) := by
  refine ⟨?_, ?_, ?_, ?_⟩
  · simp only [interpret_hid_input, List.filter_append, left_stick_block_eq,
      right_stick_block_eq, (lt_block_no_stick _ _).1, (rt_block_no_stick _ _).1,
      (extra_block_no_stick _ _).1, List.append_nil]
    by_cases h1 : get_joystick_direction (buf 1) (buf 2) = s.left_stick_state <;>
      by_cases h2 : get_joystick_direction (buf 3) (buf 4) = s.right_stick_state <;>
      simp [h1, h2, Line.is_left]
  · simp only [interpret_hid_input, List.filter_append, left_stick_block_eq,
      right_stick_block_eq, (lt_block_no_stick _ _).2, (rt_block_no_stick _ _).2,
      (extra_block_no_stick _ _).2, List.append_nil]
    by_cases h1 : get_joystick_direction (buf 1) (buf 2) = s.left_stick_state <;>
      by_cases h2 : get_joystick_direction (buf 3) (buf 4) = s.right_stick_state <;>
      simp [h1, h2, Line.is_right]
  · simp only [interpret_hid_input, left_stick_block_eq]
  · simp only [interpret_hid_input, right_stick_block_eq]

/-- From both sticks Neutral, the report with the left stick at `(0x60, 0x80)` and the right
stick at `(0x80, 0x80)`: one line, "Joystick Izquierdo: Izquierda", and none for the right
stick. -/
theorem edge_triggered_axis_events_witness :
    (interpret_hid_input State.init report_left_stick_left).2.filter Line.is_left =
      [Line.joystick_izquierdo JoystickDirection.Left] ∧
    (interpret_hid_input State.init report_left_stick_left).2.filter Line.is_right = [] ∧
    (interpret_hid_input State.init report_left_stick_left).2 =
      [Line.joystick_izquierdo JoystickDirection.Left] :=
  ⟨(edge_triggered_axis_events State.init report_left_stick_left).1.trans (by decide),
   by decide, by decide⟩

end MapFullV6

/-! ### The pulse mechanism (joystick_midi_combined.c) -/

namespace Combined

theorem get_note_for_button_ge (k : Int) (hk : 0 ≤ k) : 30 ≤ get_note_for_button k := by
  unfold get_note_for_button
  simp only
  split_ifs <;> omega

/-- The call with an index that differs from `last_event`. -/
theorem process_midi_event_change (now : Nat) (current_index : Int) (s : PulseSlot)
    (h : current_index ≠ s.last_event) :
    process_midi_event now current_index s =
      if current_index ≠ -1 then
        ({ last_event := current_index, last_note := get_note_for_button current_index,
           last_triggered := now },
         (if s.last_note ≠ -1 then [{ status := 0x80, data1 := s.last_note, data2 := 0 }]
          else []) ++
           [{ status := 0x90, data1 := get_note_for_button current_index, data2 := 127 }])
      else
        ({ last_event := current_index, last_note := -1, last_triggered := s.last_triggered },
         if s.last_note ≠ -1 then [{ status := 0x80, data1 := s.last_note, data2 := 0 }]
         else []) := by
  unfold process_midi_event
  rw [if_pos h]

/-- The call with the index that `last_event` holds, other than `-1`. -/
theorem process_midi_event_same (now : Nat) (s : PulseSlot) (hk : s.last_event ≠ -1) :
    process_midi_event now s.last_event s =
      if elapsed now s.last_triggered ≥ PULSE_DURATION ∧ s.last_note ≠ -1 then
        if elapsed now s.last_triggered ≥ PULSE_INTERVAL then
          ({ last_event := s.last_event, last_note := get_note_for_button s.last_event,
             last_triggered := now },
           [{ status := 0x80, data1 := s.last_note, data2 := 0 },
            { status := 0x90, data1 := get_note_for_button s.last_event, data2 := 127 }])
        else
          ({ last_event := s.last_event, last_note := -1, last_triggered := s.last_triggered },
           [{ status := 0x80, data1 := s.last_note, data2 := 0 }])
      else if s.last_note = -1 ∧ elapsed now s.last_triggered ≥ PULSE_INTERVAL then
        ({ last_event := s.last_event, last_note := get_note_for_button s.last_event,
           last_triggered := now },
         [{ status := 0x90, data1 := get_note_for_button s.last_event, data2 := 127 }])
      else (s, []) := by
  unfold process_midi_event
  simp only [ne_eq, not_true_eq_false, if_false, hk, not_false_eq_true, if_true]
  by_cases h1 : elapsed now s.last_triggered ≥ PULSE_DURATION ∧ ¬ s.last_note = -1
  · by_cases h2 : elapsed now s.last_triggered ≥ PULSE_INTERVAL
    · simp [h1, h2]
    · simp [h1, h2]
  · by_cases h3 : s.last_note = -1 ∧ elapsed now s.last_triggered ≥ PULSE_INTERVAL
    · simp [h1, h3]
    · simp only [h1, h3, if_false]

end Combined

namespace Combined

/-- C13 (immediate release). For every Active slot (`last_event = k ≥ 0`, `last_note = n`
other than `-1`) and every `now` and `last_triggered`, the call with `current_index = -1`
sends exactly one message, the Note Off `(0x80, n, 0)`, and no Note On, and leaves
`last_event = -1` and `last_note = -1`. -/
theorem immediate_release (now : Nat) (s : PulseSlot) (hk : 0 ≤ s.last_event)
    (hn : s.last_note ≠ -1) :
    process_midi_event now (-1) s =
      ({ last_event := -1, last_note := -1, last_triggered := s.last_triggered },
       [{ status := 0x80, data1 := s.last_note, data2 := 0 }]) := by
  have h : (-1 : Int) ≠ s.last_event := by omega
  rw [process_midi_event_change now (-1) s h]
  simp [hn]

/-- An Active slot with note 30, released 10 ms after its trigger, long before the end of
the pulse: one Note Off, slot Idle. -/
theorem immediate_release_witness :
    ((0 : Int) ≤ 0 ∧ (30 : Int) ≠ -1) ∧
    process_midi_event 10 (-1) { last_event := 0, last_note := 30, last_triggered := 0 } =
      ({ last_event := -1, last_note := -1, last_triggered := 0 },
       [{ status := 0x80, data1 := 30, data2 := 0 }]) :=
  ⟨⟨by decide, by decide⟩,
   immediate_release 10 { last_event := 0, last_note := 30, last_triggered := 0 }
     (by decide) (by decide)⟩

/-- C14, as stated, fails: on the Active slot `(0, 30, 0)` the call with index 0 at
`now = 200` has `now - last_triggered ≥ PULSE_DURATION` and sends two messages, the Note
Off and a Note On, and leaves the slot Active with `last_triggered = 200`, not Cooling. -/
theorem active_row_counterexample :
    elapsed 200 0 ≥ PULSE_DURATION ∧
    process_midi_event 200 0 { last_event := 0, last_note := 30, last_triggered := 0 } =
      ({ last_event := 0, last_note := 30, last_triggered := 200 },
       [{ status := 0x80, data1 := 30, data2 := 0 },
        { status := 0x90, data1 := 30, data2 := 127 }]) := by
  constructor <;> decide

/-- C14, amended. For every Active slot (`last_event = k ≥ 0`, `last_note` other than `-1`)
and the call with `current_index = k`: if `now - last_triggered < PULSE_DURATION` nothing
is sent and the slot is unchanged; if `PULSE_DURATION ≤ now - last_triggered <
PULSE_INTERVAL` exactly one message is sent, the Note Off of `last_note`, and the slot is
left Cooling (`last_event = k`, `last_note = -1`, `last_triggered` unchanged); if
`now - last_triggered ≥ PULSE_INTERVAL` the Note Off of `last_note` is followed in the same
call by the Note On of `get_note_for_button(k)`, and the slot is left Active with that note
and `last_triggered = now`. -/
theorem active_row_amended (now : Nat) (s : PulseSlot) (hk : 0 ≤ s.last_event)
    (hn : s.last_note ≠ -1) :
    (elapsed now s.last_triggered < PULSE_DURATION →
      process_midi_event now s.last_event s = (s, [])) ∧
    (PULSE_DURATION ≤ elapsed now s.last_triggered →
      elapsed now s.last_triggered < PULSE_INTERVAL →
      process_midi_event now s.last_event s =
        ({ last_event := s.last_event, last_note := -1, last_triggered := s.last_triggered },
         [{ status := 0x80, data1 := s.last_note, data2 := 0 }])) ∧
    (PULSE_INTERVAL ≤ elapsed now s.last_triggered →
      process_midi_event now s.last_event s =
        ({ last_event := s.last_event, last_note := get_note_for_button s.last_event,
           last_triggered := now },
         [{ status := 0x80, data1 := s.last_note, data2 := 0 },
          { status := 0x90, data1 := get_note_for_button s.last_event, data2 := 127 }])) := by
  have hk' : s.last_event ≠ -1 := by omega
  rw [process_midi_event_same now s hk']
  unfold PULSE_DURATION PULSE_INTERVAL
  refine ⟨?_, ?_, ?_⟩
  · intro h
    have h1 : ¬ (elapsed now s.last_triggered ≥ 50 ∧ s.last_note ≠ -1) := by omega
    have h2 : ¬ (s.last_note = -1 ∧ elapsed now s.last_triggered ≥ 200) := by omega
    rw [if_neg h1, if_neg h2]
  · intro h h'
    have h1 : elapsed now s.last_triggered ≥ 50 ∧ s.last_note ≠ -1 := ⟨h, hn⟩
    have h2 : ¬ elapsed now s.last_triggered ≥ 200 := by omega
    rw [if_pos h1, if_neg h2]
  · intro h
    have h1 : elapsed now s.last_triggered ≥ 50 ∧ s.last_note ≠ -1 := ⟨by omega, hn⟩
    rw [if_pos h1, if_pos h]

/-- The Active slot `(0, 30, 0)` at `now = 50`: the Note Off alone, slot Cooling; at
`now = 10`: nothing. -/
theorem active_row_amended_witness :
    ((0 : Int) ≤ 0 ∧ (30 : Int) ≠ -1 ∧ PULSE_DURATION ≤ elapsed 50 0 ∧
      elapsed 50 0 < PULSE_INTERVAL) ∧
    process_midi_event 50 0 { last_event := 0, last_note := 30, last_triggered := 0 } =
      ({ last_event := 0, last_note := -1, last_triggered := 0 },
       [{ status := 0x80, data1 := 30, data2 := 0 }]) :=
  ⟨⟨by decide, by decide, by decide, by decide⟩,
   (active_row_amended 50 { last_event := 0, last_note := 30, last_triggered := 0 }
     (by decide) (by decide)).2.1 (by decide) (by decide)⟩

/-- C15 (Cooling row). For every Cooling slot (`last_event = k ≥ 0`, `last_note = -1`) and
the call with `current_index = k`: if `now - last_triggered ≥ PULSE_INTERVAL` exactly one
message is sent, the Note On of `get_note_for_button(k)`, `last_note` becomes that note and
`last_triggered` becomes `now`; if `now - last_triggered < PULSE_INTERVAL` nothing is sent
and the slot is unchanged. -/
theorem cooling_row (now : Nat) (s : PulseSlot) (hk : 0 ≤ s.last_event)
    (hn : s.last_note = -1) :
    (PULSE_INTERVAL ≤ elapsed now s.last_triggered →
      process_midi_event now s.last_event s =
        ({ last_event := s.last_event, last_note := get_note_for_button s.last_event,
           last_triggered := now },
         [{ status := 0x90, data1 := get_note_for_button s.last_event, data2 := 127 }])) ∧
    (elapsed now s.last_triggered < PULSE_INTERVAL →
      process_midi_event now s.last_event s = (s, [])) := by
  have hk' : s.last_event ≠ -1 := by omega
  rw [process_midi_event_same now s hk']
  have h1 : ¬ (elapsed now s.last_triggered ≥ PULSE_DURATION ∧ s.last_note ≠ -1) := by
    intro h
    exact h.2 hn
  rw [if_neg h1]
  constructor
  · intro h
    rw [if_pos ⟨hn, h⟩]
  · intro h
    have h2 : ¬ (s.last_note = -1 ∧ elapsed now s.last_triggered ≥ PULSE_INTERVAL) := by
      intro h'
      exact absurd h'.2 (not_le.2 h)
    rw [if_neg h2]

/-- The Cooling slot `(0, -1, 0)` at `now = 200`: the Note On of note 30, slot Active with
`last_triggered = 200`. -/
theorem cooling_row_witness :
    ((0 : Int) ≤ 0 ∧ PULSE_INTERVAL ≤ elapsed 200 0) ∧
    process_midi_event 200 0 { last_event := 0, last_note := -1, last_triggered := 0 } =
      ({ last_event := 0, last_note := 30, last_triggered := 200 },
       [{ status := 0x90, data1 := 30, data2 := 127 }]) :=
  ⟨⟨by decide, by decide⟩,
   ((cooling_row 200 { last_event := 0, last_note := -1, last_triggered := 0 }
     (by decide) rfl).1 (by decide)).trans (by decide)⟩

end Combined

namespace Combined

/-- One call keeps the invariant of the slot, whatever its index and clock value. -/
theorem process_midi_event_invariant (now : Nat) (current_index : Int) (s : PulseSlot)
    (hinv : s.last_note ≠ -1 →
      s.last_event ≠ -1 ∧ s.last_note = get_note_for_button s.last_event) :
    (process_midi_event now current_index s).1.last_note ≠ -1 →
      (process_midi_event now current_index s).1.last_event ≠ -1 ∧
      (process_midi_event now current_index s).1.last_note =
        get_note_for_button (process_midi_event now current_index s).1.last_event := by
  by_cases hc : current_index = s.last_event
  · by_cases hk : s.last_event = -1
    · have hres : process_midi_event now current_index s = (s, []) := by
        unfold process_midi_event
        simp [hc, hk]
      rw [hres]
      exact hinv
    · rw [hc, process_midi_event_same now s hk]
      split_ifs
      · intro _
        exact ⟨hk, rfl⟩
      · intro h
        exact absurd rfl h
      · intro _
        exact ⟨hk, rfl⟩
      · exact hinv
  · rw [process_midi_event_change now current_index s hc]
    by_cases h1 : current_index ≠ -1
    · rw [if_pos h1]
      intro _
      exact ⟨h1, rfl⟩
    · rw [if_neg h1]
      intro h
      exact absurd rfl h

theorem run_calls_invariant (calls : List (Int × Nat)) (s : PulseSlot)
    (hinv : s.last_note ≠ -1 →
      s.last_event ≠ -1 ∧ s.last_note = get_note_for_button s.last_event) :
    (run_calls s calls).last_note ≠ -1 →
      (run_calls s calls).last_event ≠ -1 ∧
      (run_calls s calls).last_note = get_note_for_button (run_calls s calls).last_event := by
  induction calls generalizing s with
  | nil => exact hinv
  | cons c rest ih =>
    obtain ⟨current_index, now⟩ := c
    unfold run_calls
    exact ih _ (process_midi_event_invariant now current_index s hinv)

/-- C16 (PulseState invariant). Starting from the initial slot (`last_event = -1`,
`last_note = -1`, `last_triggered = 0`), after any sequence of calls of
`process_midi_event` with any indices and any clock values, `last_note ≠ -1` implies
`last_event ≠ -1` and `last_note = get_note_for_button(last_event)`. -/
theorem pulse_state_invariant (calls : List (Int × Nat)) :
    (run_calls PulseSlot.init calls).last_note ≠ -1 →
      (run_calls PulseSlot.init calls).last_event ≠ -1 ∧
      (run_calls PulseSlot.init calls).last_note =
        get_note_for_button (run_calls PulseSlot.init calls).last_event :=
  run_calls_invariant calls PulseSlot.init (fun h => absurd rfl h)

/-- After the calls with index 3 at 0 ms and at 10 ms the slot holds note 33, the note of
its `last_event`; after a further call with index -1 it holds none. -/
theorem pulse_state_invariant_witness :
    (run_calls PulseSlot.init [(3, 0), (3, 10)]).last_note ≠ -1 ∧
    ((run_calls PulseSlot.init [(3, 0), (3, 10)]).last_event ≠ -1 ∧
      (run_calls PulseSlot.init [(3, 0), (3, 10)]).last_note =
        get_note_for_button (run_calls PulseSlot.init [(3, 0), (3, 10)]).last_event) ∧
    run_calls PulseSlot.init [(3, 0), (3, 10)] =
      { last_event := 3, last_note := 33, last_triggered := 0 } ∧
    run_calls PulseSlot.init [(3, 0), (3, 10), (-1, 20)] =
      { last_event := -1, last_note := -1, last_triggered := 0 } :=
  ⟨by decide, pulse_state_invariant [(3, 0), (3, 10)] (by decide), by decide, by decide⟩

/-! #### The cadence of a held index -/

theorem elapsed_next (t : Nat) : elapsed (t + 1) (t - t % 200) = ((t % 200 : Nat) : Int) + 1 := by
  unfold elapsed
  have h1 : t % 200 < 200 := Nat.mod_lt _ (by decide)
  have h2 : t % 200 ≤ t := Nat.mod_le _ _
  omega

/-- The call with the index that the slot `(k, n, trig)` holds, other than `-1`. -/
theorem process_midi_event_same_mk (now : Nat) (k n : Int) (trig : Nat) (hk : k ≠ -1) :
    process_midi_event now k { last_event := k, last_note := n, last_triggered := trig } =
      if elapsed now trig ≥ PULSE_DURATION ∧ n ≠ -1 then
        if elapsed now trig ≥ PULSE_INTERVAL then
          ({ last_event := k, last_note := get_note_for_button k, last_triggered := now },
           [{ status := 0x80, data1 := n, data2 := 0 },
            { status := 0x90, data1 := get_note_for_button k, data2 := 127 }])
        else
          ({ last_event := k, last_note := -1, last_triggered := trig },
           [{ status := 0x80, data1 := n, data2 := 0 }])
      else if n = -1 ∧ elapsed now trig ≥ PULSE_INTERVAL then
        ({ last_event := k, last_note := get_note_for_button k, last_triggered := now },
         [{ status := 0x90, data1 := get_note_for_button k, data2 := 127 }])
      else ({ last_event := k, last_note := n, last_triggered := trig }, []) :=
  process_midi_event_same now { last_event := k, last_note := n, last_triggered := trig } hk

/-- The call at time `t` of the run with a held index `k ≥ 0`: the slot afterwards and the
messages sent. -/
theorem cadence_step (k : Int) (hk : 0 ≤ k) (t : Nat) :
    process_midi_event t k (cadence_state k t) =
      ({ last_event := k,
         last_note := if t % 200 < 50 then get_note_for_button k else -1,
         last_triggered := t - t % 200 },
       if t % 200 = 0 then [{ status := 0x90, data1 := get_note_for_button k, data2 := 127 }]
       else if t % 200 = 50 then
         [{ status := 0x80, data1 := get_note_for_button k, data2 := 0 }]
       else []) := by
  have hnote : get_note_for_button k ≠ -1 := by
    have := get_note_for_button_ge k hk
    omega
  have hk1 : k ≠ -1 := by omega
  induction t with
  | zero =>
    have h : k ≠ (cadence_state k 0).last_event := hk1
    rw [process_midi_event_change 0 k _ h]
    simp [hk1, cadence_state, PulseSlot.init]
  | succ t ih =>
    rw [cadence_state, ih, process_midi_event_same_mk _ _ _ _ hk1, elapsed_next]
    unfold PULSE_DURATION PULSE_INTERVAL
    have h1 : t % 200 < 200 := Nat.mod_lt _ (by decide)
    have h2 : t % 200 ≤ t := Nat.mod_le _ _
    by_cases ha : t % 200 < 49
    · have e1 : (t + 1) % 200 = t % 200 + 1 := by omega
      have e2 : t + 1 - (t + 1) % 200 = t - t % 200 := by omega
      have c1 : t % 200 < 50 := by omega
      have c4 : (t + 1) % 200 < 50 := by omega
      have c5 : ¬ (t + 1) % 200 = 0 := by omega
      have c6 : ¬ (t + 1) % 200 = 50 := by omega
      have c2 : ¬ (((t % 200 : Nat) : Int) + 1 ≥ 50 ∧ get_note_for_button k ≠ -1) := by omega
      have c3 : ¬ (get_note_for_button k = -1 ∧ ((t % 200 : Nat) : Int) + 1 ≥ 200) := by
        omega
      rw [if_pos c1, if_neg c2, if_neg c3, if_pos c4, if_neg c5, if_neg c6, e2]
    · by_cases hb : t % 200 = 49
      · have e1 : (t + 1) % 200 = 50 := by omega
        have c1 : t % 200 < 50 := by omega
        have c2 : ((t % 200 : Nat) : Int) + 1 ≥ 50 ∧ get_note_for_button k ≠ -1 :=
          ⟨by omega, hnote⟩
        have c3 : ¬ (((t % 200 : Nat) : Int) + 1 ≥ 200) := by omega
        have e2 : t + 1 - 50 = t - t % 200 := by omega
        rw [if_pos c1, if_pos c2, if_neg c3, e1, e2]
        simp
      · by_cases hc : t % 200 = 199
        · have e1 : (t + 1) % 200 = 0 := by omega
          have c1 : ¬ t % 200 < 50 := by omega
          have c2 : ¬ (((t % 200 : Nat) : Int) + 1 ≥ 50 ∧ (-1 : Int) ≠ -1) := by omega
          have c3 : (-1 : Int) = -1 ∧ ((t % 200 : Nat) : Int) + 1 ≥ 200 := ⟨rfl, by omega⟩
          rw [if_neg c1, if_neg c2, if_pos c3, e1]
          simp
        · have e1 : (t + 1) % 200 = t % 200 + 1 := by omega
          have e2 : t + 1 - (t + 1) % 200 = t - t % 200 := by omega
          have c1 : ¬ t % 200 < 50 := by omega
          have c2 : ¬ (((t % 200 : Nat) : Int) + 1 ≥ 50 ∧ (-1 : Int) ≠ -1) := by omega
          have c3 : ¬ ((-1 : Int) = -1 ∧ ((t % 200 : Nat) : Int) + 1 ≥ 200) := by omega
          have c4 : ¬ (t + 1) % 200 < 50 := by omega
          have c5 : ¬ (t + 1) % 200 = 0 := by omega
          have c6 : ¬ (t + 1) % 200 = 50 := by omega
          rw [if_neg c1, if_neg c2, if_neg c3, if_neg c4, if_neg c5, if_neg c6, e2]

end Combined

namespace Combined

/-- C12, as stated, fails: in the run with index 0 held from `t = 0` the call at `t = 200`
sends a Note On, the call at `t = 250` sends a Note Off and no Note On, and the call at
`t = 300` sends nothing. -/
theorem pulse_cadence_counterexample :
    cadence_output 0 200 = [{ status := 0x90, data1 := 30, data2 := 127 }] ∧
    cadence_output 0 250 = [{ status := 0x80, data1 := 30, data2 := 0 }] ∧
    cadence_output 0 300 = [] := by
  unfold cadence_output
  rw [cadence_step 0 (le_refl 0) 200, cadence_step 0 (le_refl 0) 250,
    cadence_step 0 (le_refl 0) 300]
  refine ⟨?_, ?_, ?_⟩ <;> decide

/-- C12, amended. Starting from the initial slot and calling `process_midi_event` once per
millisecond from `t = 0` with the same non-negative index (clock value `now = t`,
`PULSE_DURATION = 50`, `PULSE_INTERVAL = 200`), the call at time `t` sends exactly the Note
On of the index's note when `t` is 0, 200, 400, ..., exactly the Note Off of that note when
`t` is 50, 250, 450, ..., and nothing at any other time. -/
theorem pulse_cadence_amended (k : Int) (hk : 0 ≤ k) (t : Nat) :
    cadence_output k t =
      if t % 200 = 0 then [{ status := 0x90, data1 := get_note_for_button k, data2 := 127 }]
      else if t % 200 = 50 then
        [{ status := 0x80, data1 := get_note_for_button k, data2 := 0 }]
      else [] := by
  unfold cadence_output
  rw [cadence_step k hk t]

/-- The run with index 0: a Note On of note 30 at `t = 400`. -/
theorem pulse_cadence_amended_witness :
    (0 : Int) ≤ 0 ∧
    cadence_output 0 400 = [{ status := 0x90, data1 := 30, data2 := 127 }] :=
  ⟨le_refl 0, (pulse_cadence_amended 0 (le_refl 0) 400).trans (by decide)⟩

end Combined

/-! ### MIDI notes of buttons -/

/-- C17, at the failing input. Button index 98 gets note 128, above the largest MIDI note
127, from `get_button_midi_note` and from `get_note_for_button` of joystick_midi_combined.c:
the clamp to 127 is inside the branch for 60..90, where the note is at most 121. The
18-byte report with only button 98 down makes `map_all_buttons_to_midi` send that note. -/
theorem note_range_failing_input :
    MapAllButtons.get_button_midi_note 98 = 128 ∧
    Combined.get_note_for_button 98 = 128 ∧
    (MapAllButtons.map_all_buttons_to_midi MapAllButtons.prev_state_init
        MapAllButtons.report_button_98 18).2 =
      [{ status := 0x90, data1 := 128, data2 := 127, button_index := 98 }] := by
  refine ⟨?_, ?_, ?_⟩ <;> decide

/-- C18, at the failing input. Buttons 30 and 61 both get note 91 from
`get_button_midi_note`: 30 + 30 = 60 is moved to 91, and 30 + 61 = 91 is kept. The 13-byte
report with only these two buttons down makes `map_all_buttons_to_midi` send note 91
twice. -/
theorem note_uniqueness_failing_input :
    MapAllButtons.get_button_midi_note 30 = 91 ∧
    MapAllButtons.get_button_midi_note 61 = 91 ∧
    (MapAllButtons.map_all_buttons_to_midi MapAllButtons.prev_state_init
        MapAllButtons.report_buttons_30_61 13).2 =
      [{ status := 0x90, data1 := 91, data2 := 127, button_index := 30 },
       { status := 0x90, data1 := 91, data2 := 127, button_index := 61 }] := by
  refine ⟨?_, ?_, ?_⟩ <;> decide

/-- C19 (forbidden note range is avoided). For every button index, and so for every index
`≥ 0`, the note returned by `get_button_midi_note`, by `get_note_for_button` of
joystick_midi_combined.c and by `get_note_for_button` of joystick_midi_debug.c is never in
60..90; it is `30 + index` when `30 + index` is below 60 or above 90, and `30 + index + 31`
when `30 + index` is in 60..90. -/
theorem forbidden_range_avoided (button_index : Int) :
    (¬ (60 ≤ MapAllButtons.get_button_midi_note button_index ∧
        MapAllButtons.get_button_midi_note button_index ≤ 90) ∧
      (30 + button_index < 60 ∨ 30 + button_index > 90 →
        MapAllButtons.get_button_midi_note button_index = 30 + button_index) ∧
      (60 ≤ 30 + button_index ∧ 30 + button_index ≤ 90 →
        MapAllButtons.get_button_midi_note button_index = 30 + button_index + 31)) ∧
    (¬ (60 ≤ Combined.get_note_for_button button_index ∧
        Combined.get_note_for_button button_index ≤ 90) ∧
      (30 + button_index < 60 ∨ 30 + button_index > 90 →
        Combined.get_note_for_button button_index = 30 + button_index) ∧
      (60 ≤ 30 + button_index ∧ 30 + button_index ≤ 90 →
        Combined.get_note_for_button button_index = 30 + button_index + 31)) ∧
    (¬ (60 ≤ Debug.get_note_for_button button_index ∧
        Debug.get_note_for_button button_index ≤ 90) ∧
      (30 + button_index < 60 ∨ 30 + button_index > 90 →
        Debug.get_note_for_button button_index = 30 + button_index) ∧
      (60 ≤ 30 + button_index ∧ 30 + button_index ≤ 90 →
        Debug.get_note_for_button button_index = 30 + button_index + 31)) := by
  unfold MapAllButtons.get_button_midi_note Combined.get_note_for_button
    Debug.get_note_for_button
  simp only
  refine ⟨⟨?_, ?_, ?_⟩, ⟨?_, ?_, ?_⟩, ⟨?_, ?_, ?_⟩⟩ <;> split_ifs <;> omega

/-- Index 0 gets note 30, index 29 note 59, index 30 note 91, index 60 note 121 and index 61
note 91. -/
theorem forbidden_range_avoided_witness :
    ¬ (60 ≤ MapAllButtons.get_button_midi_note 30 ∧
        MapAllButtons.get_button_midi_note 30 ≤ 90) ∧
    MapAllButtons.get_button_midi_note 0 = 30 ∧
    MapAllButtons.get_button_midi_note 29 = 59 ∧
    MapAllButtons.get_button_midi_note 30 = 91 ∧
    Combined.get_note_for_button 60 = 121 ∧
    Debug.get_note_for_button 61 = 91 :=
  ⟨(forbidden_range_avoided 30).1.1, by decide, by decide, by decide, by decide, by decide⟩

/-! ### Short reports (joystick_midi_map_all_buttons.c) -/

namespace MapAllButtons

/-- The inner loop emits events only for buttons below `total_buttons` and changes
`prev_state` only there. -/
theorem bit_loop_frame (buf : Bytes) (total i : Nat) (prev0 : Nat → Int) (k bit : Nat)
    (st : (Nat → Int) × List ButtonEvent)
    (h : (∀ e ∈ st.2, e.button_index < total) ∧ (∀ j, total ≤ j → st.1 j = prev0 j)) :
    (∀ e ∈ (bit_loop buf total i bit k st).2, e.button_index < total) ∧
    (∀ j, total ≤ j → (bit_loop buf total i bit k st).1 j = prev0 j) := by
  induction k generalizing bit st with
  | zero => exact h
  | succ k ih =>
    obtain ⟨prev_state, out⟩ := st
    unfold bit_loop
    simp only
    by_cases hb : (i - BUTTON_START_INDEX) * 8 + bit ≥ total ∨
        (i - BUTTON_START_INDEX) * 8 + bit ≥ MAX_BUTTONS
    · rw [if_pos hb]
      exact h
    · rw [if_neg hb]
      have hlt : (i - BUTTON_START_INDEX) * 8 + bit < total := by omega
      split_ifs with hc hcur
      · apply ih
        refine ⟨?_, ?_⟩
        · intro e he
          rw [List.mem_append, List.mem_singleton] at he
          rcases he with he | he
          · exact h.1 e he
          · rw [he]
            exact hlt
        · intro j hj
          have hne : j ≠ (i - BUTTON_START_INDEX) * 8 + bit := by omega
          simp only [hne, if_false]
          exact h.2 j hj
      · apply ih
        refine ⟨?_, ?_⟩
        · intro e he
          rw [List.mem_append, List.mem_singleton] at he
          rcases he with he | he
          · exact h.1 e he
          · rw [he]
            exact hlt
        · intro j hj
          have hne : j ≠ (i - BUTTON_START_INDEX) * 8 + bit := by omega
          simp only [hne, if_false]
          exact h.2 j hj
      · exact ih _ _ h

theorem byte_loop_frame (buf : Bytes) (total : Nat) (prev0 : Nat → Int) (k i : Nat)
    (st : (Nat → Int) × List ButtonEvent)
    (h : (∀ e ∈ st.2, e.button_index < total) ∧ (∀ j, total ≤ j → st.1 j = prev0 j)) :
    (∀ e ∈ (byte_loop buf total i k st).2, e.button_index < total) ∧
    (∀ j, total ≤ j → (byte_loop buf total i k st).1 j = prev0 j) := by
  induction k generalizing i st with
  | zero => exact h
  | succ k ih =>
    unfold byte_loop
    exact ih _ _ (bit_loop_frame buf total i prev0 8 0 st h)

/-- The inner loop for byte `i` depends on the report only through the byte at offset `i`. -/
theorem bit_loop_congr (buf buf' : Bytes) (total i : Nat) (hi : buf' i = buf i) (k bit : Nat)
    (st : (Nat → Int) × List ButtonEvent) :
    bit_loop buf' total i bit k st = bit_loop buf total i bit k st := by
  induction k generalizing bit st with
  | zero => rfl
  | succ k ih =>
    obtain ⟨prev_state, out⟩ := st
    unfold bit_loop
    simp only [hi, ih]

/-- The outer loop from byte `i` with `k` iterations left depends on the report only
through the bytes at offsets `i`, ..., `i + k - 1`. -/
theorem byte_loop_congr (buf buf' : Bytes) (total : Nat) (k i : Nat)
    (h : ∀ j, i ≤ j → j < i + k → buf' j = buf j) (st : (Nat → Int) × List ButtonEvent) :
    byte_loop buf' total i k st = byte_loop buf total i k st := by
  induction k generalizing i st with
  | zero => rfl
  | succ k ih =>
    unfold byte_loop
    rw [bit_loop_congr buf buf' total i (h i (le_refl i) (by omega)) 8 0 st]
    exact ih (i + 1) (fun j h1 h2 => h j (by omega) (by omega)) _

/-- C20 (short snapshots degrade gracefully). For every report of length `n ≤ 65` and every
prior `prev_state`, `map_all_buttons_to_midi` emits no event for a button index
`≥ 8·(n − 5)` and leaves `prev_state` unchanged at every such index; when `n ≤ 5` it emits
nothing and changes nothing; and it reads no byte at an offset `≥ n`: two reports that agree
below offset `n` give the same events and the same `prev_state`. -/
theorem short_snapshots (prev_state : Nat → Int) (buf : Bytes) (n : Nat) (_hn : n ≤ 65) :
    (∀ e ∈ (map_all_buttons_to_midi prev_state buf n).2, e.button_index < 8 * (n - 5)) ∧
    (∀ j, 8 * (n - 5) ≤ j → (map_all_buttons_to_midi prev_state buf n).1 j = prev_state j) ∧
    (n ≤ 5 → map_all_buttons_to_midi prev_state buf n = (prev_state, [])) ∧
    (∀ buf' : Bytes, (∀ i, i < n → buf' i = buf i) →
      map_all_buttons_to_midi prev_state buf' n = map_all_buttons_to_midi prev_state buf n) := by
  have hframe : (∀ e ∈ (map_all_buttons_to_midi prev_state buf n).2,
        e.button_index < 8 * (n - 5)) ∧
      (∀ j, 8 * (n - 5) ≤ j → (map_all_buttons_to_midi prev_state buf n).1 j = prev_state j) := by
    unfold map_all_buttons_to_midi BUTTON_START_INDEX
    by_cases h5 : n ≤ 5
    · rw [if_pos h5]
      exact ⟨fun e he => absurd he (List.not_mem_nil e), fun _ _ => rfl⟩
    · rw [if_neg h5, Nat.mul_comm 8 (n - 5)]
      exact byte_loop_frame buf ((n - 5) * 8) prev_state (n - 5) 5 (prev_state, [])
        ⟨fun e he => absurd he (List.not_mem_nil e), fun _ _ => rfl⟩
  refine ⟨hframe.1, hframe.2, ?_, ?_⟩
  · intro h5
    unfold map_all_buttons_to_midi BUTTON_START_INDEX
    rw [if_pos h5]
  · intro buf' hagree
    unfold map_all_buttons_to_midi BUTTON_START_INDEX
    by_cases h5 : n ≤ 5
    · rw [if_pos h5, if_pos h5]
    · rw [if_neg h5, if_neg h5]
      exact byte_loop_congr buf buf' ((n - 5) * 8) (n - 5) 5
        (fun j _ h2 => hagree j (by omega)) (prev_state, [])

/-- The 6-byte report with button byte `01` and a stale `FF` at offset 6: one event, for
button 0, and none for the eight buttons of the byte beyond the length. -/
theorem short_snapshots_witness :
    6 ≤ 65 ∧
    (∀ e ∈ (map_all_buttons_to_midi prev_state_init report_short 6).2,
      e.button_index < 8 * (6 - 5)) ∧
    (map_all_buttons_to_midi prev_state_init report_short 6).2 =
      [{ status := 0x90, data1 := 30, data2 := 127, button_index := 0 }] ∧
    (map_all_buttons_to_midi prev_state_init report_short 5).2 = [] :=
  ⟨by decide, (short_snapshots prev_state_init report_short 6 (by decide)).1, by decide,
   by decide⟩

end MapAllButtons

/-! ### The X axis first -/

/-- C30 (the X axis takes priority in `get_joystick_direction`). For every `x`, `y` in
0..255 the result is Left iff `x < 120`, Right iff `x > 136`, Up iff `120 ≤ x ≤ 136` and
`y < 120`, Down iff `120 ≤ x ≤ 136` and `y > 136`, and Neutral iff both `x` and `y` lie in
120..136; whenever `x` is outside 120..136 the result is Left or Right whatever `y` is. -/
theorem x_axis_priority (x y : uint8_t) :
    (get_joystick_direction x y = JoystickDirection.Left ↔ x.val < 120) ∧
    (get_joystick_direction x y = JoystickDirection.Right ↔ x.val > 136) ∧
    (get_joystick_direction x y = JoystickDirection.Up ↔
      120 ≤ x.val ∧ x.val ≤ 136 ∧ y.val < 120) ∧
    (get_joystick_direction x y = JoystickDirection.Down ↔
      120 ≤ x.val ∧ x.val ≤ 136 ∧ y.val > 136) ∧
    (get_joystick_direction x y = JoystickDirection.Neutral ↔
      120 ≤ x.val ∧ x.val ≤ 136 ∧ 120 ≤ y.val ∧ y.val ≤ 136) ∧
    (x.val < 120 ∨ x.val > 136 →
      get_joystick_direction x y = JoystickDirection.Left ∨
      get_joystick_direction x y = JoystickDirection.Right) := by
  unfold get_joystick_direction DEADZONE
  simp only
  split_ifs <;> simp <;> omega

/-- At `(100, 0)` and at `(200, 255)` the stick is far off on both axes: the result is Left
and Right, by `x` alone. -/
theorem x_axis_priority_witness :
    ((100 : uint8_t).val < 120 ∨ (100 : uint8_t).val > 136) ∧
    (get_joystick_direction 100 0 = JoystickDirection.Left ∨
      get_joystick_direction 100 0 = JoystickDirection.Right) ∧
    get_joystick_direction 100 0 = JoystickDirection.Left ∧
    get_joystick_direction 200 255 = JoystickDirection.Right :=
  ⟨by decide, (x_axis_priority 100 0).2.2.2.2.2 (by decide), by decide, by decide⟩

/-! ### The layout of the button bitfield -/

theorem testBit_byte_high (b : uint8_t) (i : Nat) (hi : 8 ≤ i) : b.val.testBit i = false := by
  apply Nat.testBit_lt_two_pow
  have h1 : b.val < 2 ^ 8 := b.isLt
  have h2 : 2 ^ 8 ≤ 2 ^ i := Nat.pow_le_pow_right (by decide) hi
  omega

/-- C26 (little-endian button bitfield). For every report and every `i` in 0..15, bit `i`
of `button_state = (buf[6] << 8) | buf[5]` is bit `i mod 8` of byte `buf[5 + i div 8]`; the
value stored by `interpret_hid_input` of joystick_midi_map_full_v4.c is this one whatever the
prior state, so a report bit has the same position on every tick. -/
theorem little_endian_bitfield (buf : Bytes) (i : Nat) (hi : i < 16) :
    (button_state_of buf).val.testBit i = (buf (5 + i / 8)).val.testBit (i % 8) ∧
    ∀ s : MapFullV4.State,
      (MapFullV4.interpret_hid_input s buf).1.last_button_state = button_state_of buf := by
  refine ⟨?_, fun _ => rfl⟩
  have hval : (button_state_of buf).val = (((buf 6).val <<< 8) ||| (buf 5).val) % 2 ^ 16 := rfl
  rw [hval, Nat.testBit_mod_two_pow, Nat.testBit_or, Nat.testBit_shiftLeft]
  by_cases h8 : i < 8
  · have e1 : i / 8 = 0 := by omega
    have e2 : i % 8 = i := by omega
    have e3 : ¬ i ≥ 8 := by omega
    simp [e1, e2, e3, hi]
  · have e1 : i / 8 = 1 := by omega
    have e2 : i % 8 = i - 8 := by omega
    have e3 : i ≥ 8 := by omega
    simp [e1, e2, e3, hi, testBit_byte_high (buf 5) i e3]

/-- The report with `buf[5] = 0x08` and `buf[6] = 0x02`: bit 3 comes from bit 3 of `buf[5]`,
bit 9 from bit 1 of `buf[6]`, and `button_state` is `0x0208`. -/
theorem little_endian_bitfield_witness :
    9 < 16 ∧
    (button_state_of (bytesOfList [0, 0, 0, 0, 0, 0x08, 0x02])).val.testBit 9 =
      ((bytesOfList [0, 0, 0, 0, 0, 0x08, 0x02]) (5 + 9 / 8)).val.testBit (9 % 8) ∧
    (button_state_of (bytesOfList [0, 0, 0, 0, 0, 0x08, 0x02])).val.testBit 9 = true ∧
    button_state_of (bytesOfList [0, 0, 0, 0, 0, 0x08, 0x02]) = 0x0208 :=
  ⟨by decide, (little_endian_bitfield (bytesOfList [0, 0, 0, 0, 0, 0x08, 0x02]) 9
     (by decide)).1, by decide, by decide⟩

namespace Combined

/-- C23 (silent deactivation from Cooling or Idle). For every slot with `last_note = -1`,
Cooling (`last_event ≥ 0`) or Idle (`last_event = -1`), and every `now`, the call with
`current_index = -1` sends no message and leaves `last_event = -1`, `last_note = -1` and
`last_triggered` unchanged. -/
theorem silent_deactivation (now : Nat) (s : PulseSlot) (hn : s.last_note = -1) :
    process_midi_event now (-1) s =
      ({ last_event := -1, last_note := -1, last_triggered := s.last_triggered }, []) := by
  by_cases hk : (-1 : Int) = s.last_event
  · unfold process_midi_event
    obtain ⟨e, n, t⟩ := s
    simp only at hk hn
    subst hk hn
    simp
  · rw [process_midi_event_change now (-1) s hk]
    simp [hn]

/-- The Cooling slot `(3, -1, 100)` and the Idle slot `(-1, -1, 100)`, called with index
`-1` at any time, here 5000: no message, slot Idle, `last_triggered` still 100. -/
theorem silent_deactivation_witness :
    process_midi_event 5000 (-1) { last_event := 3, last_note := -1, last_triggered := 100 } =
      ({ last_event := -1, last_note := -1, last_triggered := 100 }, []) ∧
    process_midi_event 5000 (-1) { last_event := -1, last_note := -1, last_triggered := 100 } =
      ({ last_event := -1, last_note := -1, last_triggered := 100 }, []) :=
  ⟨silent_deactivation 5000 { last_event := 3, last_note := -1, last_triggered := 100 } rfl,
   by decide⟩

end Combined

/-! ### The triggers of joystick_midi_map_full_v8.c -/

namespace MapFullV8

theorem v8_button_loop_no_trigger (last cur : uint16_t) (k i : Nat) :
    (button_loop last cur i k).filter Line.is_lt = [] ∧
    (button_loop last cur i k).filter Line.is_rt = [] := by
  induction k generalizing i with
  | zero => exact ⟨rfl, rfl⟩
  | succ k ih =>
    rw [button_loop, List.filter_append, List.filter_append, (ih (i + 1)).1, (ih (i + 1)).2]
    unfold button_loop_body
    simp only
    split_ifs <;> exact ⟨rfl, rfl⟩

theorem v8_left_stick_block_no_trigger (st : JoystickDirection) (lx ly : uint8_t) :
    (left_stick_block st lx ly).2.filter Line.is_lt = [] ∧
    (left_stick_block st lx ly).2.filter Line.is_rt = [] := by
  unfold left_stick_block
  cases get_joystick_direction lx ly <;> cases st <;> exact ⟨by decide, by decide⟩

theorem v8_right_stick_block_no_trigger (st : JoystickDirection) (rx ry : uint8_t) :
    (right_stick_block st rx ry).2.filter Line.is_lt = [] ∧
    (right_stick_block st rx ry).2.filter Line.is_rt = [] := by
  unfold right_stick_block
  cases get_joystick_direction rx ry <;> cases st <;> exact ⟨by decide, by decide⟩

/-- What the LT block does, by the byte and the flag. -/
theorem v8_lt_block_eq (p : Int) (lt : uint8_t) :
    lt_block p lt =
      if lt.val ≥ 0x80 then (if p = 0 then (1, [Line.lt_presionado]) else (p, []))
      else (0, []) := by
  unfold lt_block TRIGGER_THRESHOLD
  by_cases h1 : lt.val ≥ 0x80
  · have h1' : ¬ lt.val < 0x80 := by omega
    by_cases h2 : p = 0
    · simp [h1, h2]
    · simp [h1, h1', h2]
  · have h1' : lt.val < 0x80 := by omega
    by_cases h2 : p = 0
    · simp [h1, h1', h2]
    · simp [h1, h1', h2]

/-- What the RT block does, by the byte and the flag. -/
theorem v8_rt_block_eq (p : Int) (rt : uint8_t) :
    rt_block p rt =
      if rt.val ≥ 0x80 then (if p = 0 then (1, [Line.rt_presionado]) else (p, []))
      else (0, []) := by
  unfold rt_block TRIGGER_THRESHOLD
  by_cases h1 : rt.val ≥ 0x80
  · have h1' : ¬ rt.val < 0x80 := by omega
    by_cases h2 : p = 0
    · simp [h1, h2]
    · simp [h1, h1', h2]
  · have h1' : rt.val < 0x80 := by omega
    by_cases h2 : p = 0
    · simp [h1, h1', h2]
    · simp [h1, h1', h2]

theorem v8_lt_block_filter (p : Int) (lt : uint8_t) :
    (lt_block p lt).2.filter Line.is_lt = (lt_block p lt).2 ∧
    (lt_block p lt).2.filter Line.is_rt = [] := by
  rw [v8_lt_block_eq]
  split_ifs <;> exact ⟨rfl, rfl⟩

theorem v8_rt_block_filter (p : Int) (rt : uint8_t) :
    (rt_block p rt).2.filter Line.is_rt = (rt_block p rt).2 ∧
    (rt_block p rt).2.filter Line.is_lt = [] := by
  rw [v8_rt_block_eq]
  split_ifs <;> exact ⟨rfl, rfl⟩

/-- The LT lines of `interpret_hid_input` are the lines of its LT block, which reads byte 8
and `lt_pressed` only; likewise for RT and byte 7. -/
theorem v8_trigger_lines (s : State) (buf : Bytes) :
    (interpret_hid_input s buf).2.filter Line.is_lt = (lt_block s.lt_pressed (buf 8)).2 ∧
    (interpret_hid_input s buf).2.filter Line.is_rt = (rt_block s.rt_pressed (buf 7)).2 ∧
    (interpret_hid_input s buf).1.lt_pressed = (lt_block s.lt_pressed (buf 8)).1 ∧
    (interpret_hid_input s buf).1.rt_pressed = (rt_block s.rt_pressed (buf 7)).1 := by
  refine ⟨?_, ?_, rfl, rfl⟩
  · simp only [interpret_hid_input, List.filter_append, (v8_button_loop_no_trigger _ _ _ _).1,
      (v8_left_stick_block_no_trigger _ _ _).1, (v8_right_stick_block_no_trigger _ _ _).1,
      (v8_lt_block_filter _ _).1, (v8_rt_block_filter _ _).2, List.append_nil, List.nil_append]
  · simp only [interpret_hid_input, List.filter_append, (v8_button_loop_no_trigger _ _ _ _).2,
      (v8_left_stick_block_no_trigger _ _ _).2, (v8_right_stick_block_no_trigger _ _ _).2,
      (v8_lt_block_filter _ _).2, (v8_rt_block_filter _ _).1, List.append_nil, List.nil_append]

/-- From the initial state, after any sequence of reports both flags are 0 or 1. -/
theorem v8_flags_boolean (reports : List Bytes) (s : State)
    (h : (s.lt_pressed = 0 ∨ s.lt_pressed = 1) ∧ (s.rt_pressed = 0 ∨ s.rt_pressed = 1)) :
    ((run_reports s reports).lt_pressed = 0 ∨ (run_reports s reports).lt_pressed = 1) ∧
    ((run_reports s reports).rt_pressed = 0 ∨ (run_reports s reports).rt_pressed = 1) := by
  induction reports generalizing s with
  | nil => exact h
  | cons buf rest ih =>
    have hstep : ((interpret_hid_input s buf).1.lt_pressed = 0 ∨
          (interpret_hid_input s buf).1.lt_pressed = 1) ∧
        ((interpret_hid_input s buf).1.rt_pressed = 0 ∨
          (interpret_hid_input s buf).1.rt_pressed = 1) := by
      obtain ⟨_, _, h3, h4⟩ := v8_trigger_lines s buf
      rw [h3, h4, v8_lt_block_eq, v8_rt_block_eq]
      constructor
      · split_ifs
        · exact Or.inr rfl
        · exact h.1
        · exact Or.inl rfl
      · split_ifs
        · exact Or.inr rfl
        · exact h.2
        · exact Or.inl rfl
    unfold run_reports at ih ⊢
    rw [List.foldl_cons]
    exact ih (interpret_hid_input s buf).1 hstep

/-- C21 (trigger press threshold, v8). For every state in which the two pressed flags are 0
or 1 (as they are after any sequence of reports from the initial state) and every report:
the LT lines written are exactly one "presionado" line when `buf[8] ≥ 0x80` and `lt_pressed`
was 0 and none otherwise, and afterwards `lt_pressed` is 1 iff `buf[8] ≥ 0x80`; likewise for
RT with `buf[7]` and `rt_pressed`; and the flags are again 0 or 1. -/
theorem trigger_press_threshold (s : State) (buf : Bytes)
    (hlt : s.lt_pressed = 0 ∨ s.lt_pressed = 1) (hrt : s.rt_pressed = 0 ∨ s.rt_pressed = 1) :
    (interpret_hid_input s buf).2.filter Line.is_lt =
      (if (buf 8).val ≥ 0x80 ∧ s.lt_pressed = 0 then [Line.lt_presionado] else []) ∧
    ((interpret_hid_input s buf).1.lt_pressed = 1 ↔ (buf 8).val ≥ 0x80) ∧
    (interpret_hid_input s buf).2.filter Line.is_rt =
      (if (buf 7).val ≥ 0x80 ∧ s.rt_pressed = 0 then [Line.rt_presionado] else []) ∧
    ((interpret_hid_input s buf).1.rt_pressed = 1 ↔ (buf 7).val ≥ 0x80) ∧
    ((interpret_hid_input s buf).1.lt_pressed = 0 ∨
      (interpret_hid_input s buf).1.lt_pressed = 1) ∧
    ((interpret_hid_input s buf).1.rt_pressed = 0 ∨
      (interpret_hid_input s buf).1.rt_pressed = 1) := by
  obtain ⟨h1, h2, h3, h4⟩ := v8_trigger_lines s buf
  rw [h1, h2, h3, h4, v8_lt_block_eq, v8_rt_block_eq]
  refine ⟨?_, ?_, ?_, ?_, ?_, ?_⟩
  · by_cases ha : (buf 8).val ≥ 0x80 <;> by_cases hb : s.lt_pressed = 0 <;> simp [ha, hb]
  · by_cases ha : (buf 8).val ≥ 0x80 <;> rcases hlt with hb | hb <;> simp [ha, hb]
  · by_cases ha : (buf 7).val ≥ 0x80 <;> by_cases hb : s.rt_pressed = 0 <;> simp [ha, hb]
  · by_cases ha : (buf 7).val ≥ 0x80 <;> rcases hrt with hb | hb <;> simp [ha, hb]
  · by_cases ha : (buf 8).val ≥ 0x80 <;> rcases hlt with hb | hb <;> simp [ha, hb]
  · by_cases ha : (buf 7).val ≥ 0x80 <;> rcases hrt with hb | hb <;> simp [ha, hb]

/-- From the initial state, the report with `buf[8] = 0x90` and `buf[7] = 0x10`: one LT
"presionado" line, `lt_pressed = 1`, no RT line, `rt_pressed = 0`. -/
theorem trigger_press_threshold_witness :
    (State.init.lt_pressed = 0 ∨ State.init.lt_pressed = 1) ∧
    (interpret_hid_input State.init report_lt_down).2.filter Line.is_lt =
      [Line.lt_presionado] ∧
    interpret_hid_input State.init report_lt_down =
      ({ left_stick_state := JoystickDirection.Neutral
         right_stick_state := JoystickDirection.Neutral
         lt_pressed := 1
         rt_pressed := 0
         last_button_state := 0 }, [Line.lt_presionado]) :=
  ⟨Or.inl rfl,
   (trigger_press_threshold State.init report_lt_down (Or.inl rfl) (Or.inl rfl)).1.trans
     (by decide),
   by decide⟩

/-- C27 (complete separation of LT and RT, v8). For every prior state and every two reports
that differ only in byte 7, `interpret_hid_input` writes the same LT lines and leaves the
same `lt_pressed`; for every two reports that differ only in byte 8 it writes the same RT
lines and leaves the same `rt_pressed`. -/
theorem lt_rt_separation (s : State) (buf buf' : Bytes) :
    ((∀ i, i ≠ 7 → buf' i = buf i) →
      (interpret_hid_input s buf').2.filter Line.is_lt =
        (interpret_hid_input s buf).2.filter Line.is_lt ∧
      (interpret_hid_input s buf').1.lt_pressed = (interpret_hid_input s buf).1.lt_pressed) ∧
    ((∀ i, i ≠ 8 → buf' i = buf i) →
      (interpret_hid_input s buf').2.filter Line.is_rt =
        (interpret_hid_input s buf).2.filter Line.is_rt ∧
      (interpret_hid_input s buf').1.rt_pressed = (interpret_hid_input s buf).1.rt_pressed) := by
  obtain ⟨h1, h2, h3, h4⟩ := v8_trigger_lines s buf
  obtain ⟨h1', h2', h3', h4'⟩ := v8_trigger_lines s buf'
  constructor
  · intro h
    rw [h1, h1', h3, h3', h 8 (by decide)]
    exact ⟨rfl, rfl⟩
  · intro h
    rw [h2, h2', h4, h4', h 7 (by decide)]
    exact ⟨rfl, rfl⟩

/-- The two reports with `buf[8] = 0x90` that differ only in byte 7 (`0x10` and `0xF0`):
the same LT line and the same `lt_pressed`, while the RT lines differ. -/
theorem lt_rt_separation_witness :
    ((interpret_hid_input State.init report_lt_rt_down).2.filter Line.is_lt =
        (interpret_hid_input State.init report_lt_down).2.filter Line.is_lt ∧
      (interpret_hid_input State.init report_lt_rt_down).1.lt_pressed =
        (interpret_hid_input State.init report_lt_down).1.lt_pressed) ∧
    (interpret_hid_input State.init report_lt_down).2.filter Line.is_rt = [] ∧
    (interpret_hid_input State.init report_lt_rt_down).2.filter Line.is_rt =
      [Line.rt_presionado] :=
  ⟨(lt_rt_separation State.init report_lt_down report_lt_rt_down).1 (by
      intro i hi
      unfold report_lt_rt_down report_lt_down bytesOfList
      match i with
      | 0 | 1 | 2 | 3 | 4 | 5 | 6 | 8 => rfl
      | 7 => exact absurd rfl hi
      | n + 9 => rfl),
   by decide, by decide⟩

end MapFullV8

/-! ### The hash of joystick_midi_debug.c -/

namespace Debug

/-- After a call `last_hash` is the hash of the report of the call. -/
theorem last_hash_after (s : State) (buf : Bytes) (len now : Nat) :
    (debug_map_report_to_note s buf len now).1.last_hash = report_hash buf len := by
  unfold debug_map_report_to_note
  simp only
  by_cases h : report_hash buf len = s.last_hash
  · simp only [h, ne_eq, not_true_eq_false, if_false]
    split_ifs <;> rfl
  · simp only [h, ne_eq, not_false_eq_true, if_true]

/-- The call depends on the report through its hash only. -/
theorem same_hash_same_result (s : State) (buf buf' : Bytes) (len len' now : Nat)
    (h : report_hash buf' len' = report_hash buf len) :
    debug_map_report_to_note s buf' len' now = debug_map_report_to_note s buf len now := by
  unfold debug_map_report_to_note
  rw [h]

/-- A call on a report whose hash is `last_hash` sends neither the Note Off nor the Note On
of a changed report. -/
theorem unchanged_branch (s : State) (buf : Bytes) (len now : Nat)
    (h : report_hash buf len = s.last_hash) :
    ∀ e ∈ (debug_map_report_to_note s buf len now).2,
      (∀ n, e ≠ Event.cambio_note_off n) ∧ (∀ n, e ≠ Event.nuevo_note_on n) := by
  unfold debug_map_report_to_note
  simp only [h, ne_eq, not_true_eq_false, if_false]
  intro e he
  split_ifs at he <;> simp at he <;>
    first
    | (rcases he with he | he <;> rw [he] <;> exact ⟨fun n => by simp, fun n => by simp⟩)
    | (rw [he]; exact ⟨fun n => by simp, fun n => by simp⟩)

/-- C22 (hash-only identity collides). The reports `[01 00]` and `[00 1F]` are distinct and
both have hash 31. Whatever the state before and whatever the two clock values, processing
`[00 1F]` right after `[01 00]` does exactly what processing `[01 00]` again would do, and
sends neither the Note Off nor the Note On of a changed report. From the initial state, when
less than `PULSE_DURATION` has passed, it sends nothing at all and the note 92 of `[01 00]`
stays on. -/
theorem hash_identity_collides :
    report_01_00 0 ≠ report_00_1F 0 ∧
    report_hash report_01_00 2 = 31 ∧ report_hash report_00_1F 2 = 31 ∧
    (∀ (s : State) (now_a now_b : Nat),
      debug_map_report_to_note (debug_map_report_to_note s report_01_00 2 now_a).1
          report_00_1F 2 now_b =
        debug_map_report_to_note (debug_map_report_to_note s report_01_00 2 now_a).1
          report_01_00 2 now_b ∧
      ∀ e ∈ (debug_map_report_to_note (debug_map_report_to_note s report_01_00 2 now_a).1
          report_00_1F 2 now_b).2,
        (∀ n, e ≠ Event.cambio_note_off n) ∧ (∀ n, e ≠ Event.nuevo_note_on n)) ∧
    (∀ now_a now_b : Nat, elapsed now_b now_a < PULSE_DURATION →
      debug_map_report_to_note State.init report_01_00 2 now_a =
        ({ last_hash := 31, last_note := 92, last_triggered := now_a },
         [Event.nuevo_note_on 92]) ∧
      debug_map_report_to_note (debug_map_report_to_note State.init report_01_00 2 now_a).1
          report_00_1F 2 now_b =
        ({ last_hash := 31, last_note := 92, last_triggered := now_a }, [])) := by
  have ha : report_hash report_01_00 2 = 31 := by decide
  have hb : report_hash report_00_1F 2 = 31 := by decide
  refine ⟨by decide, ha, hb, ?_, ?_⟩
  · intro s now_a now_b
    constructor
    · exact same_hash_same_result _ _ _ _ _ _ (by rw [ha, hb])
    · apply unchanged_branch
      rw [last_hash_after, ha, hb]
  · intro now_a now_b hel
    have h1 : debug_map_report_to_note State.init report_01_00 2 now_a =
        ({ last_hash := 31, last_note := 92, last_triggered := now_a },
         [Event.nuevo_note_on 92]) := by
      unfold debug_map_report_to_note
      rw [ha]
      simp [State.init, note_of_hash]
    refine ⟨h1, ?_⟩
    rw [h1]
    unfold debug_map_report_to_note
    rw [hb]
    unfold PULSE_DURATION at hel
    have h2 : ¬ (PULSE_DURATION ≤ elapsed now_b now_a) := by
      unfold PULSE_DURATION
      omega
    simp [h2]

end Debug

/-! ### The stick notes of joystick_midi_debug_v2_fixed.c -/

namespace DebugV2Fixed

/-- The stick blocks send Note On messages only. -/
theorem stick_blocks_only_note_on (st : JoystickDirection) (x y : uint8_t) :
    (∀ m ∈ (left_stick_block st x y).2, m.status = 0x90) ∧
    (∀ m ∈ (right_stick_block st x y).2, m.status = 0x90) := by
  unfold left_stick_block right_stick_block
  cases get_joystick_direction x y <;> cases st <;> exact ⟨by decide, by decide⟩

/-- For every state and report, `interpret_hid_input` sends no Note Off with a stick note
40..47. -/
theorem no_note_off_for_sticks (s : State) (buf : Bytes) :
    ∀ m ∈ (interpret_hid_input s buf).2, m.status = 0x80 → ¬ (40 ≤ m.data1 ∧ m.data1 ≤ 47) := by
  intro m hm hoff
  simp only [interpret_hid_input, List.mem_append] at hm
  rcases hm with (((hm | hm) | hm) | hm) | hm
  · obtain ⟨j, _, _, hj⟩ := midi_mem_button_loop _ _ m 16 0 hm
    rcases (midi_mem_button_loop_body _ _ m j hj).1 with h | h <;> rw [h] <;> simp <;> omega
  · have := (stick_blocks_only_note_on _ _ _).1 m hm
    omega
  · have := (stick_blocks_only_note_on _ _ _).2 m hm
    omega
  · unfold lt_block at hm
    split_ifs at hm <;> simp at hm <;> rw [hm] <;> decide
  · unfold rt_block at hm
    split_ifs at hm <;> simp at hm <;> rw [hm] <;> decide

/-- C25, at the failing input. From the initial state, the left stick going Left and then
Up makes `interpret_hid_input` send the Note On of note 42 and then the Note On of note 40
with no Note Off between them: both notes are on. The left stick going Left and then
Neutral sends the Note On of note 42 alone, and the note is still on after the Neutral
report. -/
theorem stick_notes_failing_input :
    (run_reports State.init [report_stick_left, report_stick_up]).2 =
      [{ status := 0x90, data1 := 42, data2 := 127 },
       { status := 0x90, data1 := 40, data2 := 127 }] ∧
    sounding (run_reports State.init [report_stick_left, report_stick_up]).2 42 = true ∧
    sounding (run_reports State.init [report_stick_left, report_stick_up]).2 40 = true ∧
    (run_reports State.init [report_stick_left, report_stick_neutral]).1.left_stick_state =
      JoystickDirection.Neutral ∧
    (run_reports State.init [report_stick_left, report_stick_neutral]).2 =
      [{ status := 0x90, data1 := 42, data2 := 127 }] ∧
    sounding (run_reports State.init [report_stick_left, report_stick_neutral]).2 42 = true := by
  refine ⟨?_, ?_, ?_, ?_, ?_, ?_⟩ <;> decide

end DebugV2Fixed

/-! ### On/Off alternation of a pulse slot -/

namespace Combined

/-- The messages of one call and the note left in the slot: nothing; the Note Off of the
note that was on; the Note On of the index's note when none was on; or that Note Off followed
by that Note On. -/
theorem process_midi_event_shape (now : Nat) (current_index : Int) (s : PulseSlot) :
    ((process_midi_event now current_index s).2 = [] ∧
      (process_midi_event now current_index s).1.last_note = s.last_note) ∨
    (s.last_note ≠ -1 ∧
      (process_midi_event now current_index s).2 =
        [{ status := 0x80, data1 := s.last_note, data2 := 0 }] ∧
      (process_midi_event now current_index s).1.last_note = -1) ∨
    (s.last_note = -1 ∧ current_index ≠ -1 ∧
      (process_midi_event now current_index s).2 =
        [{ status := 0x90, data1 := get_note_for_button current_index, data2 := 127 }] ∧
      (process_midi_event now current_index s).1.last_note =
        get_note_for_button current_index) ∨
    (s.last_note ≠ -1 ∧ current_index ≠ -1 ∧
      (process_midi_event now current_index s).2 =
        [{ status := 0x80, data1 := s.last_note, data2 := 0 },
         { status := 0x90, data1 := get_note_for_button current_index, data2 := 127 }] ∧
      (process_midi_event now current_index s).1.last_note =
        get_note_for_button current_index) := by
  by_cases hc : current_index = s.last_event
  · by_cases hk : s.last_event = -1
    · left
      have hres : process_midi_event now current_index s = (s, []) := by
        unfold process_midi_event
        simp [hc, hk]
      rw [hres]
      exact ⟨rfl, rfl⟩
    · have hk' : current_index ≠ -1 := by rw [hc]; exact hk
      rw [hc] at hk' ⊢
      rw [process_midi_event_same now s hk]
      by_cases h1 : elapsed now s.last_triggered ≥ PULSE_DURATION ∧ s.last_note ≠ -1
      · rw [if_pos h1]
        by_cases h2 : elapsed now s.last_triggered ≥ PULSE_INTERVAL
        · rw [if_pos h2]
          exact Or.inr (Or.inr (Or.inr ⟨h1.2, hk', rfl, rfl⟩))
        · rw [if_neg h2]
          exact Or.inr (Or.inl ⟨h1.2, rfl, rfl⟩)
      · rw [if_neg h1]
        by_cases h3 : s.last_note = -1 ∧ elapsed now s.last_triggered ≥ PULSE_INTERVAL
        · rw [if_pos h3]
          exact Or.inr (Or.inr (Or.inl ⟨h3.1, hk', rfl, rfl⟩))
        · rw [if_neg h3]
          exact Or.inl ⟨rfl, rfl⟩
  · rw [process_midi_event_change now current_index s hc]
    by_cases h1 : current_index ≠ -1
    · rw [if_pos h1]
      by_cases h2 : s.last_note ≠ -1
      · rw [if_pos h2]
        exact Or.inr (Or.inr (Or.inr ⟨h2, h1, rfl, rfl⟩))
      · rw [if_neg h2]
        have h2' : s.last_note = -1 := not_not.1 h2
        exact Or.inr (Or.inr (Or.inl ⟨h2', h1, rfl, rfl⟩))
    · rw [if_neg h1]
      by_cases h2 : s.last_note ≠ -1
      · rw [if_pos h2]
        exact Or.inr (Or.inl ⟨h2, rfl, rfl⟩)
      · rw [if_neg h2]
        have h2' : s.last_note = -1 := not_not.1 h2
        left
        exact ⟨rfl, h2'.symm⟩

/-- Complete pulses in front do not change whether a sequence alternates. -/
theorem alternates_closed_append (tr l : List MidiMessage) (h : Closed tr) :
    alternates (tr ++ l) = alternates l := by
  induction h generalizing l with
  | nil => rfl
  | pulse tr m m' _ h1 h2 h3 ih =>
    rw [List.append_assoc, ih]
    simp [alternates, h1, h2, h3]

/-- The invariant that ties the slot to the messages sent so far: with no note in the slot
the messages are complete pulses; with a note in the slot they are complete pulses followed
by the Note On of that note. -/
theorem run_calls_trace_invariant (calls : List (Int × Nat))
    (hidx : ∀ c ∈ calls, -1 ≤ c.1) (s : PulseSlot) (tr : List MidiMessage)
    (hinv : (s.last_note = -1 → Closed tr) ∧
      (s.last_note ≠ -1 →
        ∃ tr0, Closed tr0 ∧ tr = tr0 ++ [{ status := 0x90, data1 := s.last_note, data2 := 127 }])) :
    ((calls.foldl
        (fun st c =>
          ((process_midi_event c.2 c.1 st.1).1, st.2 ++ (process_midi_event c.2 c.1 st.1).2))
        (s, tr)).1.last_note = -1 →
      Closed (calls.foldl
        (fun st c =>
          ((process_midi_event c.2 c.1 st.1).1, st.2 ++ (process_midi_event c.2 c.1 st.1).2))
        (s, tr)).2) ∧
    ((calls.foldl
        (fun st c =>
          ((process_midi_event c.2 c.1 st.1).1, st.2 ++ (process_midi_event c.2 c.1 st.1).2))
        (s, tr)).1.last_note ≠ -1 →
      ∃ tr0, Closed tr0 ∧
        (calls.foldl
          (fun st c =>
            ((process_midi_event c.2 c.1 st.1).1, st.2 ++ (process_midi_event c.2 c.1 st.1).2))
          (s, tr)).2 =
          tr0 ++ [{ status := 0x90,
                    data1 := (calls.foldl
                      (fun st c =>
                        ((process_midi_event c.2 c.1 st.1).1,
                          st.2 ++ (process_midi_event c.2 c.1 st.1).2))
                      (s, tr)).1.last_note,
                    data2 := 127 }]) := by
  induction calls generalizing s tr with
  | nil => exact hinv
  | cons c rest ih =>
    rw [List.foldl_cons]
    apply ih (fun c' hc' => hidx c' (List.mem_cons_of_mem _ hc'))
    have hc : -1 ≤ c.1 := hidx c (List.mem_cons_self _ _)
    simp only
    rcases process_midi_event_shape c.2 c.1 s with ⟨h1, h2⟩ | ⟨h0, h1, h2⟩ | ⟨h0, hi, h1, h2⟩ |
        ⟨h0, hi, h1, h2⟩
    · rw [h1, h2, List.append_nil]
      exact hinv
    · rw [h1, h2]
      obtain ⟨tr0, hcl, htr⟩ := hinv.2 h0
      refine ⟨fun _ => ?_, fun h => absurd rfl h⟩
      rw [htr, List.append_assoc]
      exact Closed.pulse tr0 _ _ hcl rfl rfl rfl
    · rw [h1, h2]
      have hnote : get_note_for_button c.1 ≠ -1 := by
        have := get_note_for_button_ge c.1 (by omega)
        omega
      refine ⟨fun h => absurd h hnote, fun _ => ⟨tr, hinv.1 h0, rfl⟩⟩
    · rw [h1, h2]
      have hnote : get_note_for_button c.1 ≠ -1 := by
        have := get_note_for_button_ge c.1 (by omega)
        omega
      obtain ⟨tr0, hcl, htr⟩ := hinv.2 h0
      refine ⟨fun h => absurd h hnote, fun _ => ⟨tr0 ++
        [{ status := 0x90, data1 := s.last_note, data2 := 127 },
         { status := 0x80, data1 := s.last_note, data2 := 0 }], ?_, ?_⟩⟩
      · exact Closed.pulse tr0 _ _ hcl rfl rfl rfl
      · rw [htr]
        simp

/-- C28 (On/Off alternation per pulse slot). Starting from the initial slot, for every
sequence of calls of `process_midi_event` with indices `≥ -1` and any clock values, the
messages sent strictly alternate Note On, Note Off, Note On, ..., beginning with a Note On,
and every Note Off carries the note of the Note On right before it. -/
theorem on_off_alternation (calls : List (Int × Nat)) (hidx : ∀ c ∈ calls, -1 ≤ c.1) :
    alternates (run_calls_trace PulseSlot.init calls).2 = true := by
  have hinv := run_calls_trace_invariant calls hidx PulseSlot.init []
    ⟨fun _ => Closed.nil, fun h => absurd rfl h⟩
  unfold run_calls_trace
  by_cases hn : (calls.foldl
        (fun st c =>
          ((process_midi_event c.2 c.1 st.1).1, st.2 ++ (process_midi_event c.2 c.1 st.1).2))
        (PulseSlot.init, [])).1.last_note = -1
  · have hcl := hinv.1 hn
    have := alternates_closed_append _ [] hcl
    rw [List.append_nil] at this
    rw [this]
    rfl
  · obtain ⟨tr0, hcl, htr⟩ := hinv.2 hn
    rw [htr, alternates_closed_append _ _ hcl]
    rfl

/-- Index 2 held over a whole pulse, then index 5, then release: Note On 32, Note Off 32,
Note On 32, Note Off 32, Note On 35, Note Off 35. -/
theorem on_off_alternation_witness :
    (∀ c ∈ [((2 : Int), 0), (2, 50), (2, 200), (5, 210), (-1, 220)], -1 ≤ c.1) ∧
    alternates (run_calls_trace PulseSlot.init
      [((2 : Int), 0), (2, 50), (2, 200), (5, 210), (-1, 220)]).2 = true ∧
    (run_calls_trace PulseSlot.init
      [((2 : Int), 0), (2, 50), (2, 200), (5, 210), (-1, 220)]).2 =
      [{ status := 0x90, data1 := 32, data2 := 127 }, { status := 0x80, data1 := 32, data2 := 0 },
       { status := 0x90, data1 := 32, data2 := 127 }, { status := 0x80, data1 := 32, data2 := 0 },
       { status := 0x90, data1 := 35, data2 := 127 },
       { status := 0x80, data1 := 35, data2 := 0 }] :=
  ⟨by decide,
   on_off_alternation [((2 : Int), 0), (2, 50), (2, 200), (5, 210), (-1, 220)] (by decide),
   by decide⟩

end Combined

/-! ### One active axis note per stick (joystick_midi_combined.c) -/

namespace Combined

theorem sounding_concat (tr : List MidiMessage) (m : MidiMessage) (n : Int) :
    sounding (tr ++ [m]) n =
      if m.data1 = n then decide (m.status = 0x90) else sounding tr n := by
  unfold sounding
  rw [List.foldl_append]
  rfl

theorem tracks_other (lo hi : Int) (tr : List MidiMessage) (l : Int) (m : MidiMessage)
    (h : Tracks lo hi tr l) (hm : m.data1 < lo ∨ hi < m.data1) :
    Tracks lo hi (tr ++ [m]) l := by
  intro n h1 h2
  rw [sounding_concat]
  have hne : m.data1 ≠ n := by omega
  rw [if_neg hne]
  exact h n h1 h2

theorem tracks_off (lo hi : Int) (tr : List MidiMessage) (l : Int) (m : MidiMessage)
    (hlo : 0 ≤ lo) (h : Tracks lo hi tr l) (hs : m.status = 0x80) (hd : m.data1 = l) :
    Tracks lo hi (tr ++ [m]) (-1) := by
  intro n h1 h2
  rw [sounding_concat]
  by_cases hn : m.data1 = n
  · rw [if_pos hn, hs]
    constructor
    · intro h'
      exact absurd h' (by decide)
    · intro h'
      omega
  · rw [if_neg hn]
    constructor
    · intro h'
      have := (h n h1 h2).1 h'
      exact absurd (hd.trans this) hn
    · intro h'
      omega

theorem tracks_on (lo hi : Int) (tr : List MidiMessage) (l : Int) (m : MidiMessage)
    (h : Tracks lo hi tr l) (hl : l < lo ∨ hi < l) (hs : m.status = 0x90) :
    Tracks lo hi (tr ++ [m]) m.data1 := by
  intro n h1 h2
  rw [sounding_concat]
  by_cases hn : m.data1 = n
  · rw [if_pos hn, hs]
    exact ⟨fun _ => hn, fun _ => by decide⟩
  · rw [if_neg hn]
    constructor
    · intro h'
      have := (h n h1 h2).1 h'
      omega
    · intro h'
      exact absurd h' hn

/-- One more message: the range keeps its state at every point when it has a state at the
new end. -/
theorem range_state_concat (lo hi : Int) (tr : List MidiMessage) (l l' : Int) (m : MidiMessage)
    (h : RangeState lo hi tr l) (hnew : Tracks lo hi (tr ++ [m]) l') :
    RangeState lo hi (tr ++ [m]) l' := by
  refine ⟨hnew, ?_⟩
  intro p hp
  rcases List.prefix_concat_iff.1 hp with hp | hp
  · rw [hp]
    exact ⟨l', hnew⟩
  · exact h.2 p hp

theorem range_state_others (lo hi : Int) (out : List MidiMessage) (tr : List MidiMessage)
    (l : Int) (h : RangeState lo hi tr l) (hout : ∀ m ∈ out, m.data1 < lo ∨ hi < m.data1) :
    RangeState lo hi (tr ++ out) l := by
  induction out generalizing tr with
  | nil =>
    rw [List.append_nil]
    exact h
  | cons m rest ih =>
    have e : tr ++ m :: rest = (tr ++ [m]) ++ rest := by simp
    rw [e]
    apply ih
    · exact range_state_concat lo hi tr l l m h
        (tracks_other lo hi tr l m h.1 (hout m (List.mem_cons_self _ _)))
    · intro m' hm'
      exact hout m' (List.mem_cons_of_mem _ hm')

/-- A call on the slot that owns the range `lo..hi`. -/
theorem owner_step (lo hi : Int) (hlo : 0 ≤ lo) (now : Nat) (idx : Int) (s : PulseSlot)
    (tr : List MidiMessage) (hrs : RangeState lo hi tr s.last_note)
    (hin : s.last_note = -1 ∨ (lo ≤ s.last_note ∧ s.last_note ≤ hi))
    (hidx : idx = -1 ∨ (lo ≤ get_note_for_button idx ∧ get_note_for_button idx ≤ hi)) :
    RangeState lo hi (tr ++ (process_midi_event now idx s).2)
        (process_midi_event now idx s).1.last_note ∧
    ((process_midi_event now idx s).1.last_note = -1 ∨
      (lo ≤ (process_midi_event now idx s).1.last_note ∧
        (process_midi_event now idx s).1.last_note ≤ hi)) := by
  rcases process_midi_event_shape now idx s with ⟨h1, h2⟩ | ⟨h0, h1, h2⟩ | ⟨h0, hi', h1, h2⟩ |
      ⟨h0, hi', h1, h2⟩
  · rw [h1, h2, List.append_nil]
    exact ⟨hrs, hin⟩
  · rw [h1, h2]
    refine ⟨?_, Or.inl rfl⟩
    exact range_state_concat lo hi tr s.last_note (-1)
      { status := 0x80, data1 := s.last_note, data2 := 0 } hrs
      (tracks_off lo hi tr s.last_note { status := 0x80, data1 := s.last_note, data2 := 0 }
        hlo hrs.1 rfl rfl)
  · rw [h1, h2]
    have hr : lo ≤ get_note_for_button idx ∧ get_note_for_button idx ≤ hi := by
      rcases hidx with h | h
      · exact absurd h hi'
      · exact h
    refine ⟨?_, Or.inr hr⟩
    have hout : s.last_note < lo ∨ hi < s.last_note := by omega
    exact range_state_concat lo hi tr s.last_note (get_note_for_button idx)
      { status := 0x90, data1 := get_note_for_button idx, data2 := 127 } hrs
      (tracks_on lo hi tr s.last_note
        { status := 0x90, data1 := get_note_for_button idx, data2 := 127 } hrs.1 hout rfl)
  · rw [h1, h2]
    have hr : lo ≤ get_note_for_button idx ∧ get_note_for_button idx ≤ hi := by
      rcases hidx with h | h
      · exact absurd h hi'
      · exact h
    refine ⟨?_, Or.inr hr⟩
    have e : tr ++ [({ status := 0x80, data1 := s.last_note, data2 := 0 } : MidiMessage),
        { status := 0x90, data1 := get_note_for_button idx, data2 := 127 }] =
        (tr ++ [{ status := 0x80, data1 := s.last_note, data2 := 0 }]) ++
          [{ status := 0x90, data1 := get_note_for_button idx, data2 := 127 }] := by simp
    rw [e]
    have hmid := range_state_concat lo hi tr s.last_note (-1)
      { status := 0x80, data1 := s.last_note, data2 := 0 } hrs
      (tracks_off lo hi tr s.last_note { status := 0x80, data1 := s.last_note, data2 := 0 }
        hlo hrs.1 rfl rfl)
    exact range_state_concat lo hi _ (-1) (get_note_for_button idx)
      { status := 0x90, data1 := get_note_for_button idx, data2 := 127 } hmid
      (tracks_on lo hi _ (-1)
        { status := 0x90, data1 := get_note_for_button idx, data2 := 127 } hmid.1
        (by omega) rfl)

/-- A call on a slot whose notes are outside the range `lo..hi`. -/
theorem other_step (lo hi : Int) (now : Nat) (idx : Int) (s : PulseSlot)
    (tr : List MidiMessage) (l : Int) (hrs : RangeState lo hi tr l)
    (hout : s.last_note < lo ∨ hi < s.last_note)
    (hidx : idx = -1 ∨ (get_note_for_button idx < lo ∨ hi < get_note_for_button idx)) :
    RangeState lo hi (tr ++ (process_midi_event now idx s).2) l := by
  apply range_state_others lo hi _ tr l hrs
  have hnote : idx ≠ -1 → (get_note_for_button idx < lo ∨ hi < get_note_for_button idx) := by
    intro h
    rcases hidx with h' | h'
    · exact absurd h' h
    · exact h'
  rcases process_midi_event_shape now idx s with ⟨h1, _⟩ | ⟨_, h1, _⟩ | ⟨_, hi', h1, _⟩ |
      ⟨_, hi', h1, _⟩
  · rw [h1]
    intro m hm
    exact absurd hm (List.not_mem_nil m)
  · rw [h1]
    intro m hm
    rw [List.mem_singleton] at hm
    rw [hm]
    exact hout
  · rw [h1]
    intro m hm
    rw [List.mem_singleton] at hm
    rw [hm]
    exact hnote hi'
  · rw [h1]
    intro m hm
    simp only [List.mem_cons, List.mem_singleton, List.not_mem_nil, or_false] at hm
    rcases hm with hm | hm
    · rw [hm]
      exact hout
    · rw [hm]
      exact hnote hi'

/-- The note left in the slot by a call is the old one, none, or the note of the index. -/
theorem last_note_cases (now : Nat) (idx : Int) (s : PulseSlot) :
    (process_midi_event now idx s).1.last_note = s.last_note ∨
    (process_midi_event now idx s).1.last_note = -1 ∨
    (idx ≠ -1 ∧ (process_midi_event now idx s).1.last_note = get_note_for_button idx) := by
  rcases process_midi_event_shape now idx s with ⟨_, h2⟩ | ⟨_, _, h2⟩ | ⟨_, hi', _, h2⟩ |
      ⟨_, hi', _, h2⟩
  · exact Or.inl h2
  · exact Or.inr (Or.inl h2)
  · exact Or.inr (Or.inr ⟨hi', h2⟩)
  · exact Or.inr (Or.inr ⟨hi', h2⟩)

/-- A call with index `-1` leaves no note in a slot that satisfies the slot invariant. -/
theorem release_clears (now : Nat) (s : PulseSlot)
    (hinv : s.last_note ≠ -1 →
      s.last_event ≠ -1 ∧ s.last_note = get_note_for_button s.last_event) :
    (process_midi_event now (-1) s).1.last_note = -1 := by
  by_cases hn : s.last_note = -1
  · rw [silent_deactivation now s hn]
  · have hk : (-1 : Int) ≠ s.last_event := fun h => (hinv hn).1 h.symm
    rw [process_midi_event_change now (-1) s hk]
    simp

theorem ls_index_range (buf : Bytes) :
    (ls_index buf = -1 ∨
      (30 ≤ get_note_for_button (ls_index buf) ∧ get_note_for_button (ls_index buf) ≤ 33)) ∧
    (get_joystick_direction (buf 1) (buf 2) = JoystickDirection.Neutral →
      ls_index buf = -1) := by
  unfold ls_index
  cases get_joystick_direction (buf 1) (buf 2) <;> exact ⟨by decide, by decide⟩

theorem rs_index_range (buf : Bytes) :
    (rs_index buf = -1 ∨
      (34 ≤ get_note_for_button (rs_index buf) ∧ get_note_for_button (rs_index buf) ≤ 37)) ∧
    (get_joystick_direction (buf 3) (buf 4) = JoystickDirection.Neutral →
      rs_index buf = -1) := by
  unfold rs_index
  cases get_joystick_direction (buf 3) (buf 4) <;> exact ⟨by decide, by decide⟩

theorem lt_index_range (buf : Bytes) :
    lt_index buf = -1 ∨ get_note_for_button (lt_index buf) = 38 := by
  unfold lt_index
  simp only
  split_ifs
  · exact Or.inr (by decide)
  · exact Or.inl rfl

theorem rt_index_range (buf : Bytes) :
    rt_index buf = -1 ∨ get_note_for_button (rt_index buf) = 39 := by
  unfold rt_index
  simp only
  split_ifs
  · exact Or.inr (by decide)
  · exact Or.inl rfl

theorem extra_index_range (buf : Bytes) :
    extra_index buf = -1 ∨ get_note_for_button (extra_index buf) = 40 := by
  unfold extra_index
  split_ifs
  · exact Or.inr (by decide)
  · exact Or.inl rfl

end Combined

namespace Combined

theorem left_class_out_right (x : Int) (h : x = -1 ∨ (30 ≤ x ∧ x ≤ 33)) :
    x < 34 ∨ 37 < x := by omega

theorem right_class_out_left (x : Int) (h : x = -1 ∨ (34 ≤ x ∧ x ≤ 37)) :
    x < 30 ∨ 33 < x := by omega

theorem far_out_left (x : Int) (h : x < 30 ∨ 37 < x) : x < 30 ∨ 33 < x := by omega

theorem far_out_right (x : Int) (h : x < 30 ∨ 37 < x) : x < 34 ∨ 37 < x := by omega

theorem idx_left_out_right (P : Prop) (x : Int) (h : P ∨ (30 ≤ x ∧ x ≤ 33)) :
    P ∨ (x < 34 ∨ 37 < x) := h.imp_right (fun h' => by omega)

theorem idx_right_out_left (P : Prop) (x : Int) (h : P ∨ (34 ≤ x ∧ x ≤ 37)) :
    P ∨ (x < 30 ∨ 33 < x) := h.imp_right (fun h' => by omega)

theorem idx_far_out_left (P : Prop) (x : Int) (h : P ∨ 37 < x) :
    P ∨ (x < 30 ∨ 33 < x) := h.imp_right (fun h' => by omega)

theorem idx_far_out_right (P : Prop) (x : Int) (h : P ∨ 37 < x) :
    P ∨ (x < 34 ∨ 37 < x) := h.imp_right (fun h' => by omega)

theorem lt_index_far (buf : Bytes) :
    lt_index buf = -1 ∨ 37 < get_note_for_button (lt_index buf) := by
  rcases lt_index_range buf with h | h
  · exact Or.inl h
  · exact Or.inr (by rw [h]; decide)

theorem rt_index_far (buf : Bytes) :
    rt_index buf = -1 ∨ 37 < get_note_for_button (rt_index buf) := by
  rcases rt_index_range buf with h | h
  · exact Or.inl h
  · exact Or.inr (by rw [h]; decide)

theorem extra_index_far (buf : Bytes) :
    extra_index buf = -1 ∨ 37 < get_note_for_button (extra_index buf) := by
  rcases extra_index_range buf with h | h
  · exact Or.inl h
  · exact Or.inr (by rw [h]; decide)

/-- A call on a slot whose notes are outside 30..37 leaves such a note in it. -/
theorem far_step (now : Nat) (idx : Int) (s : PulseSlot)
    (hold : s.last_note < 30 ∨ 37 < s.last_note)
    (hidx : idx = -1 ∨ 37 < get_note_for_button idx) :
    (process_midi_event now idx s).1.last_note < 30 ∨
      37 < (process_midi_event now idx s).1.last_note := by
  rcases last_note_cases now idx s with h | h | ⟨h1, h2⟩
  · rw [h]
    exact hold
  · rw [h]
    exact Or.inl (by decide)
  · rw [h2]
    rcases hidx with h' | h'
    · exact absurd h' h1
    · exact Or.inr h'

theorem main_pass_state (st : MainSlots) (p : Pass) :
    (main_pass st p).1 =
      { ls := (process_midi_event p.now_ls (ls_index p.buf) st.ls).1
        rs := (process_midi_event p.now_rs (rs_index p.buf) st.rs).1
        lt := (process_midi_event p.now_lt (lt_index p.buf) st.lt).1
        rt := (process_midi_event p.now_rt (rt_index p.buf) st.rt).1
        extra := (process_midi_event p.now_extra (extra_index p.buf) st.extra).1 } := by
  simp only [main_pass]

theorem main_pass_trace (st : MainSlots) (p : Pass) (tr : List MidiMessage) :
    tr ++ (main_pass st p).2 =
      ((((tr ++ (process_midi_event p.now_ls (ls_index p.buf) st.ls).2) ++
        (process_midi_event p.now_rs (rs_index p.buf) st.rs).2) ++
        (process_midi_event p.now_lt (lt_index p.buf) st.lt).2) ++
        (process_midi_event p.now_rt (rt_index p.buf) st.rt).2) ++
        (process_midi_event p.now_extra (extra_index p.buf) st.extra).2 := by
  simp only [main_pass, List.append_assoc]

/-- One pass of the main loop keeps the invariant. -/
theorem main_pass_invariant (st : MainSlots) (p : Pass) (tr : List MidiMessage)
    (h : MainInv st tr) : MainInv (main_pass st p).1 (tr ++ (main_pass st p).2) := by
  obtain ⟨hls, hrs, hlsr, hrsr, hlt, hrt, hex, hL, hR⟩ := h
  have i1 := (ls_index_range p.buf).1
  have i2 := (rs_index_range p.buf).1
  have i3 := lt_index_far p.buf
  have i4 := rt_index_far p.buf
  have i5 := extra_index_far p.buf
  have n1 := owner_step 30 33 (by decide) p.now_ls (ls_index p.buf) st.ls tr hL hlsr i1
  have m1 := other_step 34 37 p.now_ls (ls_index p.buf) st.ls tr st.rs.last_note hR
    (left_class_out_right _ hlsr) (idx_left_out_right _ _ i1)
  have n2 := owner_step 34 37 (by decide) p.now_rs (rs_index p.buf) st.rs _ m1 hrsr i2
  have l2 := other_step 30 33 p.now_rs (rs_index p.buf) st.rs _ _ n1.1
    (right_class_out_left _ hrsr) (idx_right_out_left _ _ i2)
  have l3 := other_step 30 33 p.now_lt (lt_index p.buf) st.lt _ _ l2
    (far_out_left _ hlt) (idx_far_out_left _ _ i3)
  have l4 := other_step 30 33 p.now_rt (rt_index p.buf) st.rt _ _ l3
    (far_out_left _ hrt) (idx_far_out_left _ _ i4)
  have l5 := other_step 30 33 p.now_extra (extra_index p.buf) st.extra _ _ l4
    (far_out_left _ hex) (idx_far_out_left _ _ i5)
  have r3 := other_step 34 37 p.now_lt (lt_index p.buf) st.lt _ _ n2.1
    (far_out_right _ hlt) (idx_far_out_right _ _ i3)
  have r4 := other_step 34 37 p.now_rt (rt_index p.buf) st.rt _ _ r3
    (far_out_right _ hrt) (idx_far_out_right _ _ i4)
  have r5 := other_step 34 37 p.now_extra (extra_index p.buf) st.extra _ _ r4
    (far_out_right _ hex) (idx_far_out_right _ _ i5)
  have d3 := far_step p.now_lt (lt_index p.buf) st.lt hlt i3
  have d4 := far_step p.now_rt (rt_index p.buf) st.rt hrt i4
  have d5 := far_step p.now_extra (extra_index p.buf) st.extra hex i5
  have c1 := process_midi_event_invariant p.now_ls (ls_index p.buf) st.ls hls
  have c2 := process_midi_event_invariant p.now_rs (rs_index p.buf) st.rs hrs
  rw [main_pass_trace, main_pass_state]
  unfold MainInv
  dsimp only
  exact ⟨c1, c2, n1.2, n2.2, d3, d4, d5, l5, r5⟩

theorem main_inv_init : MainInv MainSlots.init [] := by
  refine ⟨fun h => absurd rfl h, fun h => absurd rfl h, Or.inl rfl, Or.inl rfl,
    Or.inl (by decide), Or.inl (by decide), Or.inl (by decide), ?_, ?_⟩
  · refine ⟨?_, ?_⟩
    · intro n h1 h2
      show (false = true ↔ (-1 : Int) = n)
      constructor
      · intro h'
        exact absurd h' (by decide)
      · intro h'
        omega
    · intro p hp
      rw [List.prefix_nil] at hp
      rw [hp]
      refine ⟨-1, ?_⟩
      intro n h1 h2
      show (false = true ↔ (-1 : Int) = n)
      constructor
      · intro h'
        exact absurd h' (by decide)
      · intro h'
        omega
  · refine ⟨?_, ?_⟩
    · intro n h1 h2
      show (false = true ↔ (-1 : Int) = n)
      constructor
      · intro h'
        exact absurd h' (by decide)
      · intro h'
        omega
    · intro p hp
      rw [List.prefix_nil] at hp
      rw [hp]
      refine ⟨-1, ?_⟩
      intro n h1 h2
      show (false = true ↔ (-1 : Int) = n)
      constructor
      · intro h'
        exact absurd h' (by decide)
      · intro h'
        omega

theorem run_main_fold_invariant (passes : List Pass) (st : MainSlots)
    (tr : List MidiMessage) (h : MainInv st tr) :
    MainInv
      (passes.foldl (fun acc p => ((main_pass acc.1 p).1, acc.2 ++ (main_pass acc.1 p).2))
        (st, tr)).1
      (passes.foldl (fun acc p => ((main_pass acc.1 p).1, acc.2 ++ (main_pass acc.1 p).2))
        (st, tr)).2 := by
  induction passes generalizing st tr with
  | nil => exact h
  | cons p rest ih =>
    rw [List.foldl_cons]
    exact ih (main_pass st p).1 (tr ++ (main_pass st p).2) (main_pass_invariant st p tr h)

theorem run_main_invariant (passes : List Pass) :
    MainInv (run_main MainSlots.init passes).1 (run_main MainSlots.init passes).2 :=
  run_main_fold_invariant passes MainSlots.init [] main_inv_init

/-- A state of the range at a point of the messages leaves at most one of its notes on. -/
theorem tracks_at_most_one (lo hi : Int) (p : List MidiMessage) (l : Int)
    (h : Tracks lo hi p l) (n n' : Int) (h1 : lo ≤ n) (h2 : n ≤ hi) (h1' : lo ≤ n')
    (h2' : n' ≤ hi) (hn : sounding p n = true) (hn' : sounding p n' = true) : n = n' := by
  have a := (h n h1 h2).1 hn
  have b := (h n' h1' h2').1 hn'
  omega

end Combined

namespace Combined

theorem run_main_append_last (passes : List Pass) (last : Pass) :
    (run_main MainSlots.init (passes ++ [last])).1 =
      (main_pass (run_main MainSlots.init passes).1 last).1 := by
  simp only [run_main, List.foldl_append, List.foldl_cons, List.foldl_nil]

/-- C24 (one active axis note per stick, combined). For every sequence of passes of the main
loop from the initial slots: at every point of the sequence of messages sent, at most one of
the left stick's notes 30..33 and at most one of the right stick's notes 34..37 has a Note
On not yet followed by its Note Off; and after a pass in which the left stick is Neutral
none of 30..33 has, and after a pass in which the right stick is Neutral none of 34..37
has. -/
theorem one_active_axis_note (passes : List Pass) :
    (∀ p, p <+: (run_main MainSlots.init passes).2 →
      (∀ n n', 30 ≤ n → n ≤ 33 → 30 ≤ n' → n' ≤ 33 →
        sounding p n = true → sounding p n' = true → n = n') ∧
      (∀ n n', 34 ≤ n → n ≤ 37 → 34 ≤ n' → n' ≤ 37 →
        sounding p n = true → sounding p n' = true → n = n')) ∧
    (∀ last : Pass,
      get_joystick_direction (last.buf 1) (last.buf 2) = JoystickDirection.Neutral →
      ∀ n, 30 ≤ n → n ≤ 33 →
        sounding (run_main MainSlots.init (passes ++ [last])).2 n = false) ∧
    (∀ last : Pass,
      get_joystick_direction (last.buf 3) (last.buf 4) = JoystickDirection.Neutral →
      ∀ n, 34 ≤ n → n ≤ 37 →
        sounding (run_main MainSlots.init (passes ++ [last])).2 n = false) := by
  refine ⟨?_, ?_, ?_⟩
  · intro p hp
    obtain ⟨_, _, _, _, _, _, _, hL, hR⟩ := run_main_invariant passes
    obtain ⟨l, hl⟩ := hL.2 p hp
    obtain ⟨r, hr⟩ := hR.2 p hp
    exact ⟨fun n n' a b c d => tracks_at_most_one 30 33 p l hl n n' a b c d,
      fun n n' a b c d => tracks_at_most_one 34 37 p r hr n n' a b c d⟩
  · intro last hneutral n h1 h2
    obtain ⟨hls, _, _, _, _, _, _, _, _⟩ := run_main_invariant passes
    obtain ⟨_, _, _, _, _, _, _, hL, _⟩ := run_main_invariant (passes ++ [last])
    have hidx := (ls_index_range last.buf).2 hneutral
    have hnote : (run_main MainSlots.init (passes ++ [last])).1.ls.last_note = -1 := by
      rw [run_main_append_last, main_pass_state]
      dsimp only
      rw [hidx]
      exact release_clears last.now_ls _ hls
    rw [hnote] at hL
    have := hL.1 n h1 h2
    cases hs : sounding (run_main MainSlots.init (passes ++ [last])).2 n
    · rfl
    · have := this.1 hs
      omega
  · intro last hneutral n h1 h2
    obtain ⟨_, hrs, _, _, _, _, _, _, _⟩ := run_main_invariant passes
    obtain ⟨_, _, _, _, _, _, _, _, hR⟩ := run_main_invariant (passes ++ [last])
    have hidx := (rs_index_range last.buf).2 hneutral
    have hnote : (run_main MainSlots.init (passes ++ [last])).1.rs.last_note = -1 := by
      rw [run_main_append_last, main_pass_state]
      dsimp only
      rw [hidx]
      exact release_clears last.now_rs _ hrs
    rw [hnote] at hR
    have := hR.1 n h1 h2
    cases hs : sounding (run_main MainSlots.init (passes ++ [last])).2 n
    · rfl
    · have := this.1 hs
      omega

/-- The left stick going Left, then Up, then Neutral: Note On 32, Note Off 32, Note On 30,
Note Off 30; after the Neutral pass note 30 is off. -/
theorem one_active_axis_note_witness :
    get_joystick_direction (pass_neutral.buf 1) (pass_neutral.buf 2) =
      JoystickDirection.Neutral ∧
    sounding (run_main MainSlots.init ([pass_left, pass_up] ++ [pass_neutral])).2 30 = false ∧
    (run_main MainSlots.init ([pass_left, pass_up] ++ [pass_neutral])).2 =
      [{ status := 0x90, data1 := 32, data2 := 127 }, { status := 0x80, data1 := 32, data2 := 0 },
       { status := 0x90, data1 := 30, data2 := 127 },
       { status := 0x80, data1 := 30, data2 := 0 }] ∧
    sounding (run_main MainSlots.init [pass_left, pass_up]).2 30 = true ∧
    sounding (run_main MainSlots.init [pass_left, pass_up]).2 32 = false :=
  ⟨by decide,
   (one_active_axis_note [pass_left, pass_up]).2.1 pass_neutral (by decide) 30 (by decide)
     (by decide),
   by decide, by decide, by decide⟩

end Combined

/-! ### The registry holds no duplicates (joystick_midi_map_full.c) -/

namespace MapFull

theorem no_duplicates_init : NoDuplicates Registry.init := by
  intro i j hi
  exact absurd hi (Nat.not_lt_zero i)

/-- One step keeps the registry free of duplicates: a found snapshot changes nothing, and a
snapshot is stored only when no slot below `combo_count` holds it. -/
theorem no_duplicates_step (ok : Bool) (r r' : Registry) (buf : Bytes) (len : Nat) (id : Int)
    (hinv : NoDuplicates r) (h : lookup_or_insert ok r buf len = some (id, r')) :
    NoDuplicates r' := by
  rcases lookup_or_insert_cases ok r r' buf len id h with ⟨_, _, h3⟩ | ⟨hnf, _, h3⟩
  · rw [h3]
    exact hinv
  · obtain ⟨hcount, _, hother⟩ := store_combo_some ok r r' buf len h3
    have hstored := store_combo_stored ok r r' buf len h3
    have hnone := (find_combo_eq_neg_one_iff r buf len).1 hnf
    have hold : ∀ i, i < r.combo_count →
        ¬ ((r'.combos i).len = (r'.combos r.combo_count).len ∧
          ∀ k, k < (r'.combos i).len →
            (r'.combos i).data k = (r'.combos r.combo_count).data k) := by
      intro i hi hsame
      apply hnone i hi
      rw [← stored_congr r r' buf len i (hother i (by omega))]
      unfold Stored at hstored ⊢
      refine ⟨by rw [hsame.1, hstored.1], ?_⟩
      intro k hk
      rw [hsame.2 k (by rw [hsame.1, hstored.1]; exact hk)]
      exact hstored.2 k hk
    intro i j hi hj hlen hdata
    rw [hcount] at hi hj
    by_cases hin : i = r.combo_count
    · by_cases hjn : j = r.combo_count
      · rw [hin, hjn]
      · exfalso
        apply hold j (by omega)
        rw [hin] at hlen hdata
        refine ⟨hlen.symm, ?_⟩
        intro k hk
        rw [← hlen] at hk
        exact (hdata k hk).symm
    · by_cases hjn : j = r.combo_count
      · exfalso
        apply hold i (by omega)
        rw [hjn] at hlen hdata
        exact ⟨hlen, hdata⟩
      · rw [hother i hin, hother j hjn] at hlen
        have hdata' : ∀ k, k < (r.combos i).len → (r.combos i).data k = (r.combos j).data k := by
          intro k hk
          have := hdata k (by rw [hother i hin]; exact hk)
          rw [hother i hin, hother j hjn] at this
          exact this
        exact hinv i j (by omega) (by omega) hlen hdata'

/-- The id of a step names a slot below the new `combo_count` that stores the snapshot. -/
theorem lookup_or_insert_id_stored (ok : Bool) (r r' : Registry) (buf : Bytes) (len : Nat)
    (id : Int) (h : lookup_or_insert ok r buf len = some (id, r')) :
    ∃ m : Nat, id = (m : Int) ∧ m < r'.combo_count ∧ Stored r' buf len m := by
  rcases lookup_or_insert_cases ok r r' buf len id h with ⟨hf, h2, h3⟩ | ⟨_, h2, h3⟩
  · rcases find_combo_spec r buf len with ⟨h1, _⟩ | ⟨m, h1, hm, hs, _⟩
    · exact absurd h1 hf
    · rw [h3]
      exact ⟨m, by rw [h2, h1], hm, hs⟩
  · obtain ⟨hcount, _, _⟩ := store_combo_some ok r r' buf len h3
    exact ⟨r.combo_count, h2, by omega, store_combo_stored ok r r' buf len h3⟩

theorem lookup_or_insert_ids_cons (ok : Bool) (buf : Bytes) (len : Nat)
    (rest : List (Bool × Bytes × Nat)) (r r' : Registry) (ids : List Int)
    (h : lookup_or_insert_ids r ((ok, buf, len) :: rest) = some (ids, r')) :
    ∃ id r1 ids', lookup_or_insert ok r buf len = some (id, r1) ∧
      lookup_or_insert_ids r1 rest = some (ids', r') ∧ ids = id :: ids' := by
  unfold lookup_or_insert_ids at h
  cases hstep : lookup_or_insert ok r buf len with
  | none => rw [hstep] at h; exact absurd h (by simp)
  | some p =>
    obtain ⟨id, r1⟩ := p
    rw [hstep] at h
    dsimp only at h
    cases hrest : lookup_or_insert_ids r1 rest with
    | none => rw [hrest] at h; exact absurd h (by simp)
    | some q =>
      obtain ⟨ids', r2⟩ := q
      rw [hrest] at h
      simp only [Option.some.injEq, Prod.mk.injEq] at h
      exact ⟨id, r1, ids', rfl, by rw [← h.2]; exact hrest, h.1.symm⟩

theorem lookup_or_insert_ids_keeps (calls : List (Bool × Bytes × Nat)) (r r' : Registry)
    (ids : List Int) (h : lookup_or_insert_ids r calls = some (ids, r')) :
    r.combo_count ≤ r'.combo_count ∧ ∀ i, i < r.combo_count → r'.combos i = r.combos i := by
  induction calls generalizing r ids with
  | nil =>
    simp only [lookup_or_insert_ids, Option.some.injEq, Prod.mk.injEq] at h
    rw [← h.2]
    exact ⟨le_refl _, fun _ _ => rfl⟩
  | cons c rest ih =>
    obtain ⟨ok, buf, len⟩ := c
    obtain ⟨id, r1, ids', hstep, hrest, _⟩ := lookup_or_insert_ids_cons ok buf len rest r r' ids h
    obtain ⟨hc1, he1⟩ := lookup_or_insert_keeps ok r r1 buf len id hstep
    obtain ⟨hc2, he2⟩ := ih r1 ids' hrest
    refine ⟨by omega, ?_⟩
    intro i hi
    rw [he2 i (by omega), he1 i hi]

theorem lookup_or_insert_ids_no_duplicates (calls : List (Bool × Bytes × Nat))
    (r r' : Registry) (ids : List Int) (hinv : NoDuplicates r)
    (h : lookup_or_insert_ids r calls = some (ids, r')) : NoDuplicates r' := by
  induction calls generalizing r ids with
  | nil =>
    simp only [lookup_or_insert_ids, Option.some.injEq, Prod.mk.injEq] at h
    rw [← h.2]
    exact hinv
  | cons c rest ih =>
    obtain ⟨ok, buf, len⟩ := c
    obtain ⟨id, r1, ids', hstep, hrest, _⟩ := lookup_or_insert_ids_cons ok buf len rest r r' ids h
    exact ih r1 ids' (no_duplicates_step ok r r1 buf len id hinv hstep) hrest

/-- Every id of a run names a slot of the final registry that stores the snapshot of its
step. -/
theorem lookup_or_insert_ids_stored (calls : List (Bool × Bytes × Nat)) (r r' : Registry)
    (ids : List Int) (h : lookup_or_insert_ids r calls = some (ids, r')) :
    ids.length = calls.length ∧
    ∀ (a : Nat) (c : Bool × Bytes × Nat) (id : Int), calls[a]? = some c → ids[a]? = some id →
      ∃ m : Nat, id = (m : Int) ∧ m < r'.combo_count ∧ Stored r' c.2.1 c.2.2 m := by
  induction calls generalizing r ids with
  | nil =>
    simp only [lookup_or_insert_ids, Option.some.injEq, Prod.mk.injEq] at h
    rw [← h.1]
    refine ⟨rfl, ?_⟩
    intro a c id hc
    simp at hc
  | cons c0 rest ih =>
    obtain ⟨ok, buf, len⟩ := c0
    obtain ⟨id0, r1, ids', hstep, hrest, hids⟩ :=
      lookup_or_insert_ids_cons ok buf len rest r r' ids h
    obtain ⟨hlen, hall⟩ := ih r1 ids' hrest
    rw [hids]
    refine ⟨by simp [hlen], ?_⟩
    intro a c id hc hid
    cases a with
    | zero =>
      simp only [List.getElem?_cons_zero, Option.some.injEq] at hc hid
      rw [← hc, ← hid]
      obtain ⟨m, h1, h2, h3⟩ := lookup_or_insert_id_stored ok r r1 buf len id0 hstep
      obtain ⟨hk1, hk2⟩ := lookup_or_insert_ids_keeps rest r1 r' ids' hrest
      refine ⟨m, h1, by omega, ?_⟩
      rw [stored_congr r1 r' buf len m (hk2 m h2)]
      exact h3
    | succ a =>
      simp only [List.getElem?_cons_succ] at hc hid
      exact hall a c id hc hid

theorem lookup_or_insert_ids_returns (calls : List (Bool × Bytes × Nat)) (r : Registry)
    (hok : ∀ c ∈ calls, c.1 = true) : (lookup_or_insert_ids r calls).isSome = true := by
  induction calls generalizing r with
  | nil => rfl
  | cons c rest ih =>
    obtain ⟨ok, buf, len⟩ := c
    have hok1 : ok = true := hok (ok, buf, len) (List.mem_cons_self _ _)
    have hrest : ∀ c ∈ rest, c.1 = true := fun c hc => hok c (List.mem_cons_of_mem _ hc)
    unfold lookup_or_insert_ids
    by_cases hf : find_combo r buf len = -1
    · obtain ⟨r1, hr1, _⟩ := lookup_or_insert_new ok r buf len hf (Or.inl hok1)
      rw [hr1]
      dsimp only
      have := ih r1 hrest
      cases hrun : lookup_or_insert_ids r1 rest with
      | none => rw [hrun] at this; exact absurd this (by simp)
      | some q => rfl
    · rw [lookup_or_insert_found ok r buf len hf]
      dsimp only
      have := ih r hrest
      cases hrun : lookup_or_insert_ids r rest with
      | none => rw [hrun] at this; exact absurd this (by simp)
      | some q => rfl

/-- C29 (registry holds no duplicates). Starting from the empty registry, for every sequence
of `lookup_or_insert` steps with snapshots of length at most 65: the sequence runs to its
end when `realloc` succeeds in every step; and whenever it runs to its end, no two entries
below `combo_count` have the same length and the same bytes, an entry that stores a
snapshot is the one `find_combo` returns and the only one that stores it, and two steps that
received the same id had snapshots of the same length with the same bytes. -/
theorem registry_no_duplicates (calls : List (Bool × Bytes × Nat))
    (_hlen : ∀ c ∈ calls, c.2.2 ≤ BUF_SIZE) :
    ((∀ c ∈ calls, c.1 = true) → (lookup_or_insert_ids Registry.init calls).isSome = true) ∧
    ∀ ids r', lookup_or_insert_ids Registry.init calls = some (ids, r') →
      (∀ i j, i < r'.combo_count → j < r'.combo_count →
        (r'.combos i).len = (r'.combos j).len →
        (∀ k, k < (r'.combos i).len → (r'.combos i).data k = (r'.combos j).data k) →
        i = j) ∧
      (∀ (buf : Bytes) (len m : Nat), m < r'.combo_count → Stored r' buf len m →
        find_combo r' buf len = (m : Int) ∧
        ∀ j, j < r'.combo_count → Stored r' buf len j → j = m) ∧
      (∀ (a b : Nat) (ca cb : Bool × Bytes × Nat) (id : Int),
        calls[a]? = some ca → calls[b]? = some cb →
        ids[a]? = some id → ids[b]? = some id →
        ca.2.2 = cb.2.2 ∧ ∀ k, k < ca.2.2 → ca.2.1 k = cb.2.1 k) := by
  refine ⟨lookup_or_insert_ids_returns calls Registry.init, ?_⟩
  intro ids r' h
  have hnd := lookup_or_insert_ids_no_duplicates calls Registry.init r' ids no_duplicates_init h
  have honly : ∀ (buf : Bytes) (len m : Nat), m < r'.combo_count → Stored r' buf len m →
      ∀ j, j < r'.combo_count → Stored r' buf len j → j = m := by
    intro buf len m hm hs j hj hsj
    apply hnd j m hj hm
    · rw [hsj.1, hs.1]
    · intro k hk
      rw [hsj.1] at hk
      rw [hsj.2 k hk, hs.2 k hk]
  refine ⟨hnd, ?_, ?_⟩
  · intro buf len m hm hs
    refine ⟨?_, honly buf len m hm hs⟩
    apply find_combo_eq_of_first r' buf len m hm hs
    intro j hj hsj
    have := honly buf len m hm hs j (by omega) hsj
    omega
  · intro a b ca cb id hca hcb hia hib
    obtain ⟨_, hall⟩ := lookup_or_insert_ids_stored calls Registry.init r' ids h
    obtain ⟨m, h1, _, h3⟩ := hall a ca id hca hia
    obtain ⟨m', h1', _, h3'⟩ := hall b cb id hcb hib
    have hmm : m' = m := by omega
    rw [hmm] at h3'
    refine ⟨by rw [← h3.1, ← h3'.1], ?_⟩
    intro k hk
    rw [← h3.2 k hk, h3'.2 k (by rw [h3'.1.symm.trans h3.1] at *; exact hk)]

/-- The snapshots `[00 11 22]`, `[00 11 23]`, `[00 11 22]` on the empty registry get the ids
0, 1, 0, and the registry ends with two entries. -/
theorem registry_no_duplicates_witness :
    (∀ c ∈ [(true, report_00_11_22, 3), (true, report_00_11_23, 3),
        (false, report_00_11_22, 3)], c.2.2 ≤ BUF_SIZE) ∧
    (lookup_or_insert_ids Registry.init
      [(true, report_00_11_22, 3), (true, report_00_11_23, 3),
       (false, report_00_11_22, 3)]).map (fun p => (p.1, p.2.combo_count)) =
      some ([0, 1, 0], 2) ∧
    (∀ ids r', lookup_or_insert_ids Registry.init
        [(true, report_00_11_22, 3), (true, report_00_11_23, 3),
         (false, report_00_11_22, 3)] = some (ids, r') →
      ∀ i j, i < r'.combo_count → j < r'.combo_count →
        (r'.combos i).len = (r'.combos j).len →
        (∀ k, k < (r'.combos i).len → (r'.combos i).data k = (r'.combos j).data k) →
        i = j) :=
  ⟨by decide, by decide,
   fun ids r' h =>
    ((registry_no_duplicates
      [(true, report_00_11_22, 3), (true, report_00_11_23, 3), (false, report_00_11_22, 3)]
      (by decide)).2 ids r' h).1⟩

end MapFull

end Santiscoding
